import Mathlib

/-!
# MSFSAPBridge: the bridge engine of `msfs_ap_bridge.cpp`

A shallow embedding of the actuator receive loop (`rx_thread`), of the telemetry loop
(`sim_thread`): the handlers of the dispatched simulator messages, the origin capture, the
flat-earth projection, the failover to the actuator frame (priority of the intercept group,
control events), the pacing and the emission of outbound records, and of the mapping of
joystick axes to RC slots (`joy_thread`).

Conventions of the embedding
* `uint8_t`, `uint16_t`, `uint32_t` are naturals, reduced modulo `2^8` where a byte is read
  from the receive buffer; multi-byte fields are assembled little-endian, as the packed
  structs are laid out on the target.
* `double` values that the code only ever produces as finite numbers (normalized actuator
  values, RC slots, accumulators) are rationals: arithmetic is exact, rounding is not
  modelled.
* `double` values that arrive from the simulator are `Dbl`: a rational or one of the IEEE
  special values, because the code tests them with `std::isfinite`.
* `std::chrono::steady_clock` readings are naturals (nanoseconds), `GetTickCount64`
  readings are naturals (milliseconds); both are inputs of the step that reads them.
* Each loop iteration is a function from the state before to the state after; what the
  operating system and the simulator deliver (datagrams, messages, clock readings, the
  result of `socket`, `sim_open` and `snprintf`) are arguments.
* Status messages, rate statistics and the file logger do not act on the state modelled
  here and are left out.
* What the program asks of the simulator is recorded as data: the priority last set for the
  input group `GRP_INTERCEPT` in the open session, and the list of control events sent in
  an iteration, each with its channel and its 32-bit parameter.
-/

namespace MSFSAPBridge

/-! ## Scalars -/

/-- The helper `clampd(v, lo, hi)`: `v<lo ? lo : (v>hi ? hi : v)`. -/
def clampd (v lo hi : ℚ) : ℚ := if v < lo then lo else if v > hi then hi else v

/-- The template helper `iclamp(v, lo, hi)` at type `int`. -/
def iclamp (v lo hi : Int) : Int := if v < lo then lo else if v > hi then hi else v

/-! ## Wire format of the inbound actuator datagram -/

/-- Byte `i` of the receive buffer (a `uint8_t`). -/
def byteAt (buf : List Nat) (i : Nat) : Nat := buf.getD i 0 % 256

/-- A little-endian `uint16_t` field at byte offset `off`. -/
def u16le (buf : List Nat) (off : Nat) : Nat := byteAt buf off + 256 * byteAt buf (off + 1)

/-- A little-endian `uint32_t` field at byte offset `off`. -/
def u32le (buf : List Nat) (off : Nat) : Nat :=
  byteAt buf off + 256 * byteAt buf (off + 1) + 65536 * byteAt buf (off + 2)
    + 16777216 * byteAt buf (off + 3)

/-- Value of `sizeof(servo_packet_16)`: `4 + 4 + 16*2`. -/
def sizeof_servo_packet_16 : Nat := 4 + 4 + 16 * 2

/-- Value of `sizeof(servo_packet_32)`: `4 + 4 + 32*2`. -/
def sizeof_servo_packet_32 : Nat := 4 + 4 + 32 * 2

/-- Field `magic` of a packed servo packet overlaid on the buffer. -/
def pkt_magic (buf : List Nat) : Nat := u16le buf 0

/-- Field `frame_rate` of a packed servo packet overlaid on the buffer. -/
def pkt_frame_rate (buf : List Nat) : Nat := u16le buf 2

/-- Field `frame_count` of a packed servo packet overlaid on the buffer. -/
def pkt_frame_count (buf : List Nat) : Nat := u32le buf 4

/-- Element `pwm[i]` of a packed servo packet overlaid on the buffer. -/
def pkt_pwm (buf : List Nat) (i : Nat) : Nat := u16le buf (8 + 2 * i)

/-- The first `n` elements of the packet array `pwm`, the source of the `memcpy`. -/
def pkt_pwm_block (buf : List Nat) (n : Nat) : List Nat := (List.range n).map (pkt_pwm buf)

/-! ## Shared state written by the receive loop -/

/-- The fields of `struct sockaddr_in` the program looks at. -/
structure SockAddr where
  sin_family : Nat := 0
  sin_port : Nat := 0
  sin_addr : Nat := 0
deriving DecidableEq, Repr

/-- Value of the constant `AF_INET`. -/
def AF_INET : Nat := 2

/-- Mirror of `struct PWMLast`: last PWM frame received plus timing metadata. -/
structure PWMLast where
  rate_hz : Nat := 0
  frame : Nat := 0
  pwm : List Nat := []
  tlast : Nat := 0
deriving DecidableEq, Repr

/-- The globals that `rx_thread` writes: `g_sitl_addr`, `g_sitl_addr_known`, `G.pwm`,
`G.sitl_out_pwm` and `G.sitl_has_ch`. -/
structure RxShared where
  g_sitl_addr : SockAddr := {}
  g_sitl_addr_known : Bool := false
  pwm : PWMLast := {}
  sitl_out_pwm : List ℚ := List.replicate 16 0
  sitl_has_ch : List Bool := List.replicate 16 false
deriving DecidableEq, Repr

/-- The lambda `normalize_pwm` of `rx_thread`. -/
def normalize_pwm (pwm : Nat) (is_throttle_or_aux : Bool) : ℚ :=
  if is_throttle_or_aux then clampd (((pwm : ℚ) - 1000) / 1000) 0 1
  else clampd (((pwm : ℚ) - 1500) / 500) (-1) 1

/-- The statement `if (v.size() < n) v.resize(n);` on a vector of `uint16_t`. -/
def vec_grow (v : List Nat) (n : Nat) : List Nat :=
  if v.length < n then v ++ List.replicate (n - v.length) 0 else v

/-- The statement `memcpy(v.data(), src, n * sizeof(uint16_t))` on a vector that holds at
least `n` elements: the first `n` are replaced, the others stay. -/
def vec_memcpy (v : List Nat) (src : List Nat) (n : Nat) : List Nat := src.take n ++ v.drop n

/-- The accepting branch shared by both packet variants (`n` is 16 or 32): learn the peer,
store the frame, recompute the 16 normalized channels. -/
def rx_accept (s : RxShared) (buf : List Nat) (from_addr : SockAddr) (now : Nat) (n : Nat) :
    RxShared :=
  { s with
    g_sitl_addr := from_addr
    g_sitl_addr_known := true
    pwm := { s.pwm with
      pwm := vec_memcpy (vec_grow s.pwm.pwm n) (pkt_pwm_block buf n) n
      tlast := now
      rate_hz := pkt_frame_rate buf }
    sitl_out_pwm := (List.range 16).map
      (fun i => normalize_pwm (pkt_pwm buf i) (decide (i = 2 ∨ i ≥ 4)))
    sitl_has_ch := (List.range 16).map (fun _ => true) }

/-- One iteration of the `while(RUN)` loop of `rx_thread` after `rx.recv` returned `len`
with the datagram in the first `len` bytes of `buf`, `from_addr` its source and `now` the
reading of the steady clock taken when the frame is stored. -/
def rx_step (s : RxShared) (buf : List Nat) (len : Int) (from_addr : SockAddr) (now : Nat) :
    RxShared :=
  if len ≤ 0 then s
  else if len ≥ (sizeof_servo_packet_16 : Int) ∧ pkt_magic buf = 18458 then
    rx_accept s buf from_addr now 16
  else if len ≥ (sizeof_servo_packet_32 : Int) ∧ pkt_magic buf = 29569 then
    rx_accept s buf from_addr now 32
  else s

/-- The condition under which a datagram is accepted, as the specification words it. -/
def rx_accepted (buf : List Nat) (len : Int) : Prop :=
  (len ≥ 40 ∧ u16le buf 0 = 18458) ∨ (len ≥ 72 ∧ u16le buf 0 = 29569)

instance (buf : List Nat) (len : Int) : Decidable (rx_accepted buf len) :=
  inferInstanceAs (Decidable ((len ≥ 40 ∧ u16le buf 0 = 18458) ∨ (len ≥ 72 ∧ u16le buf 0 = 29569)))

/-! ## Doubles that come from the simulator -/

/-- A `double`: a finite value (taken as an exact rational; rounding, overflow and the sign
of zero are not modelled) or one of the IEEE special values. -/
inductive Dbl where
  | fin (q : ℚ)
  | pinf
  | ninf
  | nan
deriving DecidableEq, Repr

namespace Dbl

/-- The library test `std::isfinite`. -/
def isfinite : Dbl → Bool
  | fin _ => true
  | _ => false

/-- The library function `fabs`. -/
def fabs : Dbl → Dbl
  | fin q => fin |q|
  | pinf => pinf
  | ninf => pinf
  | nan => nan

/-- Unary minus. -/
def neg : Dbl → Dbl
  | fin q => fin (-q)
  | pinf => ninf
  | ninf => pinf
  | nan => nan

/-- The comparison `a < b`; false when either side is NaN. -/
def lt : Dbl → Dbl → Bool
  | fin a, fin b => decide (a < b)
  | fin _, pinf => true
  | ninf, fin _ => true
  | ninf, pinf => true
  | _, _ => false

/-- The comparison `a <= b`; false when either side is NaN. -/
def le : Dbl → Dbl → Bool
  | fin a, fin b => decide (a ≤ b)
  | fin _, pinf => true
  | ninf, fin _ => true
  | ninf, pinf => true
  | pinf, pinf => true
  | ninf, ninf => true
  | _, _ => false

/-- Addition. -/
def add : Dbl → Dbl → Dbl
  | fin a, fin b => fin (a + b)
  | nan, _ => nan
  | _, nan => nan
  | pinf, ninf => nan
  | ninf, pinf => nan
  | pinf, _ => pinf
  | _, pinf => pinf
  | ninf, _ => ninf
  | _, ninf => ninf

/-- Subtraction. -/
def sub (a b : Dbl) : Dbl := add a (neg b)

/-- An infinity with the sign of `q * s`, or NaN when `q = 0` (the product `0 * inf`). -/
def scaleInf (q : ℚ) (positive : Bool) : Dbl :=
  if q = 0 then nan else if (decide (0 < q)) = positive then pinf else ninf

/-- Multiplication. -/
def mul : Dbl → Dbl → Dbl
  | fin a, fin b => fin (a * b)
  | nan, _ => nan
  | _, nan => nan
  | fin a, pinf => scaleInf a true
  | fin a, ninf => scaleInf a false
  | pinf, fin b => scaleInf b true
  | ninf, fin b => scaleInf b false
  | pinf, pinf => pinf
  | ninf, ninf => pinf
  | pinf, ninf => ninf
  | ninf, pinf => ninf

/-- Division (a zero divisor counts as `+0`). -/
def div : Dbl → Dbl → Dbl
  | fin a, fin b => if b = 0 then (if a = 0 then nan else if 0 < a then pinf else ninf)
      else fin (a / b)
  | nan, _ => nan
  | _, nan => nan
  | fin _, pinf => fin 0
  | fin _, ninf => fin 0
  | pinf, fin b => if 0 ≤ b then pinf else ninf
  | ninf, fin b => if 0 ≤ b then ninf else pinf
  | pinf, pinf => nan
  | pinf, ninf => nan
  | ninf, pinf => nan
  | ninf, ninf => nan

/-- The library function `std::max(a, b)`: `(a < b) ? b : a`. -/
def max (a b : Dbl) : Dbl := if lt a b then b else a

/-- Truncation of a rational towards zero. -/
def truncQ (q : ℚ) : Int := if 0 ≤ q then ⌊q⌋ else ⌈q⌉

/-- The library function `fmod(x, y)`. -/
def fmod : Dbl → Dbl → Dbl
  | fin a, fin b => if b = 0 then nan else fin (a - b * (truncQ (a / b) : ℚ))
  | fin a, pinf => fin a
  | fin a, ninf => fin a
  | _, _ => nan

instance : Add Dbl := ⟨add⟩
instance : Sub Dbl := ⟨sub⟩
instance : Mul Dbl := ⟨mul⟩
instance : Div Dbl := ⟨div⟩
instance : Neg Dbl := ⟨neg⟩
instance : Inhabited Dbl := ⟨fin 0⟩

end Dbl

/-- The trigonometric functions of the C library on finite doubles; on an infinity or a NaN
they return NaN. -/
structure Libm where
  cos : ℚ → ℚ
  sin : ℚ → ℚ

/-- Library `cos` on a double. -/
def Libm.dcos (L : Libm) : Dbl → Dbl
  | Dbl.fin q => Dbl.fin (L.cos q)
  | _ => Dbl.nan

/-- Library `sin` on a double. -/
def Libm.dsin (L : Libm) : Dbl → Dbl
  | Dbl.fin q => Dbl.fin (L.sin q)
  | _ => Dbl.nan

/-- The constant `M_PI`. -/
def M_PI : ℚ := 314159265358979323846 / 100000000000000000000

/-- The helper `deg2rad`: `deg * (M_PI / 180.0)`. -/
def deg2rad (deg : Dbl) : Dbl := deg * Dbl.fin (M_PI / 180)

/-- The helper `ft2m`: `ft * 0.3048`. -/
def ft2m (ft : Dbl) : Dbl := ft * Dbl.fin (3048 / 10000)

/-- The helper `kt2ms`: `kt * 0.514444`. -/
def kt2ms (kt : Dbl) : Dbl := kt * Dbl.fin (514444 / 1000000)

/-- The constant `DEG2RAD` of the projection: 0.01745329251994329577. -/
def DEG2RAD : ℚ := 1745329251994329577 / 100000000000000000000

/-! ## Telemetry samples and the shared configuration -/

/-- Mirror of `struct RawSensors`. -/
structure RawSensors where
  lat_deg : Dbl := Dbl.fin 0
  lon_deg : Dbl := Dbl.fin 0
  alt_msl_ft : Dbl := Dbl.fin 0
  alt_agl_ft : Dbl := Dbl.fin 0
  pitch_deg : Dbl := Dbl.fin 0
  bank_deg : Dbl := Dbl.fin 0
  hdg_true_deg : Dbl := Dbl.fin 0
  ias_kt : Dbl := Dbl.fin 0
  vel_e_fps : Dbl := Dbl.fin 0
  vel_n_fps : Dbl := Dbl.fin 0
  vel_u_fps : Dbl := Dbl.fin 0
  p_rads : Dbl := Dbl.fin 0
  q_rads : Dbl := Dbl.fin 0
  r_rads : Dbl := Dbl.fin 0
  accel_x_fps2 : Dbl := Dbl.fin 0
  accel_y_fps2 : Dbl := Dbl.fin 0
  accel_z_fps2 : Dbl := Dbl.fin 0
  engine_rpm : Dbl := Dbl.fin 0
  prop_rpm : Dbl := Dbl.fin 0
  prop_pitch_rad : Dbl := Dbl.fin 0
  radio_height_ft : Dbl := Dbl.fin 0
  ground_alt_ft : Dbl := Dbl.fin 0
  N_m : Dbl := Dbl.fin 0
  E_m : Dbl := Dbl.fin 0
  U_m : Dbl := Dbl.fin 0
  valid : Bool := false
deriving DecidableEq, Repr

/-- Mirror of `struct Dest`. -/
structure Dest where
  ip : String := "127.0.0.1"
  port_tx : Nat := 9003
  port_rx : Nat := 9002
deriving DecidableEq, Repr

/-- Mirror of `struct JoyMapCfg`: the RC destination of a joystick axis (0 = none), its
inversion sign and its override mode. -/
structure JoyMapCfg where
  rcDest : Int := 0
  srcInv : Int := 1
  overrideMode : Int := 0
deriving DecidableEq, Repr

/-- The fields of `struct Shared` (the global `G`) that the engine reads or writes, with the
initialisers of the source. `rc_out` is zero-initialised (`double rc_out[12]{}`). -/
structure Shared where
  invsim_ch : List Bool := List.replicate 16 false
  dest : Dest := {}
  rate_hz : Int := 1000
  match_sim_rate : Bool := false
  resample_mode : Int := 0
  sim_dt_ms : ℚ := 333 / 10
  use_time_sync : Bool := true
  no_lockstep : Bool := false
  json_pos_mode : Int := 0
  sim_origin_set : Bool := true
  sim_origin_lat : Dbl := Dbl.fin (-35363261 / 1000000)
  sim_origin_lon : Dbl := Dbl.fin (149165230 / 1000000)
  sim_origin_alt_m : Dbl := Dbl.fin 584
  sim_earth_radius : Dbl := Dbl.fin 6378137
  joy_map : List JoyMapCfg := List.replicate 12 {}
  R : RawSensors := {}
  raw_axes : List ℚ := List.replicate 12 0
  rc_out : List ℚ := List.replicate 12 0
deriving DecidableEq, Repr

/-- The lambda `sane_pos` of `sim_thread`. The literal `1e-9` is taken at its decimal
value. -/
def sane_pos (la lo : Dbl) : Bool :=
  la.isfinite && lo.isfinite &&
  Dbl.le la.fabs (Dbl.fin 90) && Dbl.le lo.fabs (Dbl.fin 180) &&
  !(Dbl.lt la.fabs (Dbl.fin (1 / 1000000000)) && Dbl.lt lo.fabs (Dbl.fin (1 / 1000000000)))

/-! ## The telemetry loop `sim_thread`: state -/

/-- Mirror of `class UdpTx`: whether `sock_` is a valid socket, and the remembered `ip_`,
`port_`. -/
structure UdpTx where
  sock_open : Bool := false
  ip_ : String := ""
  port_ : Nat := 0
deriving DecidableEq, Repr

/-- The method `UdpTx::open`; `socket_ok` tells whether the system call `socket` succeeded. -/
def UdpTx.open (tx : UdpTx) (_ip : String) (_port : Nat) (socket_ok : Bool) : UdpTx × Bool :=
  if !socket_ok then ({ tx with sock_open := false }, false)
  else ({ sock_open := true, ip_ := "stateless", port_ := 0 }, true)

/-- The method `UdpTx::needs_reopen`. -/
def UdpTx.needs_reopen (tx : UdpTx) (ip : String) (port : Nat) : Bool :=
  ip != tx.ip_ || port != tx.port_

/-- The method `UdpTx::send_buffer`: true when the buffer is handed to `sendto` for `dest`. -/
def UdpTx.send_buffer (tx : UdpTx) (dest : SockAddr) : Bool :=
  if !tx.sock_open then false
  else if dest.sin_family != AF_INET || dest.sin_port == 0 then false
  else true

/-- The locals and statics of `sim_thread`, and the flag `g_sim_ok` it owns. Steady-clock
readings are in nanoseconds, `GetTickCount64` readings in milliseconds. -/
structure SimLocal where
  R_receive_buffer : RawSensors := {}
  R_prev_sample : RawSensors := {}
  R_prev_ms : Nat := 0
  R_last_ms : Nat := 0
  last_ms : Nat := 0
  next_try : Nat := 0
  simconnect_attempts : Int := 0
  t_phys_acc : ℚ := 0
  udp_send_acc : ℚ := 0
  t_prev : Nat := 0
  origin_captured : Bool := false
  last_pos_mode : Int := -1
  g_sim_ok : Bool := false
  tx : UdpTx := {}
deriving DecidableEq, Repr

/-- The whole state of the bridge engine: what `rx_thread` writes, the global `G`, and the
state of `sim_thread`. -/
structure Bridge where
  rx : RxShared := {}
  G : Shared := {}
  sim : SimLocal := {}
deriving DecidableEq, Repr

/-- The state at program start, with the socket of `tx.open("", 0)` created. -/
def bridge_init : Bridge := { sim := { tx := (UdpTx.open {} "" 0 true).1 } }

/-- The receive loop acting on the whole state. -/
def Bridge.rx_step (b : Bridge) (buf : List Nat) (len : Int) (from_addr : SockAddr)
    (now : Nat) : Bridge :=
  { b with rx := MSFSAPBridge.rx_step b.rx buf len from_addr now }

/-- A message returned by `SimConnect_GetNextDispatch`: a quit notification (with the
steady-clock reading taken in its handler), a data push (request id, the array of doubles
`v`, the `GetTickCount64` reading), or any other message. -/
inductive SimMsg where
  | quit (now : Nat)
  | data (request_id : Nat) (v : Nat → Dbl) (now_ms : Nat)
  | other

/-- Value of the enumerator `REQ_SENSORS`. -/
def REQ_SENSORS : Nat := 1

/-! ## The telemetry loop: ingesting a pushed sample -/

/-- The assignments of the pushed array `v` to `R_receive_buffer`, followed by the choice of
the AGL altitude. -/
def read_sensors (v : Nat → Dbl) (old : RawSensors) : RawSensors :=
  let r : RawSensors :=
    { old with
      lat_deg := v 0, lon_deg := v 1, alt_msl_ft := v 2, alt_agl_ft := v 3,
      pitch_deg := v 4, bank_deg := v 5, hdg_true_deg := v 6, ias_kt := v 7,
      vel_e_fps := v 8, vel_n_fps := v 9, vel_u_fps := v 10,
      p_rads := v 13, q_rads := v 11, r_rads := v 12,
      accel_x_fps2 := v 14, accel_y_fps2 := v 15, accel_z_fps2 := v 16,
      engine_rpm := v 17, prop_rpm := v 18, prop_pitch_rad := v 19,
      radio_height_ft := v 20, ground_alt_ft := v 21 }
  if r.radio_height_ft.isfinite && Dbl.le (Dbl.fin 0) r.radio_height_ft
      && Dbl.le r.radio_height_ft (Dbl.fin 3000) then
    { r with alt_agl_ft := r.radio_height_ft }
  else if r.ground_alt_ft.isfinite then
    { r with alt_agl_ft := Dbl.max (r.alt_msl_ft - r.ground_alt_ft) (Dbl.fin 0) }
  else r

/-- The sample decoded from a push: the sensor values with the validity flag
`sane_pos(lat, lon)`. -/
def decode_sample (v : Nat → Dbl) (old : RawSensors) : RawSensors :=
  let r0 := read_sensors v old
  { r0 with valid := sane_pos r0.lat_deg r0.lon_deg }

/-- The origin capture inside the push handler (both position-mode branches). -/
def capture_origin (b : Bridge) (pos_mode_snap : Int) (r : RawSensors) : Bridge :=
  if pos_mode_snap = 0 ∧ b.sim.origin_captured = false ∧ r.valid = true then
    { b with
      G := { b.G with
        sim_origin_lat := r.lat_deg, sim_origin_lon := r.lon_deg,
        sim_origin_alt_m := ft2m r.alt_msl_ft, sim_origin_set := true }
      sim := { b.sim with origin_captured := true } }
  else if pos_mode_snap ≠ 0 ∧ b.G.sim_origin_set = false ∧ r.valid = true then
    { b with
      G := { b.G with
        sim_origin_lat := r.lat_deg, sim_origin_lon := r.lon_deg,
        sim_origin_alt_m := ft2m r.alt_msl_ft, sim_origin_set := true } }
  else b

/-- The flat-earth projection of a sample relative to the origin stored in `G`: the fields
`N_m`, `E_m`, `U_m`. -/
def project (L : Libm) (G : Shared) (r : RawSensors) : RawSensors :=
  let Re := G.sim_earth_radius
  let dLat := (r.lat_deg - G.sim_origin_lat) * Dbl.fin DEG2RAD
  let dLon := (r.lon_deg - G.sim_origin_lon) * Dbl.fin DEG2RAD
  let latm := ((r.lat_deg + G.sim_origin_lat) / Dbl.fin 2) * Dbl.fin DEG2RAD
  { r with
    N_m := dLat * Re
    E_m := dLon * Re * L.dcos latm
    U_m := ft2m r.alt_msl_ft - G.sim_origin_alt_m }

/-- The smoothing of the simulator frame period at the head of the data handler:
`dt` is the time since the previous data message, and `G.sim_dt_ms` is updated when
`dt>1 && dt<500`. -/
def smooth_frame_period (b : Bridge) (now_ms : Nat) : Bridge :=
  let dt : ℚ := if now_ms > b.sim.last_ms then ((now_ms - b.sim.last_ms : Nat) : ℚ) else 0
  { b with
    sim := { b.sim with last_ms := now_ms }
    G := { b.G with
      sim_dt_ms := if dt > 1 ∧ dt < 500 then (8 / 10) * b.G.sim_dt_ms + (2 / 10) * dt
        else b.G.sim_dt_ms } }

/-- The block `if (d->dwRequestID==REQ_SENSORS)`: decode the sample, compute validity,
capture the origin, project, and store the sample, keeping the prior one for interpolation
(the file logging that follows is outside the engine). -/
def ingest_sample (L : Libm) (b : Bridge) (pos_mode_snap : Int) (v : Nat → Dbl)
    (now_ms : Nat) : Bridge :=
  let r1 := decode_sample v b.sim.R_receive_buffer
  let b2 := capture_origin b pos_mode_snap r1
  let r2 := project L b2.G r1
  { b2 with
    sim := { b2.sim with
      R_receive_buffer := r2
      R_prev_sample := b2.G.R
      R_prev_ms := b2.sim.R_last_ms
      R_last_ms := now_ms }
    G := { b2.G with R := r2 } }

/-- The handler of `SIMCONNECT_RECV_ID_SIMOBJECT_DATA`. -/
def sim_on_data (L : Libm) (b : Bridge) (pos_mode_snap : Int) (request_id : Nat)
    (v : Nat → Dbl) (now_ms : Nat) : Bridge :=
  let b1 := smooth_frame_period b now_ms
  if request_id = REQ_SENSORS then ingest_sample L b1 pos_mode_snap v now_ms else b1

/-- The handler of `SIMCONNECT_RECV_ID_QUIT`. -/
def sim_on_quit (b : Bridge) (now : Nat) : Bridge :=
  { b with
    sim := { b.sim with
      g_sim_ok := false
      origin_captured := false
      next_try := now + 500000000 } }

/-- The `switch` on one dispatched message. -/
def sim_on_msg (L : Libm) (b : Bridge) (pos_mode_snap : Int) : SimMsg → Bridge
  | SimMsg.quit now => sim_on_quit b now
  | SimMsg.data request_id v now_ms => sim_on_data L b pos_mode_snap request_id v now_ms
  | SimMsg.other => b

/-- The dispatch loop: messages are handled one after the other while `g_sim_ok` holds. -/
def sim_dispatch (L : Libm) (pos_mode_snap : Int) : Bridge → List SimMsg → Bridge
  | b, [] => b
  | b, m :: ms =>
    if b.sim.g_sim_ok then sim_dispatch L pos_mode_snap (sim_on_msg L b pos_mode_snap m) ms
    else b

/-- The re-arming of the origin capture at the top of an iteration, when the snapshot of the
position mode differs from the last one seen. -/
def sim_rearm (b : Bridge) : Bridge :=
  if b.G.json_pos_mode ≠ b.sim.last_pos_mode then
    { b with sim := { b.sim with origin_captured := false, last_pos_mode := b.G.json_pos_mode } }
  else b

/-- The connection attempt of an iteration: `now` and `now_fail` are the steady-clock
readings, `open_ok` the result of `sim_open()`. -/
def sim_connect (b : Bridge) (now now_fail : Nat) (open_ok : Bool) : Bridge :=
  if b.sim.g_sim_ok = false ∧ now ≥ b.sim.next_try then
    if open_ok then
      { b with sim := { b.sim with g_sim_ok := true, simconnect_attempts := 0 } }
    else
      { b with sim := { b.sim with
          simconnect_attempts := b.sim.simconnect_attempts + 1
          next_try := now_fail + 2000000000 } }
  else b

/-- What the environment supplies to the ingesting half of one iteration. -/
structure IngestIn where
  now : Nat := 0
  now_fail : Nat := 0
  open_ok : Bool := true
  msgs : List SimMsg := []

/-- The ingesting half of one iteration of `sim_thread`: snapshot of the position mode,
re-arming, connection attempt, dispatch loop. -/
def sim_ingest (L : Libm) (b : Bridge) (inp : IngestIn) : Bridge :=
  let pos_mode_snap := b.G.json_pos_mode
  let b1 := sim_rearm b
  let b2 := sim_connect b1 inp.now inp.now_fail inp.open_ok
  sim_dispatch L pos_mode_snap b2 inp.msgs

/-- Several iterations in a row, with no change of configuration in between. -/
def sim_ingest_run (L : Libm) : Bridge → List IngestIn → Bridge
  | b, [] => b
  | b, i :: is => sim_ingest_run L (sim_ingest L b i) is

/-! ## The telemetry loop: emitting a record -/

/-- The lambda `lerp`. -/
def lerp (a b t : Dbl) : Dbl := a + (b - a) * t

/-- The lambda `lerp_ang`. -/
def lerp_ang (a b t : Dbl) : Dbl :=
  let da := Dbl.fmod (b - a + Dbl.fin 540) (Dbl.fin 360) - Dbl.fin 180
  a + da * t

/-- Subtraction of two `uint64_t` values. -/
def u64_sub (a b : Nat) : Nat := (a % 2 ^ 64 + 2 ^ 64 - b % 2 ^ 64) % 2 ^ 64

/-- The sample an emission works on: a copy of `G.R`, with every numeric field interpolated
between the previous and the current raw sample in linear resample mode. -/
def select_sample (b : Bridge) (match_sim_rate_snap : Bool) (now_ms : Nat) : RawSensors :=
  let R := b.G.R
  if match_sim_rate_snap = false ∧ b.G.resample_mode = 2 then
    let sim_dt : ℚ :=
      if b.sim.R_last_ms > 0 ∧ b.sim.R_prev_ms > 0
      then (u64_sub b.sim.R_last_ms b.sim.R_prev_ms : ℚ) else 0
    let since : ℚ :=
      if b.sim.R_last_ms > 0 ∧ now_ms > b.sim.R_last_ms
      then (u64_sub now_ms b.sim.R_last_ms : ℚ) else 0
    if sim_dt > 0 ∧ since ≥ 0 ∧ since < 1000 then
      let alpha := Dbl.fin (clampd (since / sim_dt) 0 1)
      let P := b.sim.R_prev_sample
      let C := b.sim.R_receive_buffer
      { R with
        lat_deg := lerp P.lat_deg C.lat_deg alpha
        lon_deg := lerp P.lon_deg C.lon_deg alpha
        alt_msl_ft := lerp P.alt_msl_ft C.alt_msl_ft alpha
        alt_agl_ft := lerp P.alt_agl_ft C.alt_agl_ft alpha
        pitch_deg := lerp P.pitch_deg C.pitch_deg alpha
        bank_deg := lerp P.bank_deg C.bank_deg alpha
        hdg_true_deg := lerp_ang P.hdg_true_deg C.hdg_true_deg alpha
        vel_e_fps := lerp P.vel_e_fps C.vel_e_fps alpha
        vel_n_fps := lerp P.vel_n_fps C.vel_n_fps alpha
        vel_u_fps := lerp P.vel_u_fps C.vel_u_fps alpha
        p_rads := lerp P.p_rads C.p_rads alpha
        q_rads := lerp P.q_rads C.q_rads alpha
        r_rads := lerp P.r_rads C.r_rads alpha
        accel_x_fps2 := lerp P.accel_x_fps2 C.accel_x_fps2 alpha
        accel_y_fps2 := lerp P.accel_y_fps2 C.accel_y_fps2 alpha
        accel_z_fps2 := lerp P.accel_z_fps2 C.accel_z_fps2 alpha
        ias_kt := lerp P.ias_kt C.ias_kt alpha
        engine_rpm := lerp P.engine_rpm C.engine_rpm alpha
        prop_rpm := lerp P.prop_rpm C.prop_rpm alpha
        prop_pitch_rad := lerp P.prop_pitch_rad C.prop_pitch_rad alpha
        radio_height_ft := lerp P.radio_height_ft C.radio_height_ft alpha
        ground_alt_ft := lerp P.ground_alt_ft C.ground_alt_ft alpha
        N_m := lerp P.N_m C.N_m alpha
        E_m := lerp P.E_m C.E_m alpha
        U_m := lerp P.U_m C.U_m alpha }
    else R
  else R

/-- The values printed into one outbound record, field by field (`geo` holds latitude,
longitude and altitude, present in position mode 2 only). -/
structure TxRecord where
  timestamp : ℚ
  geo : Option (Dbl × Dbl × Dbl)
  position : Dbl × Dbl × Dbl
  quaternion : Dbl × Dbl × Dbl × Dbl
  velocity : Dbl × Dbl × Dbl
  gyro : Dbl × Dbl × Dbl
  accel_body : Dbl × Dbl × Dbl
  airspeed : Dbl
  rng_1 : Dbl
  no_lockstep : Bool
  no_time_sync : Bool
  rc : List ℚ
deriving DecidableEq, Repr

/-- The RC field computed from one slot of `rc_copy`. -/
def rc_pwm_of (rc : ℚ) : ℚ := if rc < 0 then 1500 else rc * 1000 + 1000

/-- The arguments of the `snprintf` call that formats the record. -/
def build_record (L : Libm) (G : Shared) (R : RawSensors) (t_sec : ℚ) (pos_mode_snap : Int) :
    TxRecord :=
  let vel_n_ms := ft2m R.vel_n_fps
  let vel_e_ms := ft2m R.vel_e_fps
  let vel_d_ms := ft2m (-R.vel_u_fps)
  let accel_x_ms2 := ft2m R.accel_x_fps2
  let accel_y_ms2 := ft2m R.accel_y_fps2
  let accel_z_ms2 := ft2m (-R.accel_z_fps2)
  let alt_msl_m := ft2m R.alt_msl_ft
  let alt_agl_m := ft2m R.alt_agl_ft
  let airspeed_ms := kt2ms R.ias_kt
  let roll_rad := -deg2rad R.bank_deg
  let pitch_rad := -deg2rad R.pitch_deg
  let yaw_rad := deg2rad R.hdg_true_deg
  let half := Dbl.fin (1 / 2)
  let cy := L.dcos (yaw_rad * half)
  let sy := L.dsin (yaw_rad * half)
  let cp := L.dcos (pitch_rad * half)
  let sp := L.dsin (pitch_rad * half)
  let cr := L.dcos (roll_rad * half)
  let sr := L.dsin (roll_rad * half)
  { timestamp := t_sec
    geo := if pos_mode_snap = 2 then some (R.lat_deg, R.lon_deg, alt_msl_m) else none
    position := (R.N_m, R.E_m, -R.U_m)
    quaternion :=
      (cr * cp * cy + sr * sp * sy, sr * cp * cy - cr * sp * sy,
       cr * sp * cy + sr * cp * sy, cr * cp * sy - sr * sp * cy)
    velocity := (vel_n_ms, vel_e_ms, vel_d_ms)
    gyro := (-R.p_rads, -R.q_rads, R.r_rads)
    accel_body := (accel_x_ms2, accel_y_ms2, accel_z_ms2)
    airspeed := airspeed_ms
    rng_1 := alt_agl_m
    no_lockstep := G.no_lockstep
    no_time_sync := !G.use_time_sync
    rc := G.rc_out.map rc_pwm_of }

/-- What the environment supplies to one emission: the `GetTickCount64` reading and the
length returned by the `snprintf` that formats the record. -/
structure EmitIn where
  now_ms : Nat := 0
  json_len : Int := 600

/-- Value of `sizeof(json_buf)`. -/
def sizeof_json_buf : Int := 4096

/-- One pass through the body of `while (udp_send_acc >= target_dt)`: the new state and the
record handed to `sendto` with its destination, if any. -/
def emit_once (L : Libm) (b : Bridge) (target_dt : ℚ) (match_sim_rate_snap : Bool)
    (pos_mode_snap : Int) (inp : EmitIn) : Bridge × Option (SockAddr × TxRecord) :=
  let b1 : Bridge :=
    { b with sim := { b.sim with
        udp_send_acc := b.sim.udp_send_acc - target_dt
        t_phys_acc := b.sim.t_phys_acc + target_dt } }
  let t_sec := b1.sim.t_phys_acc
  let R := select_sample b1 match_sim_rate_snap inp.now_ms
  let dest_addr := b1.rx.g_sitl_addr
  let dest_known := b1.rx.g_sitl_addr_known
  if R.valid && b1.G.sim_origin_set then
    if dest_known then
      if inp.json_len > 0 ∧ inp.json_len < sizeof_json_buf then
        if b1.sim.tx.send_buffer dest_addr then
          (b1, some (dest_addr, build_record L b1.G R t_sec pos_mode_snap))
        else (b1, none)
      else (b1, none)
    else (b1, none)
  else (b1, none)

/-- The loop `while (udp_send_acc >= target_dt)`, run for at most `fuel` passes; pass number
`k` takes its inputs from `env k`. The result is the final state and the records sent, in
order. -/
def emit_loop (L : Libm) (target_dt : ℚ) (match_sim_rate_snap : Bool) (pos_mode_snap : Int)
    (env : Nat → EmitIn) : Nat → Nat → Bridge → Bridge × List (SockAddr × TxRecord)
  | 0, _, b => (b, [])
  | fuel + 1, k, b =>
    if b.sim.udp_send_acc ≥ target_dt then
      let r := emit_once L b target_dt match_sim_rate_snap pos_mode_snap (env k)
      let rest := emit_loop L target_dt match_sim_rate_snap pos_mode_snap env fuel (k + 1) r.1
      (rest.1, r.2.toList ++ rest.2)
    else (b, [])

/-- The reopening of the outbound socket before the emission loop. -/
def sim_tx_reopen (b : Bridge) (socket_ok : Bool) : Bridge :=
  if b.sim.tx.needs_reopen b.G.dest.ip b.G.dest.port_tx then
    { b with sim := { b.sim with
        tx := (b.sim.tx.open b.G.dest.ip b.G.dest.port_tx socket_ok).1 } }
  else b

/-- One received datagram as the receive loop sees it. -/
structure RxIn where
  buf : List Nat
  len : Int
  from_addr : SockAddr
  now : Nat

/-- The receive loop over a sequence of received datagrams. -/
def rx_run : RxShared → List RxIn → RxShared
  | s, [] => s
  | s, d :: ds => rx_run (rx_step s d.buf d.len d.from_addr d.now) ds

/-- Whether a dispatched message is the quit notification. -/
def SimMsg.isQuit : SimMsg → Bool
  | SimMsg.quit _ => true
  | _ => false

/-- The origin stored in `G`: latitude, longitude, altitude in metres. -/
def Bridge.origin (b : Bridge) : Dbl × Dbl × Dbl :=
  (b.G.sim_origin_lat, b.G.sim_origin_lon, b.G.sim_origin_alt_m)

/-- Whether an iteration dispatches no quit notification. -/
def IngestIn.noQuit (i : IngestIn) : Bool := i.msgs.all (fun m => !m.isQuit)

/-! ## The telemetry loop: linear resampling, seen from outside -/

/-- The interpolation fraction `alpha` of an emission, when the linear branch of the
resampler is taken (`!match_sim_rate_snap && resample_mode_snap == 2`, `sim_dt > 0`,
`since < 1000`); `none` when the emission works on the stored sample as it is. -/
def resample_fraction (b : Bridge) (match_sim_rate_snap : Bool) (now_ms : Nat) : Option ℚ :=
  if match_sim_rate_snap = false ∧ b.G.resample_mode = 2 then
    let sim_dt : ℚ :=
      if b.sim.R_last_ms > 0 ∧ b.sim.R_prev_ms > 0
      then (u64_sub b.sim.R_last_ms b.sim.R_prev_ms : ℚ) else 0
    let since : ℚ :=
      if b.sim.R_last_ms > 0 ∧ now_ms > b.sim.R_last_ms
      then (u64_sub now_ms b.sim.R_last_ms : ℚ) else 0
    if sim_dt > 0 ∧ since ≥ 0 ∧ since < 1000 then some (clampd (since / sim_dt) 0 1)
    else none
  else none

/-- The interpolated fields of a sample other than the heading, in the order of the
assignments of the resampler. -/
def fields_but_heading (r : RawSensors) : List Dbl :=
  [r.lat_deg, r.lon_deg, r.alt_msl_ft, r.alt_agl_ft, r.pitch_deg, r.bank_deg,
   r.vel_e_fps, r.vel_n_fps, r.vel_u_fps, r.p_rads, r.q_rads, r.r_rads,
   r.accel_x_fps2, r.accel_y_fps2, r.accel_z_fps2, r.ias_kt, r.engine_rpm, r.prop_rpm,
   r.prop_pitch_rad, r.radio_height_ft, r.ground_alt_ft, r.N_m, r.E_m, r.U_m]

/-- A sample all of whose numeric fields are finite. -/
def RawSensors.finite (r : RawSensors) : Prop :=
  r.hdg_true_deg.isfinite = true ∧ ∀ x ∈ fields_but_heading r, x.isfinite = true

/-! ## The telemetry loop: pacing -/

/-- The wall-clock time `std::chrono::duration<double>(now - t_prev).count()`, in seconds,
between two readings of the steady clock. -/
def measured_dt (t_prev now : Nat) : ℚ := ((now : ℚ) - (t_prev : ℚ)) / 1000000000

/-- The two guards `if (measured_dt < 0) measured_dt = 0; if (measured_dt > 0.1)
measured_dt = 0.1;`. -/
def clamp_dt (m : ℚ) : ℚ :=
  let m1 := if m < 0 then 0 else m
  if m1 > 1 / 10 then 1 / 10 else m1

/-- The pacing at the head of an iteration: the clamped measured time is added to
`udp_send_acc` and `t_prev` becomes the new reading. -/
def sim_pace (b : Bridge) (now : Nat) : Bridge :=
  { b with sim := { b.sim with
      t_prev := now
      udp_send_acc := b.sim.udp_send_acc + clamp_dt (measured_dt b.sim.t_prev now) } }

/-- The library function `std::round` followed by the cast to `int`: the nearest integer,
halves away from zero. -/
def round_to_int (q : ℚ) : Int := if 0 ≤ q then ⌊q + 1 / 2⌋ else ⌈q - 1 / 2⌉

/-- The rate of an iteration: `match_sim_rate_snap ?
iclamp((int)std::round(1000.0/std::max(5.0, sim_dt_ms_snap)), 10, 1000) : rate_hz_snap`. -/
def effective_rate (G : Shared) : Int :=
  if G.match_sim_rate then
    iclamp (round_to_int (1000 / (if (5 : ℚ) < G.sim_dt_ms then G.sim_dt_ms else 5))) 10 1000
  else G.rate_hz

/-- The target period `1.0 / (double)iclamp(rate_hz_snap, 10, 1000)` of an iteration. -/
def target_dt (G : Shared) : ℚ := 1 / ((iclamp (effective_rate G) 10 1000 : Int) : ℚ)

/-- The passes through the body of `while (udp_send_acc >= target_dt)`, in order, each with
the record it handed to `sendto`, if any; run for at most `fuel` passes. The number of
emissions of the loop is the length of this list. -/
def emit_passes (L : Libm) (target_dt : ℚ) (match_sim_rate_snap : Bool) (pos_mode_snap : Int)
    (env : Nat → EmitIn) : Nat → Nat → Bridge → List (Option (SockAddr × TxRecord))
  | 0, _, _ => []
  | fuel + 1, k, b =>
    if b.sim.udp_send_acc ≥ target_dt then
      let r := emit_once L b target_dt match_sim_rate_snap pos_mode_snap (env k)
      r.2 :: emit_passes L target_dt match_sim_rate_snap pos_mode_snap env fuel (k + 1) r.1
    else []

/-- A number of passes after which the emission loop has left through its condition:
one more than the whole number of periods held by the accumulator. -/
def emit_fuel (acc target_dt : ℚ) : Nat := ⌊acc / target_dt⌋₊ + 1

/-- One scheduler tick: pacing at the clock reading `now`, then the emission loop at the
target period of the configuration. The result is the state after the tick and the number
of emissions made. -/
def sched_tick (L : Libm) (env : Nat → EmitIn) (b : Bridge) (now : Nat) : Bridge × Nat :=
  let b1 := sim_pace b now
  let T := target_dt b1.G
  let fuel := emit_fuel b1.sim.udp_send_acc T
  ((emit_loop L T b1.G.match_sim_rate b1.G.json_pos_mode env fuel 0 b1).1,
   (emit_passes L T b1.G.match_sim_rate b1.G.json_pos_mode env fuel 0 b1).length)

/-- A sequence of scheduler ticks at the clock readings `nows`, the configuration staying
as it is: the final state and the total number of emissions. -/
def sched_run (L : Libm) (env : Nat → EmitIn) : Bridge → List Nat → Bridge × Nat
  | b, [] => (b, 0)
  | b, now :: nows =>
    let r := sched_tick L env b now
    let rest := sched_run L env r.1 nows
    (rest.1, r.2 + rest.2)

/-- The measured times of a sequence of ticks, before clamping. -/
def measured_deltas : Nat → List Nat → List ℚ
  | _, [] => []
  | t_prev, now :: nows => measured_dt t_prev now :: measured_deltas now nows

/-! ## The telemetry loop: liveness of the actuator frame and channel invert -/

/-- The flag `have_pwm`: the stored vector is not empty and the frame is younger than
0.3 s at the clock reading `now`. -/
def have_pwm (rx : RxShared) (now : Nat) : Bool :=
  !rx.pwm.pwm.isEmpty && decide (measured_dt rx.pwm.tlast now < 3 / 10)

/-- The invert of one normalized channel value: sign flip on channels 0, 1, 3, complement
to one on the others. -/
def invert_norm (i : Nat) (x : ℚ) : ℚ := if i = 0 ∨ i = 1 ∨ i = 3 then -x else 1 - x

/-- The loop `for (i...) if (inv_ch[i]) {...}` over the 16 normalized values. -/
def apply_invert (inv_ch : List Bool) (norm_pwm : List ℚ) : List ℚ :=
  (List.range 16).map (fun i =>
    if inv_ch.getD i false then invert_norm i (norm_pwm.getD i 0) else norm_pwm.getD i 0)

/-! ## The joystick loop `joy_thread` -/

/-- The fields of `DIJOYSTATE2` that the loop reads: six axes, two sliders, the first
point-of-view hat and the first two buttons. -/
structure JoyState where
  lX : Int := 0
  lY : Int := 0
  lZ : Int := 0
  lRx : Int := 0
  lRy : Int := 0
  lRz : Int := 0
  rglSlider0 : Int := 0
  rglSlider1 : Int := 0
  rgdwPOV0 : Nat := 4294967295
  rgbButtons0 : Nat := 0
  rgbButtons1 : Nat := 0
deriving DecidableEq, Repr

/-- The twelve raw axis values computed from a device state. -/
def joy_raw_axes (js : JoyState) : List ℚ :=
  [(js.lX : ℚ) / 1000, (js.lY : ℚ) / 1000, (js.lZ : ℚ) / 1000,
   (js.lRx : ℚ) / 1000, (js.lRy : ℚ) / 1000, (js.lRz : ℚ) / 1000,
   (js.rglSlider0 : ℚ) / 1000, (js.rglSlider1 : ℚ) / 1000,
   (if js.rgdwPOV0 = 0 then 1 else if js.rgdwPOV0 = 18000 then -1 else 0),
   (if js.rgdwPOV0 = 9000 then 1 else if js.rgdwPOV0 = 27000 then -1 else 0),
   (if js.rgbButtons0 / 128 % 2 = 1 then 1 else -1),
   (if js.rgbButtons1 / 128 % 2 = 1 then 1 else -1)]

/-- The value an axis writes: inversion, mapping to the unit interval, override, clamp. -/
def joy_axis_value (raw : ℚ) (m : JoyMapCfg) : ℚ :=
  let val_n1_1 := raw * (m.srcInv : ℚ)
  let v0 := val_n1_1 * (1 / 2) + 1 / 2
  let v1 := if m.overrideMode = 1 then 0 else v0
  let v2 := if m.overrideMode = 2 then 1 / 2 else v1
  let v3 := if m.overrideMode = 3 then 1 else v2
  clampd v3 0 1

/-- The body of the loop over the axes for one axis: nothing for `rcDest == 0`, otherwise
the value is stored at `slot_idx = rcDest - 1` when `slot_idx >= 0 && slot_idx < 12` (the
`int` fields are integers, the subtraction is exact). -/
def joy_slot_step (out_slots : List ℚ) (raw : ℚ) (m : JoyMapCfg) : List ℚ :=
  if m.rcDest = 0 then out_slots
  else
    let slot_idx := m.rcDest - 1
    if slot_idx ≥ 0 ∧ slot_idx < 12 then out_slots.set slot_idx.toNat (joy_axis_value raw m)
    else out_slots

/-- The array `out_slots` after the loop over the axes: every slot starts at -1.0 and the
axes are applied in order, each with its entry of the map. -/
def joy_out_slots (raw_axes : List ℚ) (map_copy : List JoyMapCfg) : List ℚ :=
  (raw_axes.zip map_copy).foldl (fun acc p => joy_slot_step acc p.1 p.2) (List.replicate 12 (-1))

/-- The part of an iteration of `joy_thread` that follows a successful poll with device
state `js`: the raw axes and the RC slots are written to `G`. -/
def joy_poll (b : Bridge) (js : JoyState) : Bridge :=
  { b with G := { b.G with
      raw_axes := joy_raw_axes js
      rc_out := joy_out_slots (joy_raw_axes js) b.G.joy_map } }

/-! ## The telemetry loop: failover to the actuator frame -/

/-- The two priorities that the program passes to `SimConnect_SetInputGroupPriority`:
`SIMCONNECT_GROUP_PRIORITY_HIGHEST` and `SIMCONNECT_GROUP_PRIORITY_STANDARD`. -/
inductive GroupPriority where
  | HIGHEST
  | STANDARD
deriving DecidableEq, Repr

/-- The static `intercept_enabled` of `sim_thread`, and the priority of the input group
`GRP_INTERCEPT` in the open simulator session as last set by
`SimConnect_SetInputGroupPriority` (`none` while no session is open). -/
structure Intercept where
  intercept_enabled : Bool := false
  grp_priority : Option GroupPriority := none
deriving DecidableEq, Repr

/-- The connection attempt of an iteration, seen from the input group: a successful
`sim_open()` ends with `SimConnect_SetInputGroupPriority(gSim, GRP_INTERCEPT,
SIMCONNECT_GROUP_PRIORITY_STANDARD)`; a failed one opens no session. -/
def sim_connect_intercept (b : Bridge) (x : Intercept) (now : Nat) (open_ok : Bool) :
    Intercept :=
  if b.sim.g_sim_ok = false ∧ now ≥ b.sim.next_try then
    if open_ok then { x with grp_priority := some GroupPriority.STANDARD } else x
  else x

/-- The `switch` on one dispatched message, seen from the input group: the quit handler
calls `sim_close()`, which ends the session; no handler touches `intercept_enabled`. -/
def sim_on_msg_intercept (x : Intercept) : SimMsg → Intercept
  | SimMsg.quit _ => { x with grp_priority := none }
  | _ => x

/-- The dispatch loop, seen from the input group: it runs alongside `sim_dispatch`. -/
def sim_dispatch_intercept (L : Libm) (pos_mode_snap : Int) :
    Bridge → Intercept → List SimMsg → Intercept
  | _, x, [] => x
  | b, x, m :: ms =>
    if b.sim.g_sim_ok then
      sim_dispatch_intercept L pos_mode_snap (sim_on_msg L b pos_mode_snap m)
        (sim_on_msg_intercept x m) ms
    else x

/-- The block that follows the computation of `have_pwm`: the priority of the intercept
group is raised when a live frame appears and lowered when it goes stale, each guarded by
the static `intercept_enabled`. -/
def intercept_switch (g_sim_ok have_pwm : Bool) (x : Intercept) : Intercept :=
  if g_sim_ok then
    if have_pwm && !x.intercept_enabled then
      { intercept_enabled := true, grp_priority := some GroupPriority.HIGHEST }
    else if !have_pwm && x.intercept_enabled then
      { intercept_enabled := false, grp_priority := some GroupPriority.STANDARD }
    else x
  else x

/-- One iteration of `sim_thread` up to the end of the intercept block: re-arming,
connection attempt, dispatch loop, then the priority switch with `have_pwm` computed at
the clock reading `now_pwm`. -/
def sim_failover (L : Libm) (s : Bridge × Intercept) (inp : IngestIn) (now_pwm : Nat) :
    Bridge × Intercept :=
  let pos_mode_snap := s.1.G.json_pos_mode
  let b1 := sim_rearm s.1
  let x1 := sim_connect_intercept b1 s.2 inp.now inp.open_ok
  let b2 := sim_connect b1 inp.now inp.now_fail inp.open_ok
  let x2 := sim_dispatch_intercept L pos_mode_snap b2 x1 inp.msgs
  let b3 := sim_dispatch L pos_mode_snap b2 inp.msgs
  (b3, intercept_switch b3.sim.g_sim_ok (have_pwm b3.rx now_pwm) x2)

/-- The scaling of a normalized channel value to the event parameter:
`(LONG)llround(norm * 16383.0)` on channels 0, 1, 3 and
`(LONG)llround((norm * 2.0 - 1.0) * 16383.0)` on the others. -/
def sim_val (i : Nat) (norm : ℚ) : Int :=
  if i = 0 ∨ i = 1 ∨ i = 3 then round_to_int (norm * 16383)
  else round_to_int ((norm * 2 - 1) * 16383)

/-- The cast `(DWORD)sim_val` of a `LONG` to an unsigned 32-bit word. -/
def dword_of_long (v : Int) : Nat := (v % 2 ^ 32).toNat

/-- The signed reading of a 32-bit word, as the simulator takes the event parameter. -/
def long_of_dword (d : Nat) : Int := if d < 2 ^ 31 then (d : Int) else (d : Int) - 2 ^ 32

/-- The initial contents of `G_sim_evt_idx`: channels 0 to 3 mapped to catalog entries 1 to
4, the others to entry 0, "(None)". -/
def G_sim_evt_idx : Nat → Int := fun i => if i < 4 then (i : Int) + 1 else 0

/-- The block `if (g_sim_ok && have_pwm && P.pwm.size() >= 16)`: the calls of
`SimConnect_TransmitClientEvent` of one iteration, in order, each as the channel `i` whose
client event `g_sim_evt_map[i]` is sent and the parameter `(DWORD)sim_val`; `sim_evt_idx`
is the array `G_sim_evt_idx` at that time and `now` the clock reading of `have_pwm`. -/
def sim_transmit (b : Bridge) (sim_evt_idx : Nat → Int) (now : Nat) : List (Nat × Nat) :=
  if b.sim.g_sim_ok && have_pwm b.rx now && decide (b.rx.pwm.pwm.length ≥ 16) then
    let norm_pwm := apply_invert b.G.invsim_ch b.rx.sitl_out_pwm
    (List.range 16).filterMap (fun i =>
      if sim_evt_idx i ≠ 0 then some (i, dword_of_long (sim_val i (norm_pwm.getD i 0)))
      else none)
  else []

/-! ## The telemetry loop: heading step, rate changes, quaternion -/

/-- The local `da` of the lambda `lerp_ang`. -/
def lerp_ang_da (a b : Dbl) : Dbl :=
  Dbl.fmod (b - a + Dbl.fin 540) (Dbl.fin 360) - Dbl.fin 180

/-- What may differ from one scheduler tick to the next: the configured rate, the rate
mode and the smoothed simulator frame period found in `G`, and the clock reading. -/
structure TickIn where
  rate_hz : Int := 1000
  match_sim_rate : Bool := false
  sim_dt_ms : ℚ := 333 / 10
  now : Nat := 0
deriving DecidableEq, Repr

/-- The configuration found by a tick: the three fields of `G` that the target period is
computed from, as the interface thread and the data handler left them. -/
def sched_reconf (b : Bridge) (c : TickIn) : Bridge :=
  { b with G := { b.G with
      rate_hz := c.rate_hz, match_sim_rate := c.match_sim_rate, sim_dt_ms := c.sim_dt_ms } }

/-- A sequence of scheduler ticks with the configuration changing in between: for each
tick, the state it starts from, the state it ends in, and its number of emissions. -/
def sched_trace (L : Libm) (env : Nat → EmitIn) : Bridge → List TickIn →
    List (Bridge × Bridge × Nat)
  | _, [] => []
  | b, c :: cs =>
    let b0 := sched_reconf b c
    let r := sched_tick L env b0 c.now
    (b0, r.1, r.2) :: sched_trace L env r.1 cs

/-- The four assignments `q1` to `q4` of the record, as a function of the cosines and sines
of the half angles, over any type that has the three operations. -/
def quat_of_half {K : Type} [Add K] [Sub K] [Mul K] (cr sr cp sp cy sy : K) :
    K × K × K × K :=
  (cr * cp * cy + sr * sp * sy, sr * cp * cy - cr * sp * sy,
   cr * sp * cy + sr * cp * sy, cr * cp * sy - sr * sp * cy)

/-- The quaternion of the record computed from pitch, bank and heading in degrees over a
field `K` with cosine `c` and sine `s`: `roll_rad = -deg2rad(bank)`,
`pitch_rad = -deg2rad(pitch)`, `yaw_rad = deg2rad(heading)`, each halved. -/
def quat_of_deg {K : Type} [Field K] (c s : K → K) (pitch_deg bank_deg hdg_true_deg : K) :
    K × K × K × K :=
  let roll_rad := -(bank_deg * ((M_PI / 180 : ℚ) : K))
  let pitch_rad := -(pitch_deg * ((M_PI / 180 : ℚ) : K))
  let yaw_rad := hdg_true_deg * ((M_PI / 180 : ℚ) : K)
  let half : K := ((1 / 2 : ℚ) : K)
  quat_of_half (c (roll_rad * half)) (s (roll_rad * half)) (c (pitch_rad * half))
    (s (pitch_rad * half)) (c (yaw_rad * half)) (s (yaw_rad * half))

/-- Whether a dispatched message is a sensor push with a valid position. -/
def SimMsg.validPush : SimMsg → Bool
  | SimMsg.data request_id v _ => decide (request_id = REQ_SENSORS) && sane_pos (v 0) (v 1)
  | _ => false

/-! ## Concrete inputs: the end-to-end scenario and its variations -/

/-- A little-endian encoding of a `uint16_t` as two bytes. -/
def le16 (x : Nat) : List Nat := [x % 256, x / 256 % 256]

/-- A datagram with the given header fields and channel values, laid out as the packed
structs `servo_packet_16` (16 values) and `servo_packet_32` (32 values) are. -/
def mk_packet (magic rate count : Nat) (chans : List Nat) : List Nat :=
  le16 magic ++ le16 rate ++ le16 (count % 65536) ++ le16 (count / 65536) ++
    chans.flatMap le16

/-- A source address: 127.0.0.1, port 14550. -/
def addrX : SockAddr := { sin_family := 2, sin_port := 14550, sin_addr := 2130706433 }

/-- The 16-channel datagram of the end-to-end scenario: magic 18458, frame rate 50, frame
counter 7, every channel 1500. -/
def pkt16_1500 : List Nat := mk_packet 18458 50 7 (List.replicate 16 1500)

/-- A 32-channel datagram: magic 29569, frame rate 400, frame counter 3, every channel 1100. -/
def pkt32_1100 : List Nat := mk_packet 29569 400 3 (List.replicate 32 1100)

/-- The shared state before any datagram was received (the initialisers of the source). -/
def rx_init : RxShared := {}

/-- A library whose trigonometric functions are constant: enough to evaluate the engine
on inputs where no angle matters. -/
def libm0 : Libm := { cos := fun _ => 1, sin := fun _ => 0 }

/-- The pushed array of the end-to-end scenario: latitude 47.0, longitude 8.0, MSL altitude
1000 ft, every other value 0. -/
def v_scenario : Nat → Dbl := fun i =>
  if i = 0 then Dbl.fin 47 else if i = 1 then Dbl.fin 8 else if i = 2 then Dbl.fin 1000
  else Dbl.fin 0

/-- A second pushed array: latitude 48.0, longitude 9.0, MSL altitude 2000 ft. -/
def v_second : Nat → Dbl := fun i =>
  if i = 0 then Dbl.fin 48 else if i = 1 then Dbl.fin 9 else if i = 2 then Dbl.fin 2000
  else Dbl.fin 0

/-- A 72-byte datagram whose magic (4660) is neither 18458 nor 29569. -/
def noise72 : RxIn :=
  { buf := mk_packet 4660 50 7 (List.replicate 32 1500), len := 72, from_addr := addrX, now := 5 }

/-- A state with a valid stored sample, an open socket and a full accumulator, reached
without any accepted datagram. -/
def bridge_no_peer : Bridge :=
  { rx := rx_run rx_init [noise72]
    G := { R := { valid := true } }
    sim := { udp_send_acc := 1, tx := (UdpTx.open {} "" 0 true).1 } }

/-- The end-to-end scenario up to the stored sample: from the initial state, the
16-channel datagram from `addrX` is accepted, then the simulator connects and pushes the
sample at latitude 47, longitude 8, altitude 1000 ft. -/
def bridge_scenario (L : Libm) : Bridge :=
  sim_ingest L (bridge_init.rx_step pkt16_1500 40 addrX 5)
    { msgs := [SimMsg.data REQ_SENSORS v_scenario 1000] }

/-- Two further iterations after the scenario, the position mode staying 0: the simulator
quits, then reconnects and pushes the sample at latitude 48, longitude 9. -/
def quit_then_push : List IngestIn :=
  [{ msgs := [SimMsg.quit 0] },
   { now := 1000000000, msgs := [SimMsg.data REQ_SENSORS v_second 2000] }]

/-- Two further iterations after the scenario without any quit: the sample at latitude 48,
longitude 9 is pushed twice. -/
def push_twice : List IngestIn :=
  [{ msgs := [SimMsg.data REQ_SENSORS v_second 2000, SimMsg.other] },
   { msgs := [SimMsg.data REQ_SENSORS v_second 2016] }]

/-- A pushed array like that of the scenario, with true heading `h` degrees. -/
def v_heading (h : ℚ) : Nat → Dbl := fun i =>
  if i = 0 then Dbl.fin 47 else if i = 1 then Dbl.fin 8 else if i = 2 then Dbl.fin 1000
  else if i = 6 then Dbl.fin h else Dbl.fin 0

/-- Linear resample mode with two samples stored: the simulator pushed a sample with
heading 359 at tick count 1000 and one with heading 1 at tick count 1016. -/
def bridge_linear : Bridge :=
  sim_ingest libm0 { bridge_init with G := { bridge_init.G with resample_mode := 2 } }
    { msgs := [SimMsg.data REQ_SENSORS (v_heading 359) 1000,
               SimMsg.data REQ_SENSORS (v_heading 1) 1016] }

/-- The scenario datagram as the receive loop sees it, stored at clock reading 5. -/
def rxin16 : RxIn := { buf := pkt16_1500, len := 40, from_addr := addrX, now := 5 }

/-- The axis map that `load_ini` installs before reading the file: axes 1, 2, 3 and 7 feed
RC 1, 2, 4 and 3. -/
def joy_map_default : List JoyMapCfg :=
  [{ rcDest := 1 }, { rcDest := 2 }, { rcDest := 4 }, {}, {}, {}, { rcDest := 3 }, {}, {}, {},
   {}, {}]

/-- A device state: stick half right, first slider fully back, everything else at rest. -/
def js_sample : JoyState := { lX := 500, rglSlider0 := -1000 }

/-- The sum of the measured times of a sequence of ticks: the elapsed wall-clock time. -/
def elapsed_time (t_prev : Nat) (nows : List Nat) : ℚ := (measured_deltas t_prev nows).sum

/-- The sum of the measured times of a sequence of ticks after the clamp of each to
[0, 0.1] seconds: the time the scheduler accounts for. -/
def paced_time (t_prev : Nat) (nows : List Nat) : ℚ :=
  ((measured_deltas t_prev nows).map clamp_dt).sum

/-- A pushed array like that of the scenario, with the three body rotation rates told
apart: 1 about X (`v[11]`), 2 about Y (`v[12]`), 3 about Z (`v[13]`), the pushed AGL value
123 ft, radio height `rh` and ground altitude `gd`. -/
def v_rates (rh gd : Dbl) : Nat → Dbl := fun i =>
  if i = 0 then Dbl.fin 47 else if i = 1 then Dbl.fin 8 else if i = 2 then Dbl.fin 1000
  else if i = 3 then Dbl.fin 123 else if i = 11 then Dbl.fin 1 else if i = 12 then Dbl.fin 2
  else if i = 13 then Dbl.fin 3 else if i = 20 then rh else if i = 21 then gd else Dbl.fin 0

/-- The end-to-end scenario with the sample `v_rates` pushed (radio height 50 ft, ground
altitude 400 ft) and one period in the accumulator. -/
def bridge_rates : Bridge :=
  let b := sim_ingest libm0 (bridge_init.rx_step pkt16_1500 40 addrX 5)
    { msgs := [SimMsg.data REQ_SENSORS (v_rates (Dbl.fin 50) (Dbl.fin 400)) 1000] }
  { b with sim := { b.sim with udp_send_acc := 1 / 1000 } }

/-- The scenario state with the position mode switched to `mode` by the interface. -/
def bridge_mode (mode : Int) : Bridge :=
  { bridge_scenario libm0 with G := { (bridge_scenario libm0).G with json_pos_mode := mode } }

/-- The scenario state after a stay in mode 1: the loop has seen mode 1 and the interface
has switched back to mode 0. -/
def bridge_back_to_0 : Bridge :=
  let b := sim_ingest libm0 (bridge_mode 1) {}
  { b with G := { b.G with json_pos_mode := 0 } }

/-- An iteration that dispatches a push at position (0, 0), which is not valid. -/
def push_invalid : IngestIn := { msgs := [SimMsg.data REQ_SENSORS (fun _ => Dbl.fin 0) 1500] }

/-- An iteration that dispatches another message and then the sample at latitude 48,
longitude 9, altitude 2000 ft. -/
def push_second : IngestIn := { msgs := [SimMsg.other, SimMsg.data REQ_SENSORS v_second 2000] }

/-- The failover scenario, first iteration: a 16-channel datagram is stored at clock
reading 5, the simulator connects, and `have_pwm` is computed at 100 ms. -/
def failover_1 : Bridge × Intercept :=
  sim_failover libm0 (bridge_init.rx_step pkt16_1500 40 addrX 5, {}) {} 100000000

/-- Second iteration: the simulator quits (handler clock reading 150 ms), `have_pwm` is
computed at 200 ms. -/
def failover_2 : Bridge × Intercept :=
  sim_failover libm0 failover_1 { msgs := [SimMsg.quit 150000000] } 200000000

/-- The clock readings at which the frame is refreshed between the second and the third
iteration: a datagram is stored at 250 ms and at 500 ms, so that the frame is never older
than 0.3 s. -/
def failover_refresh : List RxIn :=
  [{ buf := pkt16_1500, len := 40, from_addr := addrX, now := 250000000 },
   { buf := pkt16_1500, len := 40, from_addr := addrX, now := 500000000 }]

/-- Third iteration: with the frame refreshed in the meantime, the simulator connects again
at 700 ms, and `have_pwm` is computed at 700 ms. -/
def failover_3 : Bridge × Intercept :=
  sim_failover libm0
    ({ failover_2.1 with rx := rx_run failover_2.1.rx failover_refresh }, failover_2.2)
    { now := 700000000 } 700000000

/-- A 16-channel datagram with every channel at 1000. -/
def pkt16_1000 : List Nat := mk_packet 18458 50 7 (List.replicate 16 1000)

/-- The simulator connected and the datagram `pkt16_1000` stored at clock reading 5. -/
def bridge_low : Bridge := sim_ingest libm0 (bridge_init.rx_step pkt16_1000 40 addrX 5) {}


/-- An axis map in which axis 1 and axis 7 both feed RC 1, and axis 2 feeds RC 2. -/
def joy_map_dup : List JoyMapCfg :=
  [{ rcDest := 1 }, { rcDest := 2 }, {}, {}, {}, {}, { rcDest := 1 }, {}, {}, {}, {}, {}]

/-- The initial state with the axis map `joy_map_dup` installed. -/
def bridge_dup : Bridge := { bridge_init with G := { bridge_init.G with joy_map := joy_map_dup } }

/-- Two ticks with a change of configuration in between: the configured rate 0 at 50 ms,
then match-simulator-rate mode with a smoothed frame period of 1 ms at 1 s. -/
def ticks_reconf : List TickIn :=
  [{ rate_hz := 0, now := 50000000 },
   { match_sim_rate := true, sim_dt_ms := 1, now := 1000000000 }]

/-! ## The receive loop: basic facts -/

theorem pkt_pwm_block_length (buf : List Nat) (n : Nat) : (pkt_pwm_block buf n).length = n := by
  simp [pkt_pwm_block]

theorem vec_store_eq (v : List Nat) (buf : List Nat) (n : Nat) :
    vec_memcpy (vec_grow v n) (pkt_pwm_block buf n) n = pkt_pwm_block buf n ++ v.drop n := by
  unfold vec_memcpy vec_grow
  have hb : (pkt_pwm_block buf n).take n = pkt_pwm_block buf n :=
    List.take_of_length_le (by simp [pkt_pwm_block_length])
  rw [hb]
  congr 1
  split_ifs with h
  · have h1 : (v ++ List.replicate (n - v.length) 0).length ≤ n := by
      simp; omega
    rw [List.drop_of_length_le h1, List.drop_of_length_le (by omega)]
  · rfl

theorem rx_step_eq_16 (s : RxShared) (buf : List Nat) (len : Int) (from_addr : SockAddr)
    (now : Nat) (h : len ≥ 40 ∧ u16le buf 0 = 18458) :
    rx_step s buf len from_addr now = rx_accept s buf from_addr now 16 := by
  obtain ⟨h1, h2⟩ := h
  have h0 : ¬ len ≤ 0 := by omega
  simp [rx_step, h0, sizeof_servo_packet_16, pkt_magic, h1, h2]

theorem rx_step_eq_32 (s : RxShared) (buf : List Nat) (len : Int) (from_addr : SockAddr)
    (now : Nat) (h : len ≥ 72 ∧ u16le buf 0 = 29569) :
    rx_step s buf len from_addr now = rx_accept s buf from_addr now 32 := by
  obtain ⟨h1, h2⟩ := h
  have h0 : ¬ len ≤ 0 := by omega
  simp [rx_step, h0, sizeof_servo_packet_16, sizeof_servo_packet_32, pkt_magic, h1, h2]

theorem rx_step_eq_self (s : RxShared) (buf : List Nat) (len : Int) (from_addr : SockAddr)
    (now : Nat) (h : ¬ rx_accepted buf len) : rx_step s buf len from_addr now = s := by
  unfold rx_accepted at h
  push_neg at h
  obtain ⟨h1, h2⟩ := h
  unfold rx_step
  split_ifs with a b c
  · rfl
  · exact absurd b.2 (h1 (by simpa [sizeof_servo_packet_16] using b.1))
  · exact absurd c.2 (h2 (by simpa [sizeof_servo_packet_32] using c.1))
  · rfl

theorem rx_step_accepted_cases (s : RxShared) (buf : List Nat) (len : Int)
    (from_addr : SockAddr) (now : Nat) (h : rx_accepted buf len) :
    rx_step s buf len from_addr now = rx_accept s buf from_addr now 16 ∨
    rx_step s buf len from_addr now = rx_accept s buf from_addr now 32 := by
  rcases h with h | h
  · exact Or.inl (rx_step_eq_16 s buf len from_addr now h)
  · exact Or.inr (rx_step_eq_32 s buf len from_addr now h)

theorem clampd_eq_max_min (v lo hi : ℚ) (h : lo ≤ hi) : clampd v lo hi = max lo (min v hi) := by
  unfold clampd
  split_ifs with h1 h2
  · rw [max_eq_left]
    exact le_trans (min_le_left _ _) (le_of_lt h1)
  · rw [min_eq_right (le_of_lt h2), max_eq_right h]
  · push_neg at h1 h2
    rw [min_eq_left h2, max_eq_right h1]

theorem rx_accept_view (s : RxShared) (buf : List Nat) (from_addr : SockAddr) (now n i : Nat)
    (hi : i < 16) :
    (rx_accept s buf from_addr now n).sitl_out_pwm[i]? =
      some (normalize_pwm (pkt_pwm buf i) (decide (i = 2 ∨ i ≥ 4))) := by
  simp [rx_accept, List.getElem?_map, List.getElem?_range hi]

theorem rx_accept_raw (s : RxShared) (buf : List Nat) (from_addr : SockAddr) (now n i : Nat)
    (hi : i < n) :
    (rx_accept s buf from_addr now n).pwm.pwm[i]? = some (pkt_pwm buf i) := by
  have h : (rx_accept s buf from_addr now n).pwm.pwm = pkt_pwm_block buf n ++ s.pwm.pwm.drop n := by
    simp [rx_accept, vec_store_eq]
  rw [h, List.getElem?_append_left (by simpa [pkt_pwm_block_length] using hi)]
  simp [pkt_pwm_block, List.getElem?_map, List.getElem?_range hi]

/-! ## Claims about the receive loop -/

/-- C1: one iteration of the receive step leaves PeerAddress, the stored frame and the
normalized view exactly as they were unless (len >= 40 and the little-endian magic is 18458)
or (len >= 72 and it is 29569); and when the steady clock has advanced since the stored
frame was received, one of the three changes if and only if that condition holds. -/
theorem rx_step_changes_iff_accepted (s : RxShared) (buf : List Nat) (len : Int)
    (from_addr : SockAddr) (now : Nat) :
    (s.pwm.tlast < now →
      (((rx_step s buf len from_addr now).g_sitl_addr ≠ s.g_sitl_addr ∨
        (rx_step s buf len from_addr now).g_sitl_addr_known ≠ s.g_sitl_addr_known ∨
        (rx_step s buf len from_addr now).pwm ≠ s.pwm ∨
        (rx_step s buf len from_addr now).sitl_out_pwm ≠ s.sitl_out_pwm ∨
        (rx_step s buf len from_addr now).sitl_has_ch ≠ s.sitl_has_ch) ↔
       ((len ≥ 40 ∧ u16le buf 0 = 18458) ∨ (len ≥ 72 ∧ u16le buf 0 = 29569)))) ∧
    (¬ ((len ≥ 40 ∧ u16le buf 0 = 18458) ∨ (len ≥ 72 ∧ u16le buf 0 = 29569)) →
      (rx_step s buf len from_addr now).g_sitl_addr = s.g_sitl_addr ∧
      (rx_step s buf len from_addr now).g_sitl_addr_known = s.g_sitl_addr_known ∧
      (rx_step s buf len from_addr now).pwm = s.pwm ∧
      (rx_step s buf len from_addr now).sitl_out_pwm = s.sitl_out_pwm ∧
      (rx_step s buf len from_addr now).sitl_has_ch = s.sitl_has_ch) := by
  have hdrop : ¬ rx_accepted buf len → rx_step s buf len from_addr now = s :=
    rx_step_eq_self s buf len from_addr now
  refine ⟨fun hclock => ⟨fun hch => ?_, fun hacc => ?_⟩, fun hn => ?_⟩
  · by_contra hn
    rw [hdrop hn] at hch
    simp at hch
  · right; right; left
    intro heq
    have ht : (rx_step s buf len from_addr now).pwm.tlast = now := by
      rcases rx_step_accepted_cases s buf len from_addr now hacc with h | h <;>
        simp [h, rx_accept]
    rw [heq] at ht
    omega
  · rw [hdrop hn]
    simp

/-- Witness for C1: the scenario datagram is accepted and changes the initial state, while a
72-byte datagram with an unknown magic changes nothing. -/
theorem rx_step_changes_iff_accepted_witness :
    ((rx_step rx_init pkt16_1500 40 addrX 5).g_sitl_addr ≠ rx_init.g_sitl_addr ∨
      (rx_step rx_init pkt16_1500 40 addrX 5).g_sitl_addr_known ≠ rx_init.g_sitl_addr_known ∨
      (rx_step rx_init pkt16_1500 40 addrX 5).pwm ≠ rx_init.pwm ∨
      (rx_step rx_init pkt16_1500 40 addrX 5).sitl_out_pwm ≠ rx_init.sitl_out_pwm ∨
      (rx_step rx_init pkt16_1500 40 addrX 5).sitl_has_ch ≠ rx_init.sitl_has_ch) ∧
    (rx_step rx_init (mk_packet 4660 50 7 (List.replicate 32 1500)) 72 addrX 5).pwm =
      rx_init.pwm :=
  ⟨((rx_step_changes_iff_accepted rx_init pkt16_1500 40 addrX 5).1 (by decide)).2
      (Or.inl (by decide)),
   ((rx_step_changes_iff_accepted rx_init (mk_packet 4660 50 7 (List.replicate 32 1500)) 72
      addrX 5).2 (by decide)).2.2.1⟩

/-- C2: after an accepted 16-channel datagram from `from_addr` the peer address is known and
equals `from_addr`, the stored frame rate is the little-endian u16 at bytes 2-3 and stored raw
channel i is the little-endian u16 at bytes 8+2i, 9+2i for every i < 16; after an accepted
32-channel datagram the same holds for every i < 32. -/
theorem rx_step_stores_peer_rate_channels (s : RxShared) (buf : List Nat) (len : Int)
    (from_addr : SockAddr) (now : Nat) :
    (len ≥ 40 ∧ u16le buf 0 = 18458 →
      (rx_step s buf len from_addr now).g_sitl_addr_known = true ∧
      (rx_step s buf len from_addr now).g_sitl_addr = from_addr ∧
      (rx_step s buf len from_addr now).pwm.rate_hz = byteAt buf 2 + 256 * byteAt buf 3 ∧
      ∀ i, i < 16 → (rx_step s buf len from_addr now).pwm.pwm[i]? =
        some (byteAt buf (8 + 2 * i) + 256 * byteAt buf (9 + 2 * i))) ∧
    (len ≥ 72 ∧ u16le buf 0 = 29569 →
      (rx_step s buf len from_addr now).g_sitl_addr_known = true ∧
      (rx_step s buf len from_addr now).g_sitl_addr = from_addr ∧
      (rx_step s buf len from_addr now).pwm.rate_hz = byteAt buf 2 + 256 * byteAt buf 3 ∧
      ∀ i, i < 32 → (rx_step s buf len from_addr now).pwm.pwm[i]? =
        some (byteAt buf (8 + 2 * i) + 256 * byteAt buf (9 + 2 * i))) := by
  have hoff : ∀ i, 8 + 2 * i + 1 = 9 + 2 * i := fun i => by omega
  constructor
  · intro h
    rw [rx_step_eq_16 s buf len from_addr now h]
    refine ⟨rfl, rfl, rfl, fun i hi => ?_⟩
    rw [rx_accept_raw s buf from_addr now 16 i hi, pkt_pwm, u16le, hoff]
  · intro h
    rw [rx_step_eq_32 s buf len from_addr now h]
    refine ⟨rfl, rfl, rfl, fun i hi => ?_⟩
    rw [rx_accept_raw s buf from_addr now 32 i hi, pkt_pwm, u16le, hoff]

/-- Witness for C2: the scenario datagram from `addrX` makes `addrX` the known peer, stores
rate 50 and sixteen channels of 1500. -/
theorem rx_step_stores_peer_rate_channels_witness :
    (rx_step rx_init pkt16_1500 40 addrX 5).g_sitl_addr = addrX ∧
    (rx_step rx_init pkt16_1500 40 addrX 5).pwm.rate_hz = 50 ∧
    (rx_step rx_init pkt16_1500 40 addrX 5).pwm.pwm[15]? = some 1500 :=
  have h := (rx_step_stores_peer_rate_channels rx_init pkt16_1500 40 addrX 5).1 (by decide)
  ⟨h.2.1, h.2.2.1, h.2.2.2 15 (by decide)⟩

/-- C3: after an accepted datagram the normalized view of channel i < 16 with raw value p is
clamp((p - 1000)/1000, 0, 1) when i = 2 or i >= 4 and clamp((p - 1500)/500, -1, 1) when i is
0, 1 or 3; when all sixteen channels of a magic-18458 datagram are 1500 the view is exactly 0
on channels 0, 1, 3 and exactly 1/2 on every other channel. -/
theorem rx_step_normalized_view (s : RxShared) (buf : List Nat) (len : Int)
    (from_addr : SockAddr) (now : Nat) :
    ((len ≥ 40 ∧ u16le buf 0 = 18458) ∨ (len ≥ 72 ∧ u16le buf 0 = 29569) →
      ∀ i, i < 16 → (rx_step s buf len from_addr now).sitl_out_pwm[i]? =
        some (if i = 2 ∨ i ≥ 4
          then max 0 (min (((u16le buf (8 + 2 * i) : ℚ) - 1000) / 1000) 1)
          else max (-1) (min (((u16le buf (8 + 2 * i) : ℚ) - 1500) / 500) 1))) ∧
    (len ≥ 40 ∧ u16le buf 0 = 18458 ∧ (∀ i, i < 16 → u16le buf (8 + 2 * i) = 1500) →
      (rx_step s buf len from_addr now).sitl_out_pwm =
        [0, 0, 1 / 2, 0, 1 / 2, 1 / 2, 1 / 2, 1 / 2, 1 / 2, 1 / 2, 1 / 2, 1 / 2, 1 / 2, 1 / 2,
          1 / 2, 1 / 2]) := by
  have key : ∀ n i, i < 16 → (rx_accept s buf from_addr now n).sitl_out_pwm[i]? =
      some (if i = 2 ∨ i ≥ 4
        then max 0 (min (((u16le buf (8 + 2 * i) : ℚ) - 1000) / 1000) 1)
        else max (-1) (min (((u16le buf (8 + 2 * i) : ℚ) - 1500) / 500) 1)) := by
    intro n i hi
    rw [rx_accept_view s buf from_addr now n i hi]
    unfold normalize_pwm pkt_pwm
    by_cases hc : i = 2 ∨ i ≥ 4
    · simp only [hc, decide_True, if_true]
      rw [clampd_eq_max_min _ _ _ (by norm_num)]
    · simp only [hc, decide_False, if_false, Bool.false_eq_true]
      rw [clampd_eq_max_min _ _ _ (by norm_num)]
  constructor
  · intro hacc i hi
    rcases rx_step_accepted_cases s buf len from_addr now hacc with h | h <;>
      rw [h] <;> exact key _ i hi
  · rintro ⟨h1, h2, h3⟩
    rw [rx_step_eq_16 s buf len from_addr now ⟨h1, h2⟩]
    simp only [rx_accept, pkt_pwm, List.range, List.range.loop, List.map]
    simp only [h3 0 (by decide), h3 1 (by decide), h3 2 (by decide), h3 3 (by decide),
      h3 4 (by decide), h3 5 (by decide), h3 6 (by decide), h3 7 (by decide),
      h3 8 (by decide), h3 9 (by decide), h3 10 (by decide), h3 11 (by decide),
      h3 12 (by decide), h3 13 (by decide), h3 14 (by decide), h3 15 (by decide)]
    norm_num [normalize_pwm, clampd]

/-- Witness for C3: the scenario datagram (magic 18458, all channels 1500) yields 0 on
channels 0, 1, 3 and 1/2 elsewhere. -/
theorem rx_step_normalized_view_witness :
    (rx_step rx_init pkt16_1500 40 addrX 5).sitl_out_pwm =
      [0, 0, 1 / 2, 0, 1 / 2, 1 / 2, 1 / 2, 1 / 2, 1 / 2, 1 / 2, 1 / 2, 1 / 2, 1 / 2, 1 / 2,
        1 / 2, 1 / 2] :=
  (rx_step_normalized_view rx_init pkt16_1500 40 addrX 5).2 (by decide)

/-- C4: the receive step never writes the frame counter of the stored frame: the field keeps
its prior value whatever the datagram, so after the scenario datagram, whose frame_count
field (bytes 4-7, little-endian) is 7, the stored counter is still the initial 0. -/
theorem rx_step_never_stores_frame_count :
    (∀ (s : RxShared) (buf : List Nat) (len : Int) (from_addr : SockAddr) (now : Nat),
      (rx_step s buf len from_addr now).pwm.frame = s.pwm.frame) ∧
    ((40 : Int) ≥ 40 ∧ u16le pkt16_1500 0 = 18458) ∧
    u32le pkt16_1500 4 = 7 ∧
    (rx_step rx_init pkt16_1500 40 addrX 5).pwm.frame = 0 := by
  refine ⟨fun s buf len from_addr now => ?_, by decide, by decide, by decide⟩
  unfold rx_step
  split_ifs <;> simp [rx_accept]

/-- C5 fails as stated: a 16-channel datagram accepted after a 32-channel one leaves a
channel vector of length 32 whose entries 16..31 still come from the earlier datagram. -/
theorem rx_step_keeps_stale_tail :
    ((40 : Int) ≥ 40 ∧ u16le pkt16_1500 0 = 18458) ∧
    (rx_step (rx_step rx_init pkt32_1100 72 addrX 5) pkt16_1500 40 addrX 6).pwm.pwm.length
      = 32 ∧
    (rx_step (rx_step rx_init pkt32_1100 72 addrX 5) pkt16_1500 40 addrX 6).pwm.pwm[16]?
      = some 1100 ∧
    (rx_step (rx_step rx_init pkt32_1100 72 addrX 5) pkt16_1500 40 addrX 6).pwm.pwm
      ≠ (List.range 16).map (fun i => u16le pkt16_1500 (8 + 2 * i)) := by
  decide

/-- C5 amended: after an accepted n-channel datagram (n = 16 or 32) the first n stored
channels are exactly the datagram's, the entries from index n on are those of the prior
vector, the rate and the receipt time are overwritten, and the length is the larger of n and
the prior length; so when the prior vector had at most n entries the stored vector is exactly
the datagram's channels and has length n. -/
theorem rx_step_overwrites_leading_channels (s : RxShared) (buf : List Nat) (len : Int)
    (from_addr : SockAddr) (now n : Nat)
    (h : (n = 16 ∧ len ≥ 40 ∧ u16le buf 0 = 18458) ∨ (n = 32 ∧ len ≥ 72 ∧ u16le buf 0 = 29569)) :
    (rx_step s buf len from_addr now).pwm.pwm =
      (List.range n).map (fun i => u16le buf (8 + 2 * i)) ++ s.pwm.pwm.drop n ∧
    (rx_step s buf len from_addr now).pwm.pwm.length = max n s.pwm.pwm.length ∧
    (rx_step s buf len from_addr now).pwm.rate_hz = u16le buf 2 ∧
    (rx_step s buf len from_addr now).pwm.tlast = now ∧
    (s.pwm.pwm.length ≤ n →
      (rx_step s buf len from_addr now).pwm.pwm =
        (List.range n).map (fun i => u16le buf (8 + 2 * i)) ∧
      (rx_step s buf len from_addr now).pwm.pwm.length = n) := by
  have hstep : rx_step s buf len from_addr now = rx_accept s buf from_addr now n := by
    rcases h with ⟨hn, h1, h2⟩ | ⟨hn, h1, h2⟩
    · rw [hn]; exact rx_step_eq_16 s buf len from_addr now ⟨h1, h2⟩
    · rw [hn]; exact rx_step_eq_32 s buf len from_addr now ⟨h1, h2⟩
  have hvec : (rx_accept s buf from_addr now n).pwm.pwm =
      (List.range n).map (fun i => u16le buf (8 + 2 * i)) ++ s.pwm.pwm.drop n := by
    simp only [rx_accept, vec_store_eq]
    rfl
  rw [hstep]
  refine ⟨hvec, ?_, rfl, rfl, fun hle => ?_⟩
  · rw [hvec]
    simp only [List.length_append, List.length_map, List.length_range, List.length_drop]
    omega
  · rw [hvec, List.drop_of_length_le hle]
    simp

/-- Witness for the amended C5: the 32-channel datagram stored on top of the sixteen
channels of an earlier 16-channel datagram leaves exactly its own 32 channels. -/
theorem rx_step_overwrites_leading_channels_witness :
    (rx_step (rx_step rx_init pkt16_1500 40 addrX 5) pkt32_1100 72 addrX 6).pwm.pwm =
      (List.range 32).map (fun i => u16le pkt32_1100 (8 + 2 * i)) ∧
    (rx_step (rx_step rx_init pkt16_1500 40 addrX 5) pkt32_1100 72 addrX 6).pwm.pwm.length
      = 32 :=
  (rx_step_overwrites_leading_channels (rx_step rx_init pkt16_1500 40 addrX 5) pkt32_1100 72
    addrX 6 32 (Or.inr (by decide))).2.2.2.2 (by decide)

/-! ## Claims about the telemetry loop -/

theorem emit_once_rx (L : Libm) (b : Bridge) (target_dt : ℚ) (ms : Bool) (pm : Int)
    (inp : EmitIn) : (emit_once L b target_dt ms pm inp).1.rx = b.rx := by
  unfold emit_once
  simp only []
  split_ifs <;> rfl

theorem emit_once_none_of_unknown (L : Libm) (b : Bridge) (target_dt : ℚ) (ms : Bool)
    (pm : Int) (inp : EmitIn) (h : b.rx.g_sitl_addr_known = false) :
    (emit_once L b target_dt ms pm inp).2 = none := by
  unfold emit_once
  simp only [h]
  split_ifs <;> first | rfl | simp_all

theorem emit_loop_nil_of_unknown (L : Libm) (target_dt : ℚ) (ms : Bool) (pm : Int)
    (env : Nat → EmitIn) (fuel : Nat) :
    ∀ (k : Nat) (b : Bridge), b.rx.g_sitl_addr_known = false →
      (emit_loop L target_dt ms pm env fuel k b).2 = [] := by
  induction fuel with
  | zero => intro k b _; rfl
  | succ n ih =>
    intro k b h
    unfold emit_loop
    split_ifs with hc
    · have h1 : (emit_once L b target_dt ms pm (env k)).1.rx.g_sitl_addr_known = false := by
        rw [emit_once_rx]; exact h
      simp [emit_once_none_of_unknown L b target_dt ms pm (env k) h, ih (k + 1) _ h1]
    · rfl

theorem rx_run_unknown (ds : List RxIn) :
    ∀ s : RxShared, s.g_sitl_addr_known = false → (∀ d ∈ ds, ¬ rx_accepted d.buf d.len) →
      (rx_run s ds).g_sitl_addr_known = false := by
  induction ds with
  | nil => intro s h _; exact h
  | cons d ds ih =>
    intro s h hall
    unfold rx_run
    apply ih
    · rw [rx_step_eq_self s d.buf d.len d.from_addr d.now (hall d (List.mem_cons_self _ _))]
      exact h
    · intro e he
      exact hall e (List.mem_cons_of_mem _ he)

/-- C6: in every state reached from the initial one without any accepted datagram the peer
address is unknown, and from any such state the emission loop sends no outbound record,
whatever the number of emissions, the target period, the socket state and the configured
destination IP and port. -/
theorem no_record_before_peer_known (L : Libm) (b : Bridge) (ds : List RxIn)
    (hrx : b.rx = rx_run rx_init ds) (hnone : ∀ d ∈ ds, ¬ rx_accepted d.buf d.len)
    (target_dt : ℚ) (match_sim_rate_snap : Bool) (pos_mode_snap : Int) (env : Nat → EmitIn)
    (fuel k : Nat) (socket_ok : Bool) :
    b.rx.g_sitl_addr_known = false ∧
    (emit_loop L target_dt match_sim_rate_snap pos_mode_snap env fuel k
      (sim_tx_reopen b socket_ok)).2 = [] := by
  have hk : b.rx.g_sitl_addr_known = false := by
    rw [hrx]; exact rx_run_unknown ds rx_init rfl hnone
  refine ⟨hk, emit_loop_nil_of_unknown L _ _ _ _ _ _ _ ?_⟩
  unfold sim_tx_reopen
  split_ifs <;> exact hk

/-- Witness for C6: with a valid sample stored and four emissions due, a state that only saw
a datagram with an unknown magic sends nothing. -/
theorem no_record_before_peer_known_witness :
    bridge_no_peer.rx.g_sitl_addr_known = false ∧
    (emit_loop libm0 (1 / 4) false 0 (fun _ => {}) 10 0
      (sim_tx_reopen bridge_no_peer true)).2 = [] :=
  no_record_before_peer_known libm0 bridge_no_peer [noise72] rfl (by decide) (1 / 4) false 0
    (fun _ => {}) 10 0 true

theorem sane_pos_fin (a b : ℚ) :
    sane_pos (Dbl.fin a) (Dbl.fin b) = true ↔
      |a| ≤ 90 ∧ |b| ≤ 180 ∧ ¬ (|a| < 1 / 1000000000 ∧ |b| < 1 / 1000000000) := by
  simp only [sane_pos, Dbl.isfinite, Dbl.fabs, Dbl.le, Dbl.lt, Bool.and_eq_true,
    Bool.not_eq_true', decide_eq_true_eq, Bool.true_and, Bool.and_eq_false_imp,
    decide_eq_false_iff_not, not_and, not_lt]
  tauto

theorem sane_pos_isfinite (la lo : Dbl) (h : sane_pos la lo = true) :
    la.isfinite = true ∧ lo.isfinite = true := by
  simp only [sane_pos, Bool.and_eq_true] at h
  exact ⟨h.1.1.1.1, h.1.1.1.2⟩

theorem Dbl.isfinite_iff (x : Dbl) : x.isfinite = true ↔ ∃ q : ℚ, x = Dbl.fin q := by
  cases x <;> simp [Dbl.isfinite]

theorem decode_sample_fields (v : Nat → Dbl) (old : RawSensors) :
    (decode_sample v old).lat_deg = v 0 ∧ (decode_sample v old).lon_deg = v 1 ∧
    (decode_sample v old).alt_msl_ft = v 2 ∧
    (decode_sample v old).valid = sane_pos (v 0) (v 1) := by
  have h : (read_sensors v old).lat_deg = v 0 ∧ (read_sensors v old).lon_deg = v 1 ∧
      (read_sensors v old).alt_msl_ft = v 2 := by
    unfold read_sensors
    simp only []
    split_ifs <;> exact ⟨rfl, rfl, rfl⟩
  refine ⟨h.1, h.2.1, h.2.2, ?_⟩
  show sane_pos (read_sensors v old).lat_deg (read_sensors v old).lon_deg = _
  rw [h.1, h.2.1]

theorem sim_on_data_valid (L : Libm) (b : Bridge) (pm : Int) (v : Nat → Dbl) (now_ms : Nat) :
    (sim_on_data L b pm REQ_SENSORS v now_ms).G.R.valid = sane_pos (v 0) (v 1) :=
  (decode_sample_fields v _).2.2.2

/-- C8: for every telemetry push with latitude `v 0` and longitude `v 1`, the validity flag
of the stored sample is true if and only if both are finite, |lat| <= 90, |lon| <= 180 and
not both |lat| < 1e-9 and |lon| < 1e-9; in particular it is false at (0, 0). -/
theorem stored_valid_iff (L : Libm) (b : Bridge) (pos_mode_snap : Int) (v : Nat → Dbl)
    (now_ms : Nat) :
    ((sim_on_data L b pos_mode_snap REQ_SENSORS v now_ms).G.R.valid = true ↔
      ∃ lat lon : ℚ, v 0 = Dbl.fin lat ∧ v 1 = Dbl.fin lon ∧ |lat| ≤ 90 ∧ |lon| ≤ 180 ∧
        ¬ (|lat| < 1 / 1000000000 ∧ |lon| < 1 / 1000000000)) ∧
    (v 0 = Dbl.fin 0 ∧ v 1 = Dbl.fin 0 →
      (sim_on_data L b pos_mode_snap REQ_SENSORS v now_ms).G.R.valid = false) := by
  rw [sim_on_data_valid]
  constructor
  · constructor
    · intro h
      obtain ⟨h1, h2⟩ := sane_pos_isfinite _ _ h
      obtain ⟨lat, hlat⟩ := (Dbl.isfinite_iff _).1 h1
      obtain ⟨lon, hlon⟩ := (Dbl.isfinite_iff _).1 h2
      rw [hlat, hlon] at h
      exact ⟨lat, lon, hlat, hlon, (sane_pos_fin lat lon).1 h⟩
    · rintro ⟨lat, lon, hlat, hlon, h⟩
      rw [hlat, hlon]
      exact (sane_pos_fin lat lon).2 h
  · rintro ⟨h0, h1⟩
    rw [h0, h1]
    by_contra hc
    have ht : sane_pos (Dbl.fin 0) (Dbl.fin 0) = true := by simpa using hc
    have := (sane_pos_fin 0 0).1 ht
    norm_num at this

/-- Witness for C8: the scenario sample (47, 8) is stored valid and a push at (0, 0) is
stored invalid. -/
theorem stored_valid_iff_witness :
    (sim_on_data libm0 bridge_init 0 REQ_SENSORS v_scenario 1000).G.R.valid = true ∧
    (sim_on_data libm0 bridge_init 0 REQ_SENSORS (fun _ => Dbl.fin 0) 1000).G.R.valid = false :=
  ⟨(stored_valid_iff libm0 bridge_init 0 v_scenario 1000).1.2
      ⟨47, 8, rfl, rfl, by norm_num [abs_of_pos], by norm_num [abs_of_pos], by
        norm_num [abs_of_pos]⟩,
   (stored_valid_iff libm0 bridge_init 0 (fun _ => Dbl.fin 0) 1000).2 ⟨rfl, rfl⟩⟩

@[simp] theorem Dbl.fin_add (a b : ℚ) : Dbl.fin a + Dbl.fin b = Dbl.fin (a + b) := rfl

@[simp] theorem Dbl.fin_sub (a b : ℚ) : Dbl.fin a - Dbl.fin b = Dbl.fin (a - b) := by
  show Dbl.add (Dbl.fin a) (Dbl.neg (Dbl.fin b)) = Dbl.fin (a - b)
  simp [Dbl.neg, Dbl.add, sub_eq_add_neg]

@[simp] theorem Dbl.fin_mul (a b : ℚ) : Dbl.fin a * Dbl.fin b = Dbl.fin (a * b) := rfl

@[simp] theorem Dbl.fin_neg (a : ℚ) : -Dbl.fin a = Dbl.fin (-a) := rfl

@[simp] theorem Dbl.fin_div_two (a : ℚ) : Dbl.fin a / Dbl.fin 2 = Dbl.fin (a / 2) := by
  show Dbl.div (Dbl.fin a) (Dbl.fin 2) = Dbl.fin (a / 2)
  simp [Dbl.div]

@[simp] theorem Libm.dcos_fin (L : Libm) (a : ℚ) : L.dcos (Dbl.fin a) = Dbl.fin (L.cos a) := rfl

theorem project_at_origin (L : Libm) (G : Shared) (r : RawSensors) (lat0 lon0 alt0 Re : ℚ)
    (hlat : G.sim_origin_lat = Dbl.fin lat0) (hlon : G.sim_origin_lon = Dbl.fin lon0)
    (halt : G.sim_origin_alt_m = Dbl.fin alt0) (hRe : G.sim_earth_radius = Dbl.fin Re)
    (h1 : r.lat_deg = Dbl.fin lat0) (h2 : r.lon_deg = Dbl.fin lon0)
    (h3 : ft2m r.alt_msl_ft = Dbl.fin alt0) :
    (project L G r).N_m = Dbl.fin 0 ∧ (project L G r).E_m = Dbl.fin 0 ∧
    (project L G r).U_m = Dbl.fin 0 := by
  simp [project, hlat, hlon, halt, hRe, h1, h2, h3]

theorem capture_origin_armed (b : Bridge) (r : RawSensors)
    (hcap : b.sim.origin_captured = false) (hv : r.valid = true) :
    (capture_origin b 0 r).G.sim_origin_lat = r.lat_deg ∧
    (capture_origin b 0 r).G.sim_origin_lon = r.lon_deg ∧
    (capture_origin b 0 r).G.sim_origin_alt_m = ft2m r.alt_msl_ft ∧
    (capture_origin b 0 r).G.sim_earth_radius = b.G.sim_earth_radius ∧
    (capture_origin b 0 r).sim.origin_captured = true := by
  simp [capture_origin, hcap, hv]

theorem ingest_sample_captures (L : Libm) (b : Bridge) (v : Nat → Dbl) (now_ms : Nat)
    (lat lon alt_ft Re : ℚ) (hcap : b.sim.origin_captured = false)
    (hsane : sane_pos (v 0) (v 1) = true) (hlat : v 0 = Dbl.fin lat) (hlon : v 1 = Dbl.fin lon)
    (halt : v 2 = Dbl.fin alt_ft) (hRe : b.G.sim_earth_radius = Dbl.fin Re) :
    (ingest_sample L b 0 v now_ms).G.sim_origin_lat = v 0 ∧
    (ingest_sample L b 0 v now_ms).G.sim_origin_lon = v 1 ∧
    (ingest_sample L b 0 v now_ms).G.sim_origin_alt_m = ft2m (v 2) ∧
    (ingest_sample L b 0 v now_ms).sim.origin_captured = true ∧
    (ingest_sample L b 0 v now_ms).G.R.lat_deg = v 0 ∧
    (ingest_sample L b 0 v now_ms).G.R.lon_deg = v 1 ∧
    (ingest_sample L b 0 v now_ms).G.R.N_m = Dbl.fin 0 ∧
    (ingest_sample L b 0 v now_ms).G.R.E_m = Dbl.fin 0 ∧
    (ingest_sample L b 0 v now_ms).G.R.U_m = Dbl.fin 0 := by
  obtain ⟨d1, d2, d3, d4⟩ := decode_sample_fields v b.sim.R_receive_buffer
  obtain ⟨c1, c2, c3, c4, c5⟩ :=
    capture_origin_armed b (decode_sample v b.sim.R_receive_buffer) hcap (d4.trans hsane)
  rw [d1] at c1
  rw [d2] at c2
  rw [d3] at c3
  have hp := project_at_origin L (capture_origin b 0 (decode_sample v b.sim.R_receive_buffer)).G
    (decode_sample v b.sim.R_receive_buffer) lat lon (alt_ft * (3048 / 10000)) Re
    (c1.trans hlat) (c2.trans hlon) (by rw [c3, halt]; simp [ft2m]) (c4.trans hRe)
    (d1.trans hlat) (d2.trans hlon) (by rw [d3, halt]; simp [ft2m])
  exact ⟨c1, c2, c3, c5, d1, d2, hp.1, hp.2.1, hp.2.2⟩

/-- C9: for every origin (lat0, lon0, alt0) and earth radius Re, a sample at latitude lat0
and longitude lon0 whose MSL altitude in metres is alt0 projects to north 0, east 0, up 0;
and in local-only mode (mode 0) a valid sample with a finite altitude that arrives while the
capture is armed becomes the origin and is stored with local position (0, 0, 0). -/
theorem origin_projects_to_zero (L : Libm) :
    (∀ (G : Shared) (r : RawSensors) (lat0 lon0 alt0 Re : ℚ),
      G.sim_origin_lat = Dbl.fin lat0 → G.sim_origin_lon = Dbl.fin lon0 →
      G.sim_origin_alt_m = Dbl.fin alt0 → G.sim_earth_radius = Dbl.fin Re →
      r.lat_deg = Dbl.fin lat0 → r.lon_deg = Dbl.fin lon0 →
      ft2m r.alt_msl_ft = Dbl.fin alt0 →
      (project L G r).N_m = Dbl.fin 0 ∧ (project L G r).E_m = Dbl.fin 0 ∧
      (project L G r).U_m = Dbl.fin 0) ∧
    (∀ (b : Bridge) (v : Nat → Dbl) (now_ms : Nat) (alt_ft Re : ℚ),
      b.sim.origin_captured = false → sane_pos (v 0) (v 1) = true →
      v 2 = Dbl.fin alt_ft → b.G.sim_earth_radius = Dbl.fin Re →
      (sim_on_data L b 0 REQ_SENSORS v now_ms).G.sim_origin_lat = v 0 ∧
      (sim_on_data L b 0 REQ_SENSORS v now_ms).G.sim_origin_lon = v 1 ∧
      (sim_on_data L b 0 REQ_SENSORS v now_ms).G.sim_origin_alt_m = ft2m (v 2) ∧
      (sim_on_data L b 0 REQ_SENSORS v now_ms).sim.origin_captured = true ∧
      (sim_on_data L b 0 REQ_SENSORS v now_ms).G.R.lat_deg = v 0 ∧
      (sim_on_data L b 0 REQ_SENSORS v now_ms).G.R.lon_deg = v 1 ∧
      (sim_on_data L b 0 REQ_SENSORS v now_ms).G.R.N_m = Dbl.fin 0 ∧
      (sim_on_data L b 0 REQ_SENSORS v now_ms).G.R.E_m = Dbl.fin 0 ∧
      (sim_on_data L b 0 REQ_SENSORS v now_ms).G.R.U_m = Dbl.fin 0) := by
  refine ⟨fun G r lat0 lon0 alt0 Re hlat hlon halt hRe h1 h2 h3 =>
    project_at_origin L G r lat0 lon0 alt0 Re hlat hlon halt hRe h1 h2 h3, ?_⟩
  intro b v now_ms alt_ft Re hcap hsane halt hRe
  obtain ⟨hf1, hf2⟩ := sane_pos_isfinite _ _ hsane
  obtain ⟨lat, hlat⟩ := (Dbl.isfinite_iff _).1 hf1
  obtain ⟨lon, hlon⟩ := (Dbl.isfinite_iff _).1 hf2
  exact ingest_sample_captures L (smooth_frame_period b now_ms) v now_ms lat lon alt_ft Re hcap
    hsane hlat hlon halt hRe

/-- Witness for C9: the scenario sample, pushed while the capture is armed in mode 0, becomes
the origin and is stored at local position (0, 0, 0). -/
theorem origin_projects_to_zero_witness :
    (sim_on_data libm0 bridge_init 0 REQ_SENSORS v_scenario 1000).G.sim_origin_lat = Dbl.fin 47 ∧
    (sim_on_data libm0 bridge_init 0 REQ_SENSORS v_scenario 1000).G.R.N_m = Dbl.fin 0 ∧
    (sim_on_data libm0 bridge_init 0 REQ_SENSORS v_scenario 1000).G.R.E_m = Dbl.fin 0 ∧
    (sim_on_data libm0 bridge_init 0 REQ_SENSORS v_scenario 1000).G.R.U_m = Dbl.fin 0 :=
  have h := (origin_projects_to_zero libm0).2 bridge_init v_scenario 1000 1000 6378137 rfl
    (by with_unfolding_all rfl) rfl rfl
  ⟨h.1, h.2.2.2.2.2.2.1, h.2.2.2.2.2.2.2.1, h.2.2.2.2.2.2.2.2⟩

/-- C7: in the end-to-end scenario started from the initial shared state the next emission
is sent to the datagram's source `addrX`, but its twelve RC fields are 1000, not 1500: the
RC slots `G.rc_out` start at 0 and only a successful joystick poll writes the sentinel -1. -/
theorem scenario_record_rc_fields (L : Libm) :
    (bridge_scenario L).rx.g_sitl_addr_known = true ∧
    (bridge_scenario L).rx.g_sitl_addr = addrX ∧
    (bridge_scenario L).G.R.valid = true ∧
    (bridge_scenario L).G.rc_out = List.replicate 12 0 ∧
    (emit_once L (sim_tx_reopen (bridge_scenario L) true) (1 / 1000) false 0 {}).2.map
      (fun p => (p.1, p.2.rc)) = some (addrX, List.replicate 12 1000) := by
  refine ⟨?_, ?_, ?_, ?_, ?_⟩ <;> with_unfolding_all rfl

theorem capture_origin_held (b : Bridge) (r : RawSensors) (h : b.sim.origin_captured = true) :
    capture_origin b 0 r = b := by
  simp [capture_origin, h]

theorem sim_on_msg_holds_origin (L : Libm) (b : Bridge) (m : SimMsg) (hq : m.isQuit = false)
    (h : b.sim.origin_captured = true) :
    (sim_on_msg L b 0 m).origin = b.origin ∧
    (sim_on_msg L b 0 m).sim.origin_captured = true ∧
    (sim_on_msg L b 0 m).sim.last_pos_mode = b.sim.last_pos_mode ∧
    (sim_on_msg L b 0 m).G.json_pos_mode = b.G.json_pos_mode := by
  cases m with
  | quit now => simp [SimMsg.isQuit] at hq
  | other => exact ⟨rfl, h, rfl, rfl⟩
  | data request_id v now_ms =>
    have hs : (smooth_frame_period b now_ms).sim.origin_captured = true := h
    unfold sim_on_msg sim_on_data
    simp only []
    split_ifs
    · unfold ingest_sample
      simp only [capture_origin_held _ _ hs]
      exact ⟨rfl, h, rfl, rfl⟩
    · exact ⟨rfl, h, rfl, rfl⟩

theorem sim_dispatch_holds_origin (L : Libm) (ms : List SimMsg) :
    ∀ b : Bridge, (∀ m ∈ ms, m.isQuit = false) → b.sim.origin_captured = true →
      (sim_dispatch L 0 b ms).origin = b.origin ∧
      (sim_dispatch L 0 b ms).sim.origin_captured = true ∧
      (sim_dispatch L 0 b ms).sim.last_pos_mode = b.sim.last_pos_mode ∧
      (sim_dispatch L 0 b ms).G.json_pos_mode = b.G.json_pos_mode := by
  induction ms with
  | nil => intro b _ h; exact ⟨rfl, h, rfl, rfl⟩
  | cons m ms ih =>
    intro b hq h
    unfold sim_dispatch
    split_ifs
    · obtain ⟨h1, h2, h3, h4⟩ :=
        sim_on_msg_holds_origin L b m (hq m (List.mem_cons_self _ _)) h
      obtain ⟨k1, k2, k3, k4⟩ :=
        ih (sim_on_msg L b 0 m) (fun x hx => hq x (List.mem_cons_of_mem _ hx)) h2
      exact ⟨k1.trans h1, k2, k3.trans h3, k4.trans h4⟩
    · exact ⟨rfl, h, rfl, rfl⟩

theorem sim_ingest_holds_origin (L : Libm) (b : Bridge) (i : IngestIn)
    (hmode : b.G.json_pos_mode = 0) (hlast : b.sim.last_pos_mode = 0)
    (hcap : b.sim.origin_captured = true) (hq : i.noQuit = true) :
    (sim_ingest L b i).origin = b.origin ∧
    (sim_ingest L b i).sim.origin_captured = true ∧
    (sim_ingest L b i).sim.last_pos_mode = 0 ∧
    (sim_ingest L b i).G.json_pos_mode = 0 := by
  have hq2 : ∀ m ∈ i.msgs, m.isQuit = false := by
    intro m hm
    have := List.all_eq_true.1 hq m hm
    simpa using this
  have hr : sim_rearm b = b := by simp [sim_rearm, hmode, hlast]
  have hc : (sim_connect b i.now i.now_fail i.open_ok).origin = b.origin ∧
      (sim_connect b i.now i.now_fail i.open_ok).sim.origin_captured = true ∧
      (sim_connect b i.now i.now_fail i.open_ok).sim.last_pos_mode = 0 ∧
      (sim_connect b i.now i.now_fail i.open_ok).G.json_pos_mode = 0 := by
    unfold sim_connect
    split_ifs <;> exact ⟨rfl, hcap, hlast, hmode⟩
  obtain ⟨c1, c2, c3, c4⟩ := hc
  unfold sim_ingest
  simp only [hr, hmode]
  obtain ⟨d1, d2, d3, d4⟩ := sim_dispatch_holds_origin L i.msgs _ hq2 c2
  exact ⟨d1.trans c1, d2, d3.trans c3, d4.trans c4⟩

/-- C10 fails as stated: with the position mode 0 throughout, a simulator quit re-arms the
capture, and the next valid sample replaces the origin captured before. -/
theorem origin_recaptured_after_quit :
    (bridge_scenario libm0).G.json_pos_mode = 0 ∧
    (bridge_scenario libm0).sim.origin_captured = true ∧
    (bridge_scenario libm0).origin = (Dbl.fin 47, Dbl.fin 8, Dbl.fin (1524 / 5)) ∧
    (sim_ingest_run libm0 (bridge_scenario libm0) quit_then_push).G.json_pos_mode = 0 ∧
    (sim_ingest_run libm0 (bridge_scenario libm0) quit_then_push).origin =
      (Dbl.fin 48, Dbl.fin 9, Dbl.fin (3048 / 5)) := by
  refine ⟨?_, ?_, ?_, ?_, ?_⟩ <;> with_unfolding_all rfl

theorem origin_held_run (L : Libm) (is : List IngestIn) :
    ∀ b : Bridge, b.G.json_pos_mode = 0 → b.sim.last_pos_mode = 0 →
      b.sim.origin_captured = true → (∀ i ∈ is, i.noQuit = true) →
      (sim_ingest_run L b is).G.sim_origin_lat = b.G.sim_origin_lat ∧
      (sim_ingest_run L b is).G.sim_origin_lon = b.G.sim_origin_lon ∧
      (sim_ingest_run L b is).G.sim_origin_alt_m = b.G.sim_origin_alt_m ∧
      (sim_ingest_run L b is).sim.origin_captured = true := by
  induction is with
  | nil => intro b _ _ h _; exact ⟨rfl, rfl, rfl, h⟩
  | cons i is ih =>
    intro b hmode hlast hcap hq
    obtain ⟨h1, h2, h3, h4⟩ :=
      sim_ingest_holds_origin L b i hmode hlast hcap (hq i (List.mem_cons_self _ _))
    obtain ⟨k1, k2, k3, k4⟩ :=
      ih (sim_ingest L b i) h4 h3 h2 (fun x hx => hq x (List.mem_cons_of_mem _ hx))
    have e1 : (sim_ingest L b i).G.sim_origin_lat = b.G.sim_origin_lat :=
      congrArg (fun o => o.1) h1
    have e2 : (sim_ingest L b i).G.sim_origin_lon = b.G.sim_origin_lon :=
      congrArg (fun o => o.2.1) h1
    have e3 : (sim_ingest L b i).G.sim_origin_alt_m = b.G.sim_origin_alt_m :=
      congrArg (fun o => o.2.2) h1
    unfold sim_ingest_run
    exact ⟨k1.trans e1, k2.trans e2, k3.trans e3, k4⟩

theorem capture_origin_mode (b : Bridge) (pm : Int) (r : RawSensors) :
    (capture_origin b pm r).sim.last_pos_mode = b.sim.last_pos_mode ∧
    (capture_origin b pm r).G.json_pos_mode = b.G.json_pos_mode := by
  unfold capture_origin
  split_ifs <;> exact ⟨rfl, rfl⟩

theorem sim_on_msg_mode (L : Libm) (b : Bridge) (pm : Int) (m : SimMsg) :
    (sim_on_msg L b pm m).sim.last_pos_mode = b.sim.last_pos_mode ∧
    (sim_on_msg L b pm m).G.json_pos_mode = b.G.json_pos_mode := by
  cases m with
  | quit now => exact ⟨rfl, rfl⟩
  | other => exact ⟨rfl, rfl⟩
  | data request_id v now_ms =>
    unfold sim_on_msg sim_on_data
    simp only []
    split_ifs
    · exact capture_origin_mode (smooth_frame_period b now_ms) pm _
    · exact ⟨rfl, rfl⟩

theorem sim_dispatch_mode (L : Libm) (pm : Int) (ms : List SimMsg) :
    ∀ b : Bridge, (sim_dispatch L pm b ms).sim.last_pos_mode = b.sim.last_pos_mode ∧
      (sim_dispatch L pm b ms).G.json_pos_mode = b.G.json_pos_mode := by
  induction ms with
  | nil => intro b; exact ⟨rfl, rfl⟩
  | cons m ms ih =>
    intro b
    unfold sim_dispatch
    split_ifs
    · obtain ⟨h1, h2⟩ := sim_on_msg_mode L b pm m
      obtain ⟨k1, k2⟩ := ih (sim_on_msg L b pm m)
      exact ⟨k1.trans h1, k2.trans h2⟩
    · exact ⟨rfl, rfl⟩

theorem sim_ingest_mode (L : Libm) (b : Bridge) (i : IngestIn) :
    (sim_ingest L b i).sim.last_pos_mode = b.G.json_pos_mode ∧
    (sim_ingest L b i).G.json_pos_mode = b.G.json_pos_mode := by
  have hr : (sim_rearm b).sim.last_pos_mode = b.G.json_pos_mode ∧
      (sim_rearm b).G.json_pos_mode = b.G.json_pos_mode := by
    unfold sim_rearm
    split_ifs with h
    · exact ⟨rfl, rfl⟩
    · push_neg at h
      exact ⟨h.symm, rfl⟩
  have hc : (sim_connect (sim_rearm b) i.now i.now_fail i.open_ok).sim.last_pos_mode =
        b.G.json_pos_mode ∧
      (sim_connect (sim_rearm b) i.now i.now_fail i.open_ok).G.json_pos_mode =
        b.G.json_pos_mode := by
    unfold sim_connect
    split_ifs <;> exact hr
  obtain ⟨d1, d2⟩ := sim_dispatch_mode L b.G.json_pos_mode i.msgs
    (sim_connect (sim_rearm b) i.now i.now_fail i.open_ok)
  exact ⟨d1.trans hc.1, d2.trans hc.2⟩

/-- C10 amended: in position mode 0, when an iteration of the telemetry loop ends with the
origin captured, any further iterations that dispatch no quit notification, the position
mode staying 0, leave the origin's latitude, longitude and altitude exactly as they are,
whatever samples are pushed, and the capture stays done; a quit notification re-arms the
capture. -/
theorem origin_held_until_quit (L : Libm) (b0 : Bridge) (i0 : IngestIn) (is : List IngestIn)
    (hmode : b0.G.json_pos_mode = 0)
    (hcap : (sim_ingest L b0 i0).sim.origin_captured = true)
    (hq : ∀ i ∈ is, i.noQuit = true) :
    (sim_ingest_run L (sim_ingest L b0 i0) is).G.json_pos_mode = 0 ∧
    (sim_ingest_run L (sim_ingest L b0 i0) is).G.sim_origin_lat =
      (sim_ingest L b0 i0).G.sim_origin_lat ∧
    (sim_ingest_run L (sim_ingest L b0 i0) is).G.sim_origin_lon =
      (sim_ingest L b0 i0).G.sim_origin_lon ∧
    (sim_ingest_run L (sim_ingest L b0 i0) is).G.sim_origin_alt_m =
      (sim_ingest L b0 i0).G.sim_origin_alt_m ∧
    (sim_ingest_run L (sim_ingest L b0 i0) is).sim.origin_captured = true ∧
    (∀ (b : Bridge) (pm : Int) (now : Nat),
      (sim_on_msg L b pm (SimMsg.quit now)).sim.origin_captured = false) := by
  obtain ⟨m1, m2⟩ := sim_ingest_mode L b0 i0
  rw [hmode] at m1 m2
  have hrun : ∀ (js : List IngestIn) (b : Bridge), b.G.json_pos_mode = 0 →
      (sim_ingest_run L b js).G.json_pos_mode = 0 := by
    intro js
    induction js with
    | nil => intro b h; exact h
    | cons j js ih =>
      intro b h
      unfold sim_ingest_run
      exact ih _ ((sim_ingest_mode L b j).2.trans h)
  obtain ⟨h1, h2, h3, h4⟩ := origin_held_run L is (sim_ingest L b0 i0) m2 m1 hcap hq
  exact ⟨hrun is _ m2, h1, h2, h3, h4, fun _ _ _ => rfl⟩

/-- Witness for the amended C10: after the scenario captured the origin at (47, 8),
two more iterations pushing samples at (48, 9) without a quit leave it at (47, 8). -/
theorem origin_held_until_quit_witness :
    (sim_ingest_run libm0 (bridge_scenario libm0) push_twice).G.sim_origin_lat = Dbl.fin 47 ∧
    (sim_ingest_run libm0 (bridge_scenario libm0) push_twice).G.sim_origin_lon = Dbl.fin 8 ∧
    (sim_ingest_run libm0 (bridge_scenario libm0) push_twice).G.R.lat_deg = Dbl.fin 48 :=
  have h := origin_held_until_quit libm0 (bridge_init.rx_step pkt16_1500 40 addrX 5)
    { msgs := [SimMsg.data REQ_SENSORS v_scenario 1000] } push_twice
    (by with_unfolding_all rfl) (by with_unfolding_all rfl) (by decide)
  ⟨h.2.1.trans (by with_unfolding_all rfl), h.2.2.1.trans (by with_unfolding_all rfl),
    by with_unfolding_all rfl⟩

/-! ## Claims about linear resampling -/

theorem select_sample_of_none (b : Bridge) (ms : Bool) (now_ms : Nat)
    (h : resample_fraction b ms now_ms = none) : select_sample b ms now_ms = b.G.R := by
  unfold resample_fraction at h
  unfold select_sample
  simp only [] at h ⊢
  split_ifs at h ⊢ <;> rfl

theorem select_sample_of_some (b : Bridge) (ms : Bool) (now_ms : Nat) (α : ℚ)
    (h : resample_fraction b ms now_ms = some α) :
    fields_but_heading (select_sample b ms now_ms) =
      List.zipWith (fun p c => lerp p c (Dbl.fin α))
        (fields_but_heading b.sim.R_prev_sample) (fields_but_heading b.sim.R_receive_buffer) ∧
    (select_sample b ms now_ms).hdg_true_deg =
      lerp_ang b.sim.R_prev_sample.hdg_true_deg b.sim.R_receive_buffer.hdg_true_deg
        (Dbl.fin α) ∧
    (select_sample b ms now_ms).valid = b.G.R.valid := by
  unfold resample_fraction at h
  unfold select_sample
  simp only [] at h ⊢
  split_ifs at h ⊢ <;>
    (simp only [Option.some.injEq] at h
     subst h
     exact ⟨rfl, rfl, rfl⟩)

theorem lerp_fin (a c t : ℚ) :
    lerp (Dbl.fin a) (Dbl.fin c) (Dbl.fin t) = Dbl.fin (a + (c - a) * t) := by
  simp [lerp]

theorem lerp_ang_fin (a c t : ℚ) :
    lerp_ang (Dbl.fin a) (Dbl.fin c) (Dbl.fin t) =
      Dbl.fin (a + ((c - a + 540) - 360 * (Dbl.truncQ ((c - a + 540) / 360) : ℚ) - 180) * t) := by
  simp [lerp_ang, Dbl.fmod]

theorem zipWith_lerp_zero (ps : List Dbl) :
    ∀ cs : List Dbl, ps.length = cs.length → (∀ x ∈ ps, x.isfinite = true) →
      (∀ x ∈ cs, x.isfinite = true) →
      List.zipWith (fun p c => lerp p c (Dbl.fin 0)) ps cs = ps := by
  induction ps with
  | nil => intro cs _ _ _; cases cs <;> rfl
  | cons p ps ih =>
    intro cs hl hp hc
    cases cs with
    | nil => simp at hl
    | cons c cs =>
      obtain ⟨a, ha⟩ := (Dbl.isfinite_iff p).1 (hp p (List.mem_cons_self _ _))
      obtain ⟨e, he⟩ := (Dbl.isfinite_iff c).1 (hc c (List.mem_cons_self _ _))
      have ih2 := ih cs (by simpa using hl) (fun x hx => hp x (List.mem_cons_of_mem _ hx))
        (fun x hx => hc x (List.mem_cons_of_mem _ hx))
      simp only [List.zipWith_cons_cons, ih2, ha, he, lerp_fin]
      simp

theorem zipWith_lerp_one (ps : List Dbl) :
    ∀ cs : List Dbl, ps.length = cs.length → (∀ x ∈ ps, x.isfinite = true) →
      (∀ x ∈ cs, x.isfinite = true) →
      List.zipWith (fun p c => lerp p c (Dbl.fin 1)) ps cs = cs := by
  induction ps with
  | nil => intro cs hl _ _; cases cs <;> simp at hl ⊢
  | cons p ps ih =>
    intro cs hl hp hc
    cases cs with
    | nil => simp at hl
    | cons c cs =>
      obtain ⟨a, ha⟩ := (Dbl.isfinite_iff p).1 (hp p (List.mem_cons_self _ _))
      obtain ⟨e, he⟩ := (Dbl.isfinite_iff c).1 (hc c (List.mem_cons_self _ _))
      have ih2 := ih cs (by simpa using hl) (fun x hx => hp x (List.mem_cons_of_mem _ hx))
        (fun x hx => hc x (List.mem_cons_of_mem _ hx))
      simp only [List.zipWith_cons_cons, ih2, ha, he, lerp_fin]
      simp

theorem fields_but_heading_length (r s : RawSensors) :
    (fields_but_heading r).length = (fields_but_heading s).length := rfl

/-- C11: in linear resample mode, when the interpolation fraction is 0, the heading and
every other interpolated field of the sample an emission works on equal those of the
previous raw sample, for every pair of previous and current samples with finite fields. -/
theorem resample_at_zero_is_previous (b : Bridge) (match_sim_rate_snap : Bool) (now_ms : Nat)
    (hα : resample_fraction b match_sim_rate_snap now_ms = some 0)
    (hP : b.sim.R_prev_sample.finite) (hC : b.sim.R_receive_buffer.finite) :
    fields_but_heading (select_sample b match_sim_rate_snap now_ms) =
      fields_but_heading b.sim.R_prev_sample ∧
    (select_sample b match_sim_rate_snap now_ms).hdg_true_deg =
      b.sim.R_prev_sample.hdg_true_deg := by
  obtain ⟨h1, h2, _⟩ := select_sample_of_some b match_sim_rate_snap now_ms 0 hα
  refine ⟨?_, ?_⟩
  · rw [h1]
    exact zipWith_lerp_zero _ _ (fields_but_heading_length _ _) hP.2 hC.2
  · rw [h2]
    obtain ⟨a, ha⟩ := (Dbl.isfinite_iff _).1 hP.1
    obtain ⟨c, hc⟩ := (Dbl.isfinite_iff _).1 hC.1
    rw [ha, hc, lerp_ang_fin]
    simp

/-- Witness for C11: with samples pushed at tick counts 1000 (heading 359) and 1016
(heading 1), an emission at tick count 1016 has fraction 0 and works on the heading, the
latitude and the altitude of the previous sample. -/
theorem resample_at_zero_is_previous_witness :
    resample_fraction bridge_linear false 1016 = some 0 ∧
    fields_but_heading (select_sample bridge_linear false 1016) =
      fields_but_heading bridge_linear.sim.R_prev_sample ∧
    (select_sample bridge_linear false 1016).hdg_true_deg = Dbl.fin 359 :=
  have h := resample_at_zero_is_previous bridge_linear false 1016
    (by with_unfolding_all rfl) ⟨by with_unfolding_all rfl, by with_unfolding_all decide⟩
    ⟨by with_unfolding_all rfl, by with_unfolding_all decide⟩
  ⟨by with_unfolding_all rfl, h.1, h.2.trans (by with_unfolding_all rfl)⟩

theorem truncQ_of_floor (q : ℚ) (z : Int) (h0 : 0 ≤ q) (h1 : (z : ℚ) ≤ q) (h2 : q < z + 1) :
    Dbl.truncQ q = z := by
  unfold Dbl.truncQ
  rw [if_pos h0]
  exact Int.floor_eq_iff.2 ⟨h1, h2⟩

theorem lerp_ang_one_near (a c : ℚ) (h1 : -180 ≤ c - a) (h2 : c - a < 180) :
    lerp_ang (Dbl.fin a) (Dbl.fin c) (Dbl.fin 1) = Dbl.fin c := by
  have ht : Dbl.truncQ ((c - a + 540) / 360) = 1 :=
    truncQ_of_floor _ 1 (by apply div_nonneg <;> linarith)
      (by rw [le_div_iff₀ (by norm_num)]; push_cast; linarith)
      (by rw [div_lt_iff₀ (by norm_num)]; push_cast; linarith)
  rw [lerp_ang_fin, ht]
  congr 1
  push_cast
  ring

theorem lerp_ang_one_below (a c : ℚ) (h1 : -360 < c - a) (h2 : c - a < -180) :
    lerp_ang (Dbl.fin a) (Dbl.fin c) (Dbl.fin 1) = Dbl.fin (c + 360) := by
  have ht : Dbl.truncQ ((c - a + 540) / 360) = 0 :=
    truncQ_of_floor _ 0 (by apply div_nonneg <;> linarith)
      (by rw [le_div_iff₀ (by norm_num)]; push_cast; linarith)
      (by rw [div_lt_iff₀ (by norm_num)]; push_cast; linarith)
  rw [lerp_ang_fin, ht]
  congr 1
  push_cast
  ring

theorem lerp_ang_one_above (a c : ℚ) (h1 : 180 ≤ c - a) (h2 : c - a < 360) :
    lerp_ang (Dbl.fin a) (Dbl.fin c) (Dbl.fin 1) = Dbl.fin (c - 360) := by
  have ht : Dbl.truncQ ((c - a + 540) / 360) = 2 :=
    truncQ_of_floor _ 2 (by apply div_nonneg <;> linarith)
      (by rw [le_div_iff₀ (by norm_num)]; push_cast; linarith)
      (by rw [div_lt_iff₀ (by norm_num)]; push_cast; linarith)
  rw [lerp_ang_fin, ht]
  congr 1
  push_cast
  ring

/-- C12 fails as stated: with previous heading 359 and current heading 1, the emission at
fraction 1 works on heading 361, not on the current heading 1. -/
theorem resample_at_one_heading_361 :
    resample_fraction bridge_linear false 1032 = some 1 ∧
    bridge_linear.sim.R_prev_sample.hdg_true_deg = Dbl.fin 359 ∧
    bridge_linear.sim.R_receive_buffer.hdg_true_deg = Dbl.fin 1 ∧
    (select_sample bridge_linear false 1032).hdg_true_deg = Dbl.fin 361 ∧
    (select_sample bridge_linear false 1032).hdg_true_deg ≠
      bridge_linear.sim.R_receive_buffer.hdg_true_deg := by
  refine ⟨?_, ?_, ?_, ?_, ?_⟩ <;> with_unfolding_all decide

/-- C12 amended: in linear resample mode, when the interpolation fraction is 1, every
interpolated field other than the heading equals that field of the current raw sample (for
samples with finite fields); for headings a (previous) and c (current) in [0, 360) the
heading is c when -180 <= c - a < 180, c + 360 when c - a < -180 and c - 360 when
c - a >= 180: it equals the current heading modulo 360 only. -/
theorem resample_at_one_is_current_mod_360 (b : Bridge) (match_sim_rate_snap : Bool)
    (now_ms : Nat) (a c : ℚ)
    (hα : resample_fraction b match_sim_rate_snap now_ms = some 1)
    (hP : b.sim.R_prev_sample.finite) (hC : b.sim.R_receive_buffer.finite)
    (ha : b.sim.R_prev_sample.hdg_true_deg = Dbl.fin a)
    (hc : b.sim.R_receive_buffer.hdg_true_deg = Dbl.fin c)
    (ha0 : 0 ≤ a) (ha1 : a < 360) (hc0 : 0 ≤ c) (hc1 : c < 360) :
    fields_but_heading (select_sample b match_sim_rate_snap now_ms) =
      fields_but_heading b.sim.R_receive_buffer ∧
    (-180 ≤ c - a ∧ c - a < 180 →
      (select_sample b match_sim_rate_snap now_ms).hdg_true_deg = Dbl.fin c) ∧
    (c - a < -180 →
      (select_sample b match_sim_rate_snap now_ms).hdg_true_deg = Dbl.fin (c + 360)) ∧
    (180 ≤ c - a →
      (select_sample b match_sim_rate_snap now_ms).hdg_true_deg = Dbl.fin (c - 360)) := by
  obtain ⟨h1, h2, _⟩ := select_sample_of_some b match_sim_rate_snap now_ms 1 hα
  rw [h1, h2, ha, hc]
  refine ⟨zipWith_lerp_one _ _ (fields_but_heading_length _ _) hP.2 hC.2, ?_, ?_, ?_⟩
  · rintro ⟨k1, k2⟩
    exact lerp_ang_one_near a c k1 k2
  · intro k
    exact lerp_ang_one_below a c (by linarith) k
  · intro k
    exact lerp_ang_one_above a c k (by linarith)

/-- Witness for the amended C12: previous heading 359, current heading 1, fraction 1: every
other field is the current one and the heading is 1 + 360. -/
theorem resample_at_one_is_current_mod_360_witness :
    fields_but_heading (select_sample bridge_linear false 1032) =
      fields_but_heading bridge_linear.sim.R_receive_buffer ∧
    (select_sample bridge_linear false 1032).hdg_true_deg = Dbl.fin (1 + 360) :=
  have h := resample_at_one_is_current_mod_360 bridge_linear false 1032 359 1
    (by with_unfolding_all rfl) ⟨by with_unfolding_all rfl, by with_unfolding_all decide⟩
    ⟨by with_unfolding_all rfl, by with_unfolding_all decide⟩
    (by with_unfolding_all rfl) (by with_unfolding_all rfl)
    (by norm_num) (by norm_num) (by norm_num) (by norm_num)
  ⟨h.1, h.2.2.1 (by norm_num)⟩

/-- C13 fails as stated: the interpolation from heading 359 to heading 1 at fraction 0.5
yields 360, which is not the number 0. -/
theorem heading_359_to_1_half_is_not_zero :
    lerp_ang (Dbl.fin 359) (Dbl.fin 1) (Dbl.fin (1 / 2)) = Dbl.fin 360 ∧
    lerp_ang (Dbl.fin 359) (Dbl.fin 1) (Dbl.fin (1 / 2)) ≠ Dbl.fin 0 := by
  refine ⟨?_, ?_⟩ <;> with_unfolding_all decide

/-- C13 amended: the interpolation from heading 359 to heading 1 at fraction 0.5 yields
360 degrees, the direction of 0 degrees (it is 0 modulo 360) and not 180 degrees; the same
value is the heading of the emission halfway between the two samples. -/
theorem heading_359_to_1_half_is_360 :
    lerp_ang (Dbl.fin 359) (Dbl.fin 1) (Dbl.fin (1 / 2)) = Dbl.fin 360 ∧
    Dbl.fmod (lerp_ang (Dbl.fin 359) (Dbl.fin 1) (Dbl.fin (1 / 2))) (Dbl.fin 360) = Dbl.fin 0 ∧
    lerp_ang (Dbl.fin 359) (Dbl.fin 1) (Dbl.fin (1 / 2)) ≠ Dbl.fin 180 ∧
    resample_fraction bridge_linear false 1024 = some (1 / 2) ∧
    (select_sample bridge_linear false 1024).hdg_true_deg = Dbl.fin 360 := by
  refine ⟨?_, ?_, ?_, ?_, ?_⟩ <;> with_unfolding_all decide

/-! ## Claims about the channel invert, the RC fields and the liveness of the frame -/

/-- C14: the invert loop of the failover path leaves a channel whose flag is clear and
maps the value x of a flagged channel to -x on channels 0, 1, 3 and to 1 - x on every other
channel; this map is an involution, and it maps [-1, 1] to [-1, 1] on channels 0, 1, 3 and
[0, 1] to [0, 1] on the other channels. -/
theorem invert_is_range_preserving_involution :
    (∀ (inv_ch : List Bool) (norm_pwm : List ℚ) (i : Nat), i < 16 →
      (apply_invert inv_ch norm_pwm)[i]? =
        some (if inv_ch.getD i false = true
          then (if i = 0 ∨ i = 1 ∨ i = 3 then -(norm_pwm.getD i 0) else 1 - norm_pwm.getD i 0)
          else norm_pwm.getD i 0)) ∧
    (∀ (i : Nat) (x : ℚ), invert_norm i (invert_norm i x) = x) ∧
    (∀ (i : Nat) (x : ℚ), (i = 0 ∨ i = 1 ∨ i = 3) → -1 ≤ x → x ≤ 1 →
      -1 ≤ invert_norm i x ∧ invert_norm i x ≤ 1) ∧
    (∀ (i : Nat) (x : ℚ), ¬ (i = 0 ∨ i = 1 ∨ i = 3) → 0 ≤ x → x ≤ 1 →
      0 ≤ invert_norm i x ∧ invert_norm i x ≤ 1) := by
  refine ⟨?_, ?_, ?_, ?_⟩
  · intro inv_ch norm_pwm i hi
    simp only [apply_invert, List.getElem?_map, List.getElem?_range hi, Option.map_some',
      invert_norm]
  · intro i x
    unfold invert_norm
    split_ifs <;> ring
  · intro i x hi h1 h2
    simp only [invert_norm, hi, if_true]
    constructor <;> linarith
  · intro i x hi h1 h2
    simp only [invert_norm, hi, if_false]
    constructor <;> linarith

/-- Witness for C14: channel 0 at -1/2 is inverted to 1/2, channel 2 at 1/4 to 3/4, both
within their ranges. -/
theorem invert_is_range_preserving_involution_witness :
    (-1 ≤ invert_norm 0 (-1 / 2) ∧ invert_norm 0 (-1 / 2) ≤ 1) ∧
    (0 ≤ invert_norm 2 (1 / 4) ∧ invert_norm 2 (1 / 4) ≤ 1) ∧
    (apply_invert [true, false, true] [-1 / 2, 0, 1 / 4])[2]? = some (1 - 1 / 4) :=
  ⟨invert_is_range_preserving_involution.2.2.1 0 (-1 / 2) (Or.inl rfl) (by norm_num)
      (by norm_num),
   invert_is_range_preserving_involution.2.2.2 2 (1 / 4) (by decide) (by norm_num)
      (by norm_num),
   (invert_is_range_preserving_involution.1 [true, false, true] [-1 / 2, 0, 1 / 4] 2
      (by decide)).trans (by simp)⟩

/-- C18: the RC field written into the record for a slot value v is 1500 when v < 0 and
1000 + 1000 v otherwise, for each of the slots of `G.rc_out`; hence a slot in [0, 1] gives a
field in [1000, 2000], with 0 giving 1000, 1/2 giving 1500 and 1 giving 2000. -/
theorem rc_field_of_slot :
    (∀ (L : Libm) (G : Shared) (R : RawSensors) (t_sec : ℚ) (pos_mode_snap : Int) (i : Nat),
      (build_record L G R t_sec pos_mode_snap).rc[i]? =
        (G.rc_out[i]?).map (fun v => if v < 0 then 1500 else 1000 + 1000 * v)) ∧
    (∀ v : ℚ, v < 0 → rc_pwm_of v = 1500) ∧
    (∀ v : ℚ, ¬ v < 0 → rc_pwm_of v = 1000 + 1000 * v) ∧
    (∀ v : ℚ, 0 ≤ v → v ≤ 1 → 1000 ≤ rc_pwm_of v ∧ rc_pwm_of v ≤ 2000) ∧
    rc_pwm_of 0 = 1000 ∧ rc_pwm_of (1 / 2) = 1500 ∧ rc_pwm_of 1 = 2000 := by
  refine ⟨?_, ?_, ?_, ?_, ?_, ?_, ?_⟩
  · intro L G R t_sec pm i
    simp only [build_record, List.getElem?_map]
    cases G.rc_out[i]? with
    | none => rfl
    | some v =>
      simp only [Option.map_some', rc_pwm_of]
      split_ifs
      · rfl
      · congr 1
        ring
  · intro v hv
    simp [rc_pwm_of, hv]
  · intro v hv
    simp only [rc_pwm_of, hv, if_false]
    ring
  · intro v h0 h1
    have hv : ¬ v < 0 := not_lt.2 h0
    simp only [rc_pwm_of, hv, if_false]
    constructor <;> linarith
  · norm_num [rc_pwm_of]
  · norm_num [rc_pwm_of]
  · norm_num [rc_pwm_of]

/-- Witness for C18: the sentinel -1 gives 1500 and the slot value 1/4 gives 1250, inside
[1000, 2000]. -/
theorem rc_field_of_slot_witness :
    rc_pwm_of (-1) = 1500 ∧ (1000 ≤ rc_pwm_of (1 / 4) ∧ rc_pwm_of (1 / 4) ≤ 2000) :=
  ⟨rc_field_of_slot.2.1 (-1) (by norm_num),
   rc_field_of_slot.2.2.2.1 (1 / 4) (by norm_num) (by norm_num)⟩

theorem rx_accept_nonempty (s : RxShared) (buf : List Nat) (from_addr : SockAddr) (now n : Nat)
    (hn : 0 < n) : (rx_accept s buf from_addr now n).pwm.pwm ≠ [] := by
  have h : (rx_accept s buf from_addr now n).pwm.pwm =
      pkt_pwm_block buf n ++ s.pwm.pwm.drop n := by
    simp [rx_accept, vec_store_eq]
  intro he
  have hl := congrArg List.length he
  rw [h] at hl
  simp [pkt_pwm_block_length] at hl
  omega

theorem rx_step_nonempty_iff (s : RxShared) (buf : List Nat) (len : Int)
    (from_addr : SockAddr) (now : Nat) :
    (rx_step s buf len from_addr now).pwm.pwm ≠ [] ↔ s.pwm.pwm ≠ [] ∨ rx_accepted buf len := by
  by_cases hacc : rx_accepted buf len
  · have hne : (rx_step s buf len from_addr now).pwm.pwm ≠ [] := by
      rcases rx_step_accepted_cases s buf len from_addr now hacc with h | h <;> rw [h]
      · exact rx_accept_nonempty s buf from_addr now 16 (by decide)
      · exact rx_accept_nonempty s buf from_addr now 32 (by decide)
    exact ⟨fun _ => Or.inr hacc, fun _ => hne⟩
  · rw [rx_step_eq_self s buf len from_addr now hacc]
    exact ⟨fun h => Or.inl h, fun h => h.resolve_right hacc⟩

theorem rx_run_nonempty_iff (ds : List RxIn) :
    ∀ s : RxShared, (rx_run s ds).pwm.pwm ≠ [] ↔
      s.pwm.pwm ≠ [] ∨ ∃ d ∈ ds, rx_accepted d.buf d.len := by
  induction ds with
  | nil => intro s; simp [rx_run]
  | cons d ds ih =>
    intro s
    unfold rx_run
    rw [ih, rx_step_nonempty_iff]
    simp only [List.mem_cons, exists_eq_or_imp]
    tauto

theorem have_pwm_iff (rx : RxShared) (now : Nat) :
    have_pwm rx now = true ↔
      rx.pwm.pwm ≠ [] ∧ (now : Int) - (rx.pwm.tlast : Int) < 300000000 := by
  have hage : measured_dt rx.pwm.tlast now < 3 / 10 ↔
      (now : Int) - (rx.pwm.tlast : Int) < 300000000 := by
    unfold measured_dt
    rw [div_lt_iff₀ (by norm_num)]
    have h3 : (3 / 10 * 1000000000 : ℚ) = ((300000000 : Int) : ℚ) := by norm_num
    rw [h3]
    have h4 : ((now : ℚ) - (rx.pwm.tlast : ℚ)) = (((now : Int) - (rx.pwm.tlast : Int) : Int) : ℚ) := by
      push_cast; ring
    rw [h4, Int.cast_lt]
  simp only [have_pwm, Bool.and_eq_true, Bool.not_eq_true', decide_eq_true_eq, hage,
    List.isEmpty_eq_false, ne_eq]

/-- C17: at clock reading `now` the telemetry loop takes the stored frame as live exactly
when the channel vector is not empty, which in a state reached from the initial one means
that some datagram was accepted, and the age `now - tlast` is strictly less than 300 ms
(300000000 ns); at an age of 300 ms or more the frame is not live. -/
theorem frame_live_iff (ds : List RxIn) (now : Nat) :
    (have_pwm (rx_run rx_init ds) now = true ↔
      (∃ d ∈ ds, rx_accepted d.buf d.len) ∧
      (now : Int) - ((rx_run rx_init ds).pwm.tlast : Int) < 300000000) ∧
    (∀ rx : RxShared, have_pwm rx now = true ↔
      rx.pwm.pwm ≠ [] ∧ (now : Int) - (rx.pwm.tlast : Int) < 300000000) ∧
    (∀ rx : RxShared, (now : Int) - (rx.pwm.tlast : Int) ≥ 300000000 →
      have_pwm rx now = false) := by
  refine ⟨?_, fun rx => have_pwm_iff rx now, ?_⟩
  · rw [have_pwm_iff, rx_run_nonempty_iff]
    have h0 : ¬ rx_init.pwm.pwm ≠ [] := by simp [rx_init]
    simp only [h0, false_or]
  · intro rx hage
    by_contra hc
    have ht : have_pwm rx now = true := by simpa using hc
    have := ((have_pwm_iff rx now).1 ht).2
    omega

/-- Witness for C17: the frame stored at clock reading 5 is live 299999999 ns later and not
live 300000000 ns later. -/
theorem frame_live_iff_witness :
    have_pwm (rx_run rx_init [rxin16]) 300000004 = true ∧
    have_pwm (rx_run rx_init [rxin16]) 300000005 = false :=
  ⟨(frame_live_iff [rxin16] 300000004).1.2 ⟨⟨rxin16, by simp, by decide⟩, by decide⟩,
   (frame_live_iff [rxin16] 300000005).2.2 (rx_run rx_init [rxin16]) (by decide)⟩

/-! ## Claims about the joystick loop -/

theorem clampd_unit (v : ℚ) : 0 ≤ clampd v 0 1 ∧ clampd v 0 1 ≤ 1 := by
  unfold clampd
  split_ifs with h1 h2
  · exact ⟨le_refl _, by norm_num⟩
  · exact ⟨by norm_num, le_refl _⟩
  · exact ⟨not_lt.1 h1, not_lt.1 h2⟩

theorem joy_axis_value_unit (raw : ℚ) (m : JoyMapCfg) :
    0 ≤ joy_axis_value raw m ∧ joy_axis_value raw m ≤ 1 :=
  clampd_unit _

theorem joy_slot_step_length (acc : List ℚ) (raw : ℚ) (m : JoyMapCfg) :
    (joy_slot_step acc raw m).length = acc.length := by
  unfold joy_slot_step
  simp only []
  split_ifs <;> simp

theorem joy_slot_step_other (acc : List ℚ) (raw : ℚ) (m : JoyMapCfg) (k : Nat)
    (h : m.rcDest ≠ (k : Int) + 1) : (joy_slot_step acc raw m)[k]? = acc[k]? := by
  unfold joy_slot_step
  simp only []
  split_ifs with h0 h1
  · rfl
  · have hk : (m.rcDest - 1).toNat ≠ k := by omega
    rw [List.getElem?_set_ne hk]
  · rfl

theorem joy_slot_step_hit (acc : List ℚ) (raw : ℚ) (m : JoyMapCfg) (k : Nat)
    (hk : k < acc.length) (hk12 : k < 12) (h : m.rcDest = (k : Int) + 1) :
    (joy_slot_step acc raw m)[k]? = some (joy_axis_value raw m) := by
  unfold joy_slot_step
  simp only []
  have h0 : ¬ m.rcDest = 0 := by omega
  have h1 : m.rcDest - 1 ≥ 0 ∧ m.rcDest - 1 < 12 := by omega
  have h2 : (m.rcDest - 1).toNat = k := by omega
  rw [if_neg h0, if_pos h1, h2, List.getElem?_set_self hk]

theorem joy_slot_step_outside (acc : List ℚ) (raw : ℚ) (m : JoyMapCfg)
    (h : m.rcDest < 1 ∨ 12 < m.rcDest) : joy_slot_step acc raw m = acc := by
  unfold joy_slot_step
  simp only []
  split_ifs with h0 h1
  · rfl
  · omega
  · rfl

theorem joy_fold_length (ps : List (ℚ × JoyMapCfg)) :
    ∀ acc : List ℚ,
      (ps.foldl (fun acc p => joy_slot_step acc p.1 p.2) acc).length = acc.length := by
  induction ps with
  | nil => intro acc; rfl
  | cons p ps ih =>
    intro acc
    simp only [List.foldl_cons]
    rw [ih, joy_slot_step_length]

theorem joy_fold_untouched (ps : List (ℚ × JoyMapCfg)) (k : Nat) :
    ∀ acc : List ℚ, (∀ p ∈ ps, p.2.rcDest ≠ (k : Int) + 1) →
      (ps.foldl (fun acc p => joy_slot_step acc p.1 p.2) acc)[k]? = acc[k]? := by
  induction ps with
  | nil => intro acc _; rfl
  | cons p ps ih =>
    intro acc h
    simp only [List.foldl_cons]
    rw [ih _ (fun q hq => h q (List.mem_cons_of_mem _ hq)),
      joy_slot_step_other acc p.1 p.2 k (h p (List.mem_cons_self _ _))]

theorem joy_fold_written (ps : List (ℚ × JoyMapCfg)) (k : Nat) (hk12 : k < 12) :
    ∀ acc : List ℚ, k < acc.length → (∃ p ∈ ps, p.2.rcDest = (k : Int) + 1) →
      ∃ x, (ps.foldl (fun acc p => joy_slot_step acc p.1 p.2) acc)[k]? = some x ∧
        0 ≤ x ∧ x ≤ 1 := by
  induction ps with
  | nil => intro acc _ h; obtain ⟨p, hp, _⟩ := h; simp at hp
  | cons p ps ih =>
    intro acc hk h
    simp only [List.foldl_cons]
    by_cases htail : ∃ q ∈ ps, q.2.rcDest = (k : Int) + 1
    · exact ih _ (by rw [joy_slot_step_length]; exact hk) htail
    · push_neg at htail
      have hp : p.2.rcDest = (k : Int) + 1 := by
        obtain ⟨q, hq, hqk⟩ := h
        rcases List.mem_cons.1 hq with he | ht
        · rw [← he]; exact hqk
        · exact absurd hqk (htail q ht)
      rw [joy_fold_untouched ps k _ htail, joy_slot_step_hit acc p.1 p.2 k hk hk12 hp]
      exact ⟨_, rfl, joy_axis_value_unit p.1 p.2⟩

/-- C19: after a successful poll the RC slots are the array built from the raw axes and the
axis map; for every map and raw axis values (one entry per axis) the array has 12 slots, a
slot k is -1 when no axis has rcDest = k + 1 and lies in [0, 1] when some axis has; an axis
whose rcDest is outside 1..12 writes no slot. -/
theorem joy_slots_sentinel_or_unit (raw : List ℚ) (map : List JoyMapCfg)
    (hlen : raw.length = map.length) :
    (joy_out_slots raw map).length = 12 ∧
    (∀ k : Nat, k < 12 → (∀ m ∈ map, m.rcDest ≠ (k : Int) + 1) →
      (joy_out_slots raw map)[k]? = some (-1)) ∧
    (∀ k : Nat, k < 12 → (∃ m ∈ map, m.rcDest = (k : Int) + 1) →
      ∃ x : ℚ, (joy_out_slots raw map)[k]? = some x ∧ 0 ≤ x ∧ x ≤ 1) ∧
    (∀ (acc : List ℚ) (r : ℚ) (m : JoyMapCfg), (m.rcDest < 1 ∨ 12 < m.rcDest) →
      joy_slot_step acc r m = acc) ∧
    (∀ (b : Bridge) (js : JoyState),
      (joy_poll b js).G.rc_out = joy_out_slots (joy_raw_axes js) b.G.joy_map ∧
      (joy_raw_axes js).length = 12) := by
  have hsnd : (raw.zip map).map Prod.snd = map := List.map_snd_zip _ _ (le_of_eq hlen.symm)
  refine ⟨?_, ?_, ?_, fun acc r m h => joy_slot_step_outside acc r m h, fun b js => ⟨rfl, rfl⟩⟩
  · unfold joy_out_slots
    rw [joy_fold_length]
    simp
  · intro k hk hno
    unfold joy_out_slots
    rw [joy_fold_untouched]
    · rw [List.getElem?_replicate, if_pos hk]
    · intro p hp
      apply hno
      rw [← hsnd]
      exact List.mem_map_of_mem _ hp
  · intro k hk hsome
    unfold joy_out_slots
    apply joy_fold_written _ k hk _ (by simpa using hk)
    obtain ⟨m, hm, hmk⟩ := hsome
    rw [← hsnd] at hm
    obtain ⟨p, hp, hpm⟩ := List.mem_map.1 hm
    exact ⟨p, hp, by rw [hpm]; exact hmk⟩

/-- Witness for C19: with the default axis map, slot 0 (fed by axis 1) lies in [0, 1] and
slot 4 (fed by no axis) holds the sentinel -1. -/
theorem joy_slots_sentinel_or_unit_witness :
    (∃ x : ℚ, (joy_out_slots (joy_raw_axes js_sample) joy_map_default)[0]? = some x ∧
      0 ≤ x ∧ x ≤ 1) ∧
    (joy_out_slots (joy_raw_axes js_sample) joy_map_default)[4]? = some (-1 : ℚ) :=
  ⟨(joy_slots_sentinel_or_unit (joy_raw_axes js_sample) joy_map_default rfl).2.2.1 0
      (by decide) ⟨{ rcDest := 1 }, by decide, by decide⟩,
   (joy_slots_sentinel_or_unit (joy_raw_axes js_sample) joy_map_default rfl).2.1 4
      (by decide) (by decide)⟩

/-! ## Claims about the rate scheduler -/

theorem emit_once_sim (L : Libm) (b : Bridge) (T : ℚ) (ms : Bool) (pm : Int) (inp : EmitIn) :
    (emit_once L b T ms pm inp).1.sim.udp_send_acc = b.sim.udp_send_acc - T ∧
    (emit_once L b T ms pm inp).1.G = b.G ∧
    (emit_once L b T ms pm inp).1.sim.t_prev = b.sim.t_prev := by
  unfold emit_once
  simp only []
  split_ifs <;> exact ⟨rfl, rfl, rfl⟩

theorem floor_periods_step (acc T : ℚ) (hT : 0 < T) (h : acc ≥ T) :
    ⌊acc / T⌋₊ = ⌊(acc - T) / T⌋₊ + 1 := by
  have h0 : 0 ≤ (acc - T) / T := div_nonneg (by linarith) (le_of_lt hT)
  rw [← Nat.floor_add_one h0]
  congr 1
  field_simp

theorem emit_loop_periods (L : Libm) (T : ℚ) (ms : Bool) (pm : Int) (env : Nat → EmitIn)
    (hT : 0 < T) (fuel : Nat) :
    ∀ (k : Nat) (b : Bridge), ⌊b.sim.udp_send_acc / T⌋₊ < fuel →
      (emit_passes L T ms pm env fuel k b).length = ⌊b.sim.udp_send_acc / T⌋₊ ∧
      (emit_loop L T ms pm env fuel k b).1.sim.udp_send_acc =
        b.sim.udp_send_acc - T * (⌊b.sim.udp_send_acc / T⌋₊ : ℚ) ∧
      (emit_loop L T ms pm env fuel k b).1.G = b.G ∧
      (emit_loop L T ms pm env fuel k b).1.sim.t_prev = b.sim.t_prev := by
  induction fuel with
  | zero => intro k b h; omega
  | succ n ih =>
    intro k b hfuel
    unfold emit_passes emit_loop
    by_cases hc : b.sim.udp_send_acc ≥ T
    · obtain ⟨e1, e2, e3⟩ := emit_once_sim L b T ms pm (env k)
      have hstep := floor_periods_step b.sim.udp_send_acc T hT hc
      have hfuel2 : ⌊(emit_once L b T ms pm (env k)).1.sim.udp_send_acc / T⌋₊ < n := by
        rw [e1]; omega
      obtain ⟨i1, i2, i3, i4⟩ := ih (k + 1) (emit_once L b T ms pm (env k)).1 hfuel2
      simp only [if_pos hc, List.length_cons]
      refine ⟨?_, ?_, i3.trans e2, i4.trans e3⟩
      · rw [i1, e1, hstep]
      · rw [i2, e1, hstep]
        push_cast
        ring
    · simp only [if_neg hc, List.length_nil]
      have hz : ⌊b.sim.udp_send_acc / T⌋₊ = 0 := by
        rw [Nat.floor_eq_zero, div_lt_one hT]
        exact not_le.1 hc
      rw [hz]
      simp

theorem iclamp_bounds (v lo hi : Int) (h : lo ≤ hi) : lo ≤ iclamp v lo hi ∧ iclamp v lo hi ≤ hi := by
  unfold iclamp
  split_ifs with h1 h2
  · exact ⟨le_refl _, h⟩
  · exact ⟨h, le_refl _⟩
  · exact ⟨not_lt.1 h1, not_lt.1 h2⟩

theorem target_dt_pos (G : Shared) : 0 < target_dt G := by
  unfold target_dt
  have h := (iclamp_bounds (effective_rate G) 10 1000 (by norm_num)).1
  have h2 : (0 : ℚ) < ((iclamp (effective_rate G) 10 1000 : Int) : ℚ) := by
    have : (0 : Int) < iclamp (effective_rate G) 10 1000 := by omega
    exact_mod_cast this
  positivity

theorem clamp_dt_bounds (m : ℚ) :
    0 ≤ clamp_dt m ∧ clamp_dt m ≤ 1 / 10 ∧ (0 ≤ m → clamp_dt m ≤ m) ∧
    (0 ≤ m → m ≤ 1 / 10 → clamp_dt m = m) := by
  unfold clamp_dt
  simp only []
  split_ifs with h1 h2 h3
  · norm_num at h2
  · refine ⟨le_refl _, by norm_num, fun h => h, fun h _ => by linarith⟩
  · refine ⟨by norm_num, le_refl _, fun _ => by linarith, fun _ h => by linarith⟩
  · push_neg at h1 h3
    exact ⟨h1, h3, fun _ => le_refl _, fun _ _ => rfl⟩

theorem sched_tick_spec (L : Libm) (env : Nat → EmitIn) (b : Bridge) (now : Nat) :
    (sched_tick L env b now).2 =
      ⌊(b.sim.udp_send_acc + clamp_dt (measured_dt b.sim.t_prev now)) / target_dt b.G⌋₊ ∧
    (sched_tick L env b now).1.sim.udp_send_acc =
      b.sim.udp_send_acc + clamp_dt (measured_dt b.sim.t_prev now) -
        target_dt b.G * ((sched_tick L env b now).2 : ℚ) ∧
    (sched_tick L env b now).1.G = b.G ∧
    (sched_tick L env b now).1.sim.t_prev = now := by
  have h := emit_loop_periods L (target_dt b.G) b.G.match_sim_rate b.G.json_pos_mode env
    (target_dt_pos b.G)
    (emit_fuel (b.sim.udp_send_acc + clamp_dt (measured_dt b.sim.t_prev now)) (target_dt b.G))
    0 (sim_pace b now) (by simp [emit_fuel, sim_pace])
  obtain ⟨h1, h2, h3, h4⟩ := h
  have e1 : (sched_tick L env b now).2 =
      ⌊(b.sim.udp_send_acc + clamp_dt (measured_dt b.sim.t_prev now)) / target_dt b.G⌋₊ := h1
  refine ⟨e1, ?_, h3, h4⟩
  rw [e1]
  exact h2

theorem sched_run_balance (L : Libm) (env : Nat → EmitIn) (nows : List Nat) :
    ∀ b : Bridge, 0 ≤ b.sim.udp_send_acc →
      ((sched_run L env b nows).2 : ℚ) * target_dt b.G + (sched_run L env b nows).1.sim.udp_send_acc
        = b.sim.udp_send_acc + paced_time b.sim.t_prev nows ∧
      0 ≤ (sched_run L env b nows).1.sim.udp_send_acc ∧
      (nows ≠ [] → (sched_run L env b nows).1.sim.udp_send_acc < target_dt b.G) ∧
      (sched_run L env b nows).1.G = b.G := by
  induction nows with
  | nil =>
    intro b h
    simp [sched_run, paced_time, measured_deltas, h]
  | cons now nows ih =>
    intro b h
    obtain ⟨t1, t2, t3, t4⟩ := sched_tick_spec L env b now
    have hT := target_dt_pos b.G
    have hc := (clamp_dt_bounds (measured_dt b.sim.t_prev now)).1
    have ha : 0 ≤ (b.sim.udp_send_acc + clamp_dt (measured_dt b.sim.t_prev now)) /
        target_dt b.G := div_nonneg (by linarith) (le_of_lt hT)
    have hlo : ((sched_tick L env b now).2 : ℚ) ≤
        (b.sim.udp_send_acc + clamp_dt (measured_dt b.sim.t_prev now)) / target_dt b.G := by
      rw [t1]; exact Nat.floor_le ha
    have hhi : (b.sim.udp_send_acc + clamp_dt (measured_dt b.sim.t_prev now)) / target_dt b.G <
        ((sched_tick L env b now).2 : ℚ) + 1 := by
      rw [t1]; exact Nat.lt_floor_add_one _
    rw [le_div_iff₀ hT] at hlo
    rw [div_lt_iff₀ hT] at hhi
    have hacc0 : 0 ≤ (sched_tick L env b now).1.sim.udp_send_acc := by
      rw [t2]; nlinarith
    have hacc1 : (sched_tick L env b now).1.sim.udp_send_acc < target_dt b.G := by
      rw [t2]; nlinarith
    obtain ⟨i1, i2, i3, i4⟩ := ih (sched_tick L env b now).1 hacc0
    rw [t3, t4] at i1
    rw [t3] at i3
    have hp : paced_time b.sim.t_prev (now :: nows) =
        clamp_dt (measured_dt b.sim.t_prev now) + paced_time now nows := by
      simp [paced_time, measured_deltas]
    simp only [sched_run]
    refine ⟨?_, i2, fun _ => ?_, i4.trans t3⟩
    · rw [hp]
      push_cast
      rw [t2] at i1
      linarith
    · by_cases hn : nows = []
      · subst hn
        simpa [sched_run] using hacc1
      · exact i3 hn

theorem paced_le_elapsed (nows : List Nat) :
    ∀ t_prev : Nat, (∀ d ∈ measured_deltas t_prev nows, 0 ≤ d) →
      paced_time t_prev nows ≤ elapsed_time t_prev nows := by
  induction nows with
  | nil => intro t _; simp [paced_time, elapsed_time, measured_deltas]
  | cons now nows ih =>
    intro t h
    have h1 : 0 ≤ measured_dt t now := h _ (by simp [measured_deltas])
    have h2 := ih now (fun d hd => h d (by simp [measured_deltas, hd]))
    have h3 := (clamp_dt_bounds (measured_dt t now)).2.2.1 h1
    simp only [paced_time, elapsed_time, measured_deltas, List.map_cons, List.sum_cons] at h2 ⊢
    linarith

theorem paced_eq_elapsed (nows : List Nat) :
    ∀ t_prev : Nat, (∀ d ∈ measured_deltas t_prev nows, 0 ≤ d ∧ d ≤ 1 / 10) →
      paced_time t_prev nows = elapsed_time t_prev nows := by
  induction nows with
  | nil => intro t _; simp [paced_time, elapsed_time, measured_deltas]
  | cons now nows ih =>
    intro t h
    have h1 := h (measured_dt t now) (by simp [measured_deltas])
    have h2 := ih now (fun d hd => h d (by simp [measured_deltas, hd]))
    have h3 := (clamp_dt_bounds (measured_dt t now)).2.2.2 h1.1 h1.2
    simp only [paced_time, elapsed_time, measured_deltas, List.map_cons, List.sum_cons] at h2 ⊢
    rw [h3, h2]

/-- C15: for every sequence of scheduler ticks at the constant target period T of the
configuration, started with the accumulator in [0, T) and read from a clock that does not
run backwards, the number of emissions is at most ceil(elapsed / T) + 1, where elapsed is
the sum of the measured times. -/
theorem sched_emissions_at_most (L : Libm) (env : Nat → EmitIn) (b : Bridge) (nows : List Nat)
    (h0 : 0 ≤ b.sim.udp_send_acc) (h1 : b.sim.udp_send_acc < target_dt b.G)
    (hclock : ∀ d ∈ measured_deltas b.sim.t_prev nows, 0 ≤ d) :
    ((sched_run L env b nows).2 : Int) ≤
      ⌈elapsed_time b.sim.t_prev nows / target_dt b.G⌉ + 1 := by
  obtain ⟨e1, e2, _, _⟩ := sched_run_balance L env nows b h0
  have hT := target_dt_pos b.G
  have hp := paced_le_elapsed nows b.sim.t_prev hclock
  have hN : ((sched_run L env b nows).2 : ℚ) * target_dt b.G <
      target_dt b.G + elapsed_time b.sim.t_prev nows := by linarith
  have hN2 : ((sched_run L env b nows).2 : ℚ) <
      1 + elapsed_time b.sim.t_prev nows / target_dt b.G := by
    rw [← sub_lt_iff_lt_add', lt_div_iff₀ hT]
    linarith
  have hceil := Int.le_ceil (elapsed_time b.sim.t_prev nows / target_dt b.G)
  have hN3 : (((sched_run L env b nows).2 : Int) : ℚ) <
      ((⌈elapsed_time b.sim.t_prev nows / target_dt b.G⌉ + 1 : Int) : ℚ) := by
    push_cast
    linarith
  exact le_of_lt (Int.cast_lt.1 hN3)

/-- Witness for C15: from the initial state at the default rate (T = 1 ms), three ticks at
50 ms, 100 ms and 1 s after the start stay within the bound. -/
theorem sched_emissions_at_most_witness :
    bridge_init.sim.udp_send_acc < target_dt bridge_init.G ∧
    ((sched_run libm0 (fun _ => {}) bridge_init [50000000, 100000000, 1000000000]).2 : Int) ≤
      ⌈elapsed_time bridge_init.sim.t_prev [50000000, 100000000, 1000000000] /
        target_dt bridge_init.G⌉ + 1 :=
  ⟨by with_unfolding_all decide,
   sched_emissions_at_most libm0 (fun _ => {}) bridge_init [50000000, 100000000, 1000000000]
    (by with_unfolding_all decide) (by with_unfolding_all decide)
    (by with_unfolding_all decide)⟩

set_option maxRecDepth 8000 in
/-- C16 fails as stated: from the initial state at the default rate (T = 1 ms) a single
tick whose measured time is 1 s makes 100 emissions, fewer than floor(1 s / 1 ms) = 1000. -/
theorem sched_emissions_below_floor :
    measured_deltas bridge_init.sim.t_prev [1000000000] = [1] ∧
    target_dt bridge_init.G = 1 / 1000 ∧
    (sched_run libm0 (fun _ => {}) bridge_init [1000000000]).2 = 100 ∧
    ⌊elapsed_time bridge_init.sim.t_prev [1000000000] / target_dt bridge_init.G⌋ = 1000 ∧
    ¬ (⌊elapsed_time bridge_init.sim.t_prev [1000000000] / target_dt bridge_init.G⌋ ≤
      ((sched_run libm0 (fun _ => {}) bridge_init [1000000000]).2 : Int)) := by
  have h3 : (sched_run libm0 (fun _ => {}) bridge_init [1000000000]).2 = 100 := by
    with_unfolding_all decide
  have h4 : ⌊elapsed_time bridge_init.sim.t_prev [1000000000] / target_dt bridge_init.G⌋
      = 1000 := by
    with_unfolding_all rfl
  refine ⟨by with_unfolding_all rfl, by with_unfolding_all rfl, h3, h4, ?_⟩
  rw [h3, h4]
  decide

/-- C16 amended: for every sequence of scheduler ticks at the constant target period T of
the configuration, started with a non-negative accumulator, the number of emissions is at
least floor(S / T), where S is the sum of the measured times each clamped to [0, 100 ms];
it is at least floor(elapsed / T) when every measured time lies in [0, 100 ms]. -/
theorem sched_emissions_at_least (L : Libm) (env : Nat → EmitIn) (b : Bridge) (nows : List Nat)
    (h0 : 0 ≤ b.sim.udp_send_acc) :
    ⌊paced_time b.sim.t_prev nows / target_dt b.G⌋ ≤ ((sched_run L env b nows).2 : Int) ∧
    ((∀ d ∈ measured_deltas b.sim.t_prev nows, 0 ≤ d ∧ d ≤ 1 / 10) →
      ⌊elapsed_time b.sim.t_prev nows / target_dt b.G⌋ ≤
        ((sched_run L env b nows).2 : Int)) := by
  obtain ⟨e1, e2, e3, _⟩ := sched_run_balance L env nows b h0
  have hT := target_dt_pos b.G
  have key : ⌊paced_time b.sim.t_prev nows / target_dt b.G⌋ ≤
      ((sched_run L env b nows).2 : Int) := by
    by_cases hn : nows = []
    · subst hn
      simp [paced_time, measured_deltas, sched_run]
    · have hacc := e3 hn
      have hlt : paced_time b.sim.t_prev nows / target_dt b.G <
          (((sched_run L env b nows).2 + 1 : Int) : ℚ) := by
        rw [div_lt_iff₀ hT]
        push_cast
        nlinarith
      have := Int.floor_lt.2 hlt
      omega
  refine ⟨key, fun hall => ?_⟩
  rw [← paced_eq_elapsed nows b.sim.t_prev hall]
  exact key

/-- Witness for the amended C16: three ticks of 50 ms each from the initial state at the
default rate make at least floor(0.15 s / 1 ms) emissions. -/
theorem sched_emissions_at_least_witness :
    ⌊elapsed_time bridge_init.sim.t_prev [50000000, 100000000, 150000000] /
        target_dt bridge_init.G⌋ ≤
      ((sched_run libm0 (fun _ => {}) bridge_init [50000000, 100000000, 150000000]).2 : Int) :=
  (sched_emissions_at_least libm0 (fun _ => {}) bridge_init [50000000, 100000000, 150000000]
    (by with_unfolding_all decide)).2 (by with_unfolding_all decide)

/-! ## Claims about the outbound socket -/

/-- C20: `UdpTx::open` records "stateless" and port 0 instead of the destination, so right
after a successful open `needs_reopen(ip, port)` is true for every destination other than
("stateless", 0); with the default destination 127.0.0.1:9003 unchanged, the telemetry loop
finds `needs_reopen` true again after it has reopened the socket. -/
theorem tx_needs_reopen_after_open :
    (∀ (tx : UdpTx) (ip : String) (port : Nat),
      (tx.open ip port true).2 = true ∧
      ((tx.open ip port true).1.needs_reopen ip port = true ↔
        ¬ (ip = "stateless" ∧ port = 0))) ∧
    (({} : UdpTx).open "127.0.0.1" 9003 true).1.needs_reopen "127.0.0.1" 9003 = true ∧
    (sim_tx_reopen bridge_init true).G.dest = bridge_init.G.dest ∧
    (sim_tx_reopen bridge_init true).sim.tx.needs_reopen
      (sim_tx_reopen bridge_init true).G.dest.ip
      (sim_tx_reopen bridge_init true).G.dest.port_tx = true := by
  refine ⟨fun tx ip port => ⟨rfl, ?_⟩, by decide, by decide, by decide⟩
  simp only [UdpTx.open, UdpTx.needs_reopen, Bool.not_true, Bool.false_eq_true, if_false,
    Bool.or_eq_true, bne_iff_ne, ne_eq]
  tauto

/-! ## Claims about the gyro triple and the AGL altitude -/

theorem select_sample_acc (b : Bridge) (T : ℚ) (ms : Bool) (now_ms : Nat) :
    select_sample { b with sim := { b.sim with
        udp_send_acc := b.sim.udp_send_acc - T
        t_phys_acc := b.sim.t_phys_acc + T } } ms now_ms = select_sample b ms now_ms := rfl

theorem emit_once_record (L : Libm) (b : Bridge) (T : ℚ) (ms : Bool) (pm : Int)
    (inp : EmitIn) (dest : SockAddr) (rec : TxRecord)
    (h : (emit_once L b T ms pm inp).2 = some (dest, rec)) :
    rec = build_record L b.G (select_sample b ms inp.now_ms) (b.sim.t_phys_acc + T) pm := by
  unfold emit_once at h
  simp only [select_sample_acc] at h
  split_ifs at h
  simp only [Option.some.injEq, Prod.mk.injEq] at h
  exact h.2.symm

/-- C21 fails as stated: with the rates 3 (roll, `p_rads`), 1 (pitch, `q_rads`) and 2 (yaw,
`r_rads`) in the stored sample, the record sent carries gyro = (-3, -1, 2), which is
(-p, -q, r) and not (-q, -p, r) = (-1, -3, 2). -/
theorem record_gyro_is_not_swapped :
    (bridge_rates.G.R.p_rads, bridge_rates.G.R.q_rads, bridge_rates.G.R.r_rads) =
      (Dbl.fin 3, Dbl.fin 1, Dbl.fin 2) ∧
    (emit_once libm0 bridge_rates (1 / 1000) false 0 {}).2.map (fun p => p.2.gyro) =
      some (Dbl.fin (-3), Dbl.fin (-1), Dbl.fin 2) ∧
    (emit_once libm0 bridge_rates (1 / 1000) false 0 {}).2.map (fun p => p.2.gyro) ≠
      some (-bridge_rates.G.R.q_rads, -bridge_rates.G.R.p_rads, bridge_rates.G.R.r_rads) := by
  have h1 : (bridge_rates.G.R.p_rads, bridge_rates.G.R.q_rads, bridge_rates.G.R.r_rads) =
      (Dbl.fin 3, Dbl.fin 1, Dbl.fin 2) := by with_unfolding_all rfl
  have h2 : (emit_once libm0 bridge_rates (1 / 1000) false 0 {}).2.map (fun p => p.2.gyro) =
      some (Dbl.fin (-3), Dbl.fin (-1), Dbl.fin 2) := by with_unfolding_all rfl
  refine ⟨h1, h2, ?_⟩
  simp only [Prod.mk.injEq] at h1
  rw [h2, h1.1, h1.2.1, h1.2.2]
  with_unfolding_all decide

/-- C21 amended: in every outbound record the gyro triple consists of the sample's roll
rate and pitch rate, each sign-negated and in that order, followed by the yaw rate
unchanged: for the body rates (p roll, q pitch, r yaw) of the sample the emission works on,
the record carries gyro = (-p, -q, r). -/
theorem record_gyro_negates_roll_and_pitch (L : Libm) (b : Bridge) (target_dt : ℚ)
    (match_sim_rate_snap : Bool) (pos_mode_snap : Int) (inp : EmitIn) (dest : SockAddr)
    (rec : TxRecord)
    (h : (emit_once L b target_dt match_sim_rate_snap pos_mode_snap inp).2 = some (dest, rec)) :
    rec.gyro =
      (-(select_sample b match_sim_rate_snap inp.now_ms).p_rads,
       -(select_sample b match_sim_rate_snap inp.now_ms).q_rads,
       (select_sample b match_sim_rate_snap inp.now_ms).r_rads) := by
  rw [emit_once_record L b target_dt match_sim_rate_snap pos_mode_snap inp dest rec h]
  rfl

/-- Witness for the amended C21: the record sent from the scenario with rates (3, 1, 2). -/
theorem record_gyro_negates_roll_and_pitch_witness :
    (build_record libm0 bridge_rates.G bridge_rates.G.R (1 / 1000) 0).gyro =
      (-(select_sample bridge_rates false 0).p_rads,
       -(select_sample bridge_rates false 0).q_rads,
       (select_sample bridge_rates false 0).r_rads) :=
  record_gyro_negates_roll_and_pitch libm0 bridge_rates (1 / 1000) false 0 {} addrX
    (build_record libm0 bridge_rates.G bridge_rates.G.R (1 / 1000) 0)
    (by with_unfolding_all rfl)

theorem read_sensors_agl (v : Nat → Dbl) (old : RawSensors) :
    (read_sensors v old).alt_agl_ft =
      if (v 20).isfinite && Dbl.le (Dbl.fin 0) (v 20) && Dbl.le (v 20) (Dbl.fin 3000) then v 20
      else if (v 21).isfinite then Dbl.max (v 2 - v 21) (Dbl.fin 0) else v 3 := by
  unfold read_sensors
  simp only []
  split_ifs <;> rfl

theorem sim_on_data_agl (L : Libm) (b : Bridge) (pm : Int) (v : Nat → Dbl) (now_ms : Nat) :
    (sim_on_data L b pm REQ_SENSORS v now_ms).G.R.alt_agl_ft =
      if (v 20).isfinite && Dbl.le (Dbl.fin 0) (v 20) && Dbl.le (v 20) (Dbl.fin 3000) then v 20
      else if (v 21).isfinite then Dbl.max (v 2 - v 21) (Dbl.fin 0) else v 3 :=
  read_sensors_agl v _

theorem radio_height_usable_iff (x : Dbl) :
    (x.isfinite && Dbl.le (Dbl.fin 0) x && Dbl.le x (Dbl.fin 3000)) = true ↔
      ∃ h : ℚ, x = Dbl.fin h ∧ 0 ≤ h ∧ h ≤ 3000 := by
  cases x <;> simp [Dbl.isfinite, Dbl.le]

/-- C22 fails as stated: with radio height 5000 ft (outside [0, 3000]), MSL altitude
1000 ft and a ground altitude that is not finite (+inf), the stored AGL altitude is the
pushed value `v[3]` = 123 ft, not max(MSL - ground, 0) = 0. -/
theorem stored_agl_keeps_pushed_value :
    (sim_on_data libm0 bridge_init 0 REQ_SENSORS (v_rates (Dbl.fin 5000) Dbl.pinf)
      1000).G.R.alt_agl_ft = Dbl.fin 123 ∧
    Dbl.max (v_rates (Dbl.fin 5000) Dbl.pinf 2 - v_rates (Dbl.fin 5000) Dbl.pinf 21)
      (Dbl.fin 0) = Dbl.fin 0 ∧
    (sim_on_data libm0 bridge_init 0 REQ_SENSORS (v_rates (Dbl.fin 5000) Dbl.pinf)
      1000).G.R.alt_agl_ft ≠
      Dbl.max (v_rates (Dbl.fin 5000) Dbl.pinf 2 - v_rates (Dbl.fin 5000) Dbl.pinf 21)
        (Dbl.fin 0) := by
  have h1 : (sim_on_data libm0 bridge_init 0 REQ_SENSORS (v_rates (Dbl.fin 5000) Dbl.pinf)
      1000).G.R.alt_agl_ft = Dbl.fin 123 := by with_unfolding_all rfl
  have h2 : Dbl.max (v_rates (Dbl.fin 5000) Dbl.pinf 2 - v_rates (Dbl.fin 5000) Dbl.pinf 21)
      (Dbl.fin 0) = Dbl.fin 0 := by with_unfolding_all rfl
  refine ⟨h1, h2, ?_⟩
  rw [h1, h2]
  with_unfolding_all decide

/-- C22 amended: for every telemetry push, the stored AGL altitude equals the radio height
when the radio height is finite and within [0, 3000] ft; when it is not and the ground
altitude is finite, it equals `std::max(MSL - ground, 0.0)`, which is max(MSL - ground, 0)
for a finite MSL altitude; when it is not and the ground altitude is not finite, it is the
pushed AGL value `v[3]`. -/
theorem stored_agl_by_cases (L : Libm) (b : Bridge) (pos_mode_snap : Int) (v : Nat → Dbl)
    (now_ms : Nat) :
    ((∃ h : ℚ, v 20 = Dbl.fin h ∧ 0 ≤ h ∧ h ≤ 3000) →
      (sim_on_data L b pos_mode_snap REQ_SENSORS v now_ms).G.R.alt_agl_ft = v 20) ∧
    (¬ (∃ h : ℚ, v 20 = Dbl.fin h ∧ 0 ≤ h ∧ h ≤ 3000) → (v 21).isfinite = true →
      (sim_on_data L b pos_mode_snap REQ_SENSORS v now_ms).G.R.alt_agl_ft =
        Dbl.max (v 2 - v 21) (Dbl.fin 0)) ∧
    (¬ (∃ h : ℚ, v 20 = Dbl.fin h ∧ 0 ≤ h ∧ h ≤ 3000) → (v 21).isfinite = false →
      (sim_on_data L b pos_mode_snap REQ_SENSORS v now_ms).G.R.alt_agl_ft = v 3) ∧
    (∀ m g : ℚ, v 2 = Dbl.fin m → v 21 = Dbl.fin g →
      Dbl.max (v 2 - v 21) (Dbl.fin 0) = Dbl.fin (max (m - g) 0)) := by
  rw [sim_on_data_agl]
  refine ⟨fun h => ?_, fun h hg => ?_, fun h hg => ?_, fun m g hm hg => ?_⟩
  · rw [if_pos ((radio_height_usable_iff _).2 h)]
  · rw [if_neg (fun hc => h ((radio_height_usable_iff _).1 hc)), if_pos hg]
  · rw [if_neg (fun hc => h ((radio_height_usable_iff _).1 hc)), if_neg (by simp [hg])]
  · rw [hm, hg, Dbl.fin_sub]
    unfold Dbl.max Dbl.lt
    simp only [decide_eq_true_eq]
    split_ifs with hlt
    · rw [max_eq_right (le_of_lt hlt)]
    · rw [max_eq_left (not_lt.1 hlt)]

/-- Witness for the amended C22: the three cases on the scenario sample (MSL 1000 ft,
pushed AGL 123 ft): radio height 50 ft; radio height 5000 ft over ground at 400 ft; radio
height 5000 ft with a ground altitude that is not finite. -/
theorem stored_agl_by_cases_witness :
    (sim_on_data libm0 bridge_init 0 REQ_SENSORS (v_rates (Dbl.fin 50) (Dbl.fin 400))
      1000).G.R.alt_agl_ft = v_rates (Dbl.fin 50) (Dbl.fin 400) 20 ∧
    (sim_on_data libm0 bridge_init 0 REQ_SENSORS (v_rates (Dbl.fin 5000) (Dbl.fin 400))
      1000).G.R.alt_agl_ft =
      Dbl.max (v_rates (Dbl.fin 5000) (Dbl.fin 400) 2 - v_rates (Dbl.fin 5000) (Dbl.fin 400) 21)
        (Dbl.fin 0) ∧
    (sim_on_data libm0 bridge_init 0 REQ_SENSORS (v_rates (Dbl.fin 5000) Dbl.pinf)
      1000).G.R.alt_agl_ft = v_rates (Dbl.fin 5000) Dbl.pinf 3 :=
  ⟨(stored_agl_by_cases libm0 bridge_init 0 (v_rates (Dbl.fin 50) (Dbl.fin 400)) 1000).1
      ⟨50, rfl, by norm_num, by norm_num⟩,
   (stored_agl_by_cases libm0 bridge_init 0 (v_rates (Dbl.fin 5000) (Dbl.fin 400)) 1000).2.1
      (by
        rintro ⟨h, h1, _, h3⟩
        have h5 : (5000 : ℚ) = h := Dbl.fin.inj h1
        rw [← h5] at h3
        norm_num at h3) rfl,
   (stored_agl_by_cases libm0 bridge_init 0 (v_rates (Dbl.fin 5000) Dbl.pinf) 1000).2.2.1
      (by
        rintro ⟨h, h1, _, h3⟩
        have h5 : (5000 : ℚ) = h := Dbl.fin.inj h1
        rw [← h5] at h3
        norm_num at h3) rfl⟩

/-! ## Claims about the re-arming of the origin -/

theorem capture_origin_invalid (b : Bridge) (pm : Int) (r : RawSensors) (h : r.valid = false) :
    capture_origin b pm r = b := by
  simp [capture_origin, h]

theorem sim_on_msg_stays_armed (L : Libm) (b : Bridge) (m : SimMsg)
    (hv : m.validPush = false) (h : b.sim.origin_captured = false) :
    (sim_on_msg L b 0 m).sim.origin_captured = false := by
  cases m with
  | quit now => rfl
  | other => exact h
  | data request_id v now_ms =>
    unfold sim_on_msg sim_on_data
    simp only []
    split_ifs with hr
    · have hinv :
          (decode_sample v (smooth_frame_period b now_ms).sim.R_receive_buffer).valid = false := by
        rw [(decode_sample_fields v _).2.2.2]
        simpa [SimMsg.validPush, hr] using hv
      unfold ingest_sample
      simp only [capture_origin_invalid _ _ _ hinv]
      exact h
    · exact h

theorem sim_dispatch_stays_armed (L : Libm) (ms : List SimMsg) :
    ∀ b : Bridge, (∀ m ∈ ms, m.validPush = false) → b.sim.origin_captured = false →
      (sim_dispatch L 0 b ms).sim.origin_captured = false := by
  induction ms with
  | nil => intro b _ h; exact h
  | cons m ms ih =>
    intro b hv h
    unfold sim_dispatch
    split_ifs
    · exact ih _ (fun x hx => hv x (List.mem_cons_of_mem _ hx))
        (sim_on_msg_stays_armed L b m (hv m (List.mem_cons_self _ _)) h)
    · exact h

theorem sim_rearm_arms (b : Bridge)
    (h : b.sim.last_pos_mode ≠ b.G.json_pos_mode ∨ b.sim.origin_captured = false) :
    (sim_rearm b).sim.origin_captured = false ∧
    (sim_rearm b).sim.g_sim_ok = b.sim.g_sim_ok ∧
    (sim_rearm b).sim.next_try = b.sim.next_try := by
  unfold sim_rearm
  split_ifs with hc
  · exact ⟨rfl, rfl, rfl⟩
  · push_neg at hc
    rcases h with h | h
    · exact absurd hc.symm h
    · exact ⟨h, rfl, rfl⟩

theorem sim_connect_captured (b : Bridge) (now now_fail : Nat) (open_ok : Bool) :
    (sim_connect b now now_fail open_ok).sim.origin_captured = b.sim.origin_captured := by
  unfold sim_connect
  split_ifs <;> rfl

theorem sim_ingest_stays_armed (L : Libm) (b : Bridge) (i : IngestIn)
    (hmode : b.G.json_pos_mode = 0)
    (harm : b.sim.last_pos_mode ≠ 0 ∨ b.sim.origin_captured = false)
    (hv : ∀ m ∈ i.msgs, m.validPush = false) :
    (sim_ingest L b i).G.json_pos_mode = 0 ∧
    (sim_ingest L b i).sim.origin_captured = false := by
  refine ⟨(sim_ingest_mode L b i).2.trans hmode, ?_⟩
  unfold sim_ingest
  simp only [hmode]
  apply sim_dispatch_stays_armed L i.msgs _ hv
  rw [sim_connect_captured]
  exact (sim_rearm_arms b (by rw [hmode]; exact harm)).1

theorem sim_ingest_run_stays_armed (L : Libm) (is : List IngestIn) :
    ∀ b : Bridge, b.G.json_pos_mode = 0 →
      (b.sim.last_pos_mode ≠ 0 ∨ b.sim.origin_captured = false) →
      (∀ j ∈ is, ∀ m ∈ j.msgs, m.validPush = false) →
      (sim_ingest_run L b is).G.json_pos_mode = 0 ∧
      ((sim_ingest_run L b is).sim.last_pos_mode ≠ 0 ∨
        (sim_ingest_run L b is).sim.origin_captured = false) := by
  induction is with
  | nil => intro b h1 h2 _; exact ⟨h1, h2⟩
  | cons i is ih =>
    intro b h1 h2 hv
    obtain ⟨k1, k2⟩ := sim_ingest_stays_armed L b i h1 h2 (hv i (List.mem_cons_self _ _))
    unfold sim_ingest_run
    exact ih _ k1 (Or.inr k2) (fun j hj => hv j (List.mem_cons_of_mem _ hj))

theorem sim_dispatch_stopped (L : Libm) (pm : Int) (b : Bridge) (ms : List SimMsg)
    (h : b.sim.g_sim_ok = false) : sim_dispatch L pm b ms = b := by
  cases ms with
  | nil => rfl
  | cons m ms => unfold sim_dispatch; simp [h]

theorem sim_dispatch_append (L : Libm) (pm : Int) (ms1 ms2 : List SimMsg) :
    ∀ b : Bridge, sim_dispatch L pm b (ms1 ++ ms2) =
      sim_dispatch L pm (sim_dispatch L pm b ms1) ms2 := by
  induction ms1 with
  | nil => intro b; rfl
  | cons m ms ih =>
    intro b
    simp only [List.cons_append]
    by_cases hok : b.sim.g_sim_ok = true
    · have h1 : ∀ l : List SimMsg, sim_dispatch L pm b (m :: l) =
          sim_dispatch L pm (sim_on_msg L b pm m) l := by
        intro l
        rw [sim_dispatch, if_pos hok]
      rw [h1, h1, ih]
    · have hf : b.sim.g_sim_ok = false := by simpa using hok
      rw [sim_dispatch_stopped L pm b _ hf, sim_dispatch_stopped L pm b _ hf,
        sim_dispatch_stopped L pm b _ hf]

theorem capture_origin_ok (b : Bridge) (pm : Int) (r : RawSensors) :
    (capture_origin b pm r).sim.g_sim_ok = b.sim.g_sim_ok := by
  unfold capture_origin
  split_ifs <;> rfl

theorem sim_on_msg_stays_connected (L : Libm) (b : Bridge) (pm : Int) (m : SimMsg)
    (hq : m.isQuit = false) : (sim_on_msg L b pm m).sim.g_sim_ok = b.sim.g_sim_ok := by
  cases m with
  | quit now => simp [SimMsg.isQuit] at hq
  | other => rfl
  | data request_id v now_ms =>
    unfold sim_on_msg sim_on_data
    simp only []
    split_ifs
    · exact capture_origin_ok (smooth_frame_period b now_ms) pm _
    · rfl

theorem sim_dispatch_stays_connected (L : Libm) (pm : Int) (ms : List SimMsg) :
    ∀ b : Bridge, (∀ m ∈ ms, m.isQuit = false) →
      (sim_dispatch L pm b ms).sim.g_sim_ok = b.sim.g_sim_ok := by
  induction ms with
  | nil => intro b _; rfl
  | cons m ms ih =>
    intro b hq
    unfold sim_dispatch
    split_ifs
    · rw [ih _ (fun x hx => hq x (List.mem_cons_of_mem _ hx)),
        sim_on_msg_stays_connected L b pm m (hq m (List.mem_cons_self _ _))]
    · rfl

theorem sim_on_data_captures (L : Libm) (b : Bridge) (v : Nat → Dbl) (now_ms : Nat)
    (hcap : b.sim.origin_captured = false) (hsane : sane_pos (v 0) (v 1) = true) :
    (sim_on_data L b 0 REQ_SENSORS v now_ms).origin = (v 0, v 1, ft2m (v 2)) ∧
    (sim_on_data L b 0 REQ_SENSORS v now_ms).sim.origin_captured = true := by
  obtain ⟨d1, d2, d3, d4⟩ :=
    decode_sample_fields v (smooth_frame_period b now_ms).sim.R_receive_buffer
  obtain ⟨c1, c2, c3, _, c5⟩ :=
    capture_origin_armed (smooth_frame_period b now_ms)
      (decode_sample v (smooth_frame_period b now_ms).sim.R_receive_buffer) hcap
      (d4.trans hsane)
  rw [d1] at c1
  rw [d2] at c2
  rw [d3] at c3
  refine ⟨?_, c5⟩
  show ((_ : Dbl), (_ : Dbl), (_ : Dbl)) = _
  exact Prod.ext c1 (Prod.ext c2 c3)

/-- C23 fails as stated: after the origin (47, 8, 304.8 m) was captured in mode 0, a change
to mode 1 or to mode 2 re-arms the capture flag, but the valid sample (48, 9, 2000 ft) pushed
next is not captured: the origin stays as it was, because outside mode 0 the capture also
requires `G.sim_origin_set` to be false, and it is true. -/
theorem origin_not_recaptured_in_mode_1_or_2 :
    (bridge_mode 1).origin = (Dbl.fin 47, Dbl.fin 8, Dbl.fin (1524 / 5)) ∧
    (bridge_mode 1).sim.last_pos_mode = 0 ∧
    (sim_ingest libm0 (bridge_mode 1) push_second).G.R.valid = true ∧
    (sim_ingest libm0 (bridge_mode 1) push_second).G.R.lat_deg = Dbl.fin 48 ∧
    (sim_ingest libm0 (bridge_mode 1) push_second).origin =
      (Dbl.fin 47, Dbl.fin 8, Dbl.fin (1524 / 5)) ∧
    (sim_ingest libm0 (bridge_mode 2) push_second).G.R.valid = true ∧
    (sim_ingest libm0 (bridge_mode 2) push_second).origin =
      (Dbl.fin 47, Dbl.fin 8, Dbl.fin (1524 / 5)) := by
  refine ⟨?_, ?_, ?_, ?_, ?_, ?_, ?_⟩ <;> with_unfolding_all rfl

/-- C23 amended: whenever the position-representation mode changes to mode 0 (local-only),
the origin is re-armed: the first valid sample pushed after the change while the simulator
is connected is captured as the new origin (its latitude, longitude and MSL altitude in
metres). The iterations `is` after the change dispatch no valid sample; the next iteration
starts connected or connects, and dispatches the valid sample `v` after messages that are
neither valid samples nor a quit. -/
theorem origin_rearmed_by_change_to_mode_0 (L : Libm) (b : Bridge) (is : List IngestIn)
    (i : IngestIn) (pre : List SimMsg) (v : Nat → Dbl) (now_ms : Nat)
    (hmode : b.G.json_pos_mode = 0) (hchg : b.sim.last_pos_mode ≠ 0)
    (hquiet : ∀ j ∈ is, ∀ m ∈ j.msgs, m.validPush = false)
    (hconn : (sim_ingest_run L b is).sim.g_sim_ok = true ∨
      (i.open_ok = true ∧ i.now ≥ (sim_ingest_run L b is).sim.next_try))
    (hpre : ∀ m ∈ pre, m.validPush = false ∧ m.isQuit = false)
    (hmsgs : i.msgs = pre ++ [SimMsg.data REQ_SENSORS v now_ms])
    (hv : sane_pos (v 0) (v 1) = true) :
    (sim_ingest L (sim_ingest_run L b is) i).origin = (v 0, v 1, ft2m (v 2)) ∧
    (sim_ingest L (sim_ingest_run L b is) i).sim.origin_captured = true := by
  obtain ⟨k1, k2⟩ := sim_ingest_run_stays_armed L is b hmode (Or.inl hchg) hquiet
  obtain ⟨r1, r2, r3⟩ := sim_rearm_arms (sim_ingest_run L b is) (by rw [k1]; exact k2)
  have hc1 : (sim_connect (sim_rearm (sim_ingest_run L b is)) i.now i.now_fail
      i.open_ok).sim.g_sim_ok = true := by
    unfold sim_connect
    rw [r2, r3]
    rcases hconn with h | ⟨h1, h2⟩
    · simp [h, r2]
    · by_cases hok : (sim_ingest_run L b is).sim.g_sim_ok = true
      · simp [hok, r2]
      · have hf : (sim_ingest_run L b is).sim.g_sim_ok = false := by simpa using hok
        simp [hf, h1, h2]
  have hc2 : (sim_connect (sim_rearm (sim_ingest_run L b is)) i.now i.now_fail
      i.open_ok).sim.origin_captured = false := by
    rw [sim_connect_captured]
    exact r1
  have hd1 := sim_dispatch_stays_armed L pre _ (fun m hm => (hpre m hm).1) hc2
  have hd2 := (sim_dispatch_stays_connected L 0 pre _ (fun m hm => (hpre m hm).2)).trans hc1
  unfold sim_ingest
  simp only [k1, hmsgs, sim_dispatch_append]
  have hlast : ∀ b2 : Bridge, b2.sim.g_sim_ok = true →
      sim_dispatch L 0 b2 [SimMsg.data REQ_SENSORS v now_ms] =
        sim_on_data L b2 0 REQ_SENSORS v now_ms := by
    intro b2 h2
    simp [sim_dispatch, h2, sim_on_msg]
  rw [hlast _ hd2]
  exact sim_on_data_captures L _ v now_ms hd1 hv

/-- Witness for the amended C23: back in mode 0 after a stay in mode 1, an iteration with a
push at (0, 0) changes nothing, and the sample (48, 9, 2000 ft) of the next iteration
becomes the origin. -/
theorem origin_rearmed_by_change_to_mode_0_witness :
    bridge_back_to_0.sim.last_pos_mode ≠ 0 ∧
    (sim_ingest libm0 (sim_ingest_run libm0 bridge_back_to_0 [push_invalid])
      push_second).origin = (v_second 0, v_second 1, ft2m (v_second 2)) ∧
    (sim_ingest libm0 (sim_ingest_run libm0 bridge_back_to_0 [push_invalid])
      push_second).sim.origin_captured = true :=
  ⟨by with_unfolding_all decide,
   origin_rearmed_by_change_to_mode_0 libm0 bridge_back_to_0 [push_invalid] push_second
    [SimMsg.other] v_second 2000 (by with_unfolding_all rfl) (by with_unfolding_all decide)
    (by
      intro j hj m hm
      simp only [List.mem_singleton] at hj
      subst hj
      simp only [push_invalid, List.mem_singleton] at hm
      subst hm
      with_unfolding_all rfl)
    (Or.inl (by with_unfolding_all rfl))
    (by
      intro m hm
      simp only [List.mem_singleton] at hm
      subst hm
      exact ⟨rfl, rfl⟩)
    rfl (by with_unfolding_all rfl)⟩

/-! ## Claims about the failover to the actuator frame -/

/-- C24: the priority of the intercept group is written only when `have_pwm` differs from
the static `intercept_enabled`, which no reconnect resets, while `sim_open()` sets the
priority of the new session to standard. In the trace below the frame stays live, the
simulator quits and connects again, and at the end of that iteration the simulator is
connected, the frame is live and the priority is standard, not highest. -/
theorem intercept_priority_after_reconnect :
    (failover_1.1.sim.g_sim_ok = true ∧ have_pwm failover_1.1.rx 100000000 = true ∧
      failover_1.2 =
        { intercept_enabled := true, grp_priority := some GroupPriority.HIGHEST }) ∧
    (failover_2.1.sim.g_sim_ok = false ∧ have_pwm failover_2.1.rx 200000000 = true ∧
      failover_2.2 = { intercept_enabled := true, grp_priority := none }) ∧
    (failover_3.1.sim.g_sim_ok = true ∧ have_pwm failover_3.1.rx 700000000 = true ∧
      failover_3.2 =
        { intercept_enabled := true, grp_priority := some GroupPriority.STANDARD }) ∧
    (∀ (live : Bool) (x : Intercept),
      (intercept_switch true live x).intercept_enabled = live ∧
      (intercept_switch true live x).grp_priority =
        if live = x.intercept_enabled then x.grp_priority
        else some (if live then GroupPriority.HIGHEST else GroupPriority.STANDARD)) := by
  refine ⟨⟨?_, ?_, ?_⟩, ⟨?_, ?_, ?_⟩, ⟨?_, ?_, ?_⟩, ?_⟩
  · with_unfolding_all rfl
  · with_unfolding_all rfl
  · with_unfolding_all rfl
  · with_unfolding_all rfl
  · with_unfolding_all rfl
  · with_unfolding_all rfl
  · with_unfolding_all rfl
  · with_unfolding_all rfl
  · with_unfolding_all rfl
  · intro live x
    cases live <;> cases hx : x.intercept_enabled <;> simp [intercept_switch, hx]

theorem round_to_int_bounds (q : ℚ) (N : Int) (hN : 0 ≤ N) (h1 : -(N : ℚ) ≤ q)
    (h2 : q ≤ (N : ℚ)) : -N ≤ round_to_int q ∧ round_to_int q ≤ N := by
  unfold round_to_int
  split_ifs with h0
  · constructor
    · have : (0 : Int) ≤ ⌊q + 1 / 2⌋ := Int.floor_nonneg.2 (by linarith)
      omega
    · have : ⌊q + 1 / 2⌋ < N + 1 := by
        rw [Int.floor_lt]
        push_cast
        linarith
      omega
  · push_neg at h0
    constructor
    · have : -N - 1 < ⌈q - 1 / 2⌉ := by
        rw [Int.lt_ceil]
        push_cast
        linarith
      omega
    · have : ⌈q - 1 / 2⌉ ≤ 0 := by
        rw [Int.ceil_le]
        push_cast
        linarith
      omega

theorem long_of_dword_of_long (v : Int) (h1 : -2 ^ 31 ≤ v) (h2 : v < 2 ^ 31) :
    long_of_dword (dword_of_long v) = v := by
  unfold long_of_dword dword_of_long
  have hnn : 0 ≤ v % 2 ^ 32 := Int.emod_nonneg _ (by norm_num)
  by_cases hv : 0 ≤ v
  · have hm : v % 2 ^ 32 = v := Int.emod_eq_of_lt hv (by omega)
    rw [hm]
    have hlt : v.toNat < 2 ^ 31 := by omega
    rw [if_pos hlt]
    omega
  · have hm : v % 2 ^ 32 = v + 2 ^ 32 := by
      have h3 : (v + 2 ^ 32) % 2 ^ 32 = v + 2 ^ 32 :=
        Int.emod_eq_of_lt (by omega) (by omega)
      rw [← h3]
      simp
    rw [hm]
    have hge : ¬ (v + 2 ^ 32).toNat < 2 ^ 31 := by omega
    rw [if_neg hge]
    omega

theorem sim_val_bounds (i : Nat) (x : ℚ)
    (h : if i = 0 ∨ i = 1 ∨ i = 3 then -1 ≤ x ∧ x ≤ 1 else 0 ≤ x ∧ x ≤ 1) :
    -16383 ≤ sim_val i x ∧ sim_val i x ≤ 16383 := by
  unfold sim_val
  split_ifs with hb
  · rw [if_pos hb] at h
    exact round_to_int_bounds _ 16383 (by norm_num) (by push_cast; linarith)
      (by push_cast; linarith)
  · rw [if_neg hb] at h
    exact round_to_int_bounds _ 16383 (by norm_num) (by push_cast; linarith)
      (by push_cast; linarith)

theorem apply_invert_getD (inv_ch : List Bool) (norm_pwm : List ℚ) (i : Nat) (hi : i < 16) :
    (apply_invert inv_ch norm_pwm).getD i 0 =
      if inv_ch.getD i false then invert_norm i (norm_pwm.getD i 0) else norm_pwm.getD i 0 := by
  unfold apply_invert
  rw [List.getD_eq_getElem?_getD, List.getElem?_map, List.getElem?_range hi]
  rfl

theorem sim_transmit_mem (b : Bridge) (sim_evt_idx : Nat → Int) (now i p : Nat) :
    (i, p) ∈ sim_transmit b sim_evt_idx now ↔
      (b.sim.g_sim_ok = true ∧ have_pwm b.rx now = true ∧ 16 ≤ b.rx.pwm.pwm.length) ∧
      i < 16 ∧ sim_evt_idx i ≠ 0 ∧
      p = dword_of_long
        (sim_val i ((apply_invert b.G.invsim_ch b.rx.sitl_out_pwm).getD i 0)) := by
  unfold sim_transmit
  split_ifs with hc
  · simp only [Bool.and_eq_true, decide_eq_true_eq] at hc
    simp only [List.mem_filterMap, List.mem_range]
    constructor
    · rintro ⟨j, hj, hjp⟩
      split_ifs at hjp with hz
      simp only [Option.some.injEq, Prod.mk.injEq] at hjp
      obtain ⟨e1, e2⟩ := hjp
      subst e1
      exact ⟨⟨hc.1.1, hc.1.2, hc.2⟩, hj, hz, e2.symm⟩
    · rintro ⟨_, hi, hz, hp⟩
      exact ⟨i, hi, by rw [if_pos hz, hp]⟩
  · simp only [Bool.and_eq_true, decide_eq_true_eq] at hc
    simp only [List.not_mem_nil, false_iff]
    rintro ⟨⟨h1, h2, h3⟩, _⟩
    exact hc ⟨⟨h1, h2⟩, h3⟩

/-- C25 fails as stated: with every channel at PWM 1000, the normalized value of channel 2
(not bipolar) is 0, within [0, 1], and the parameter transmitted for it is the 32-bit word
4294950913, which reads -16383 as a signed integer: outside 0..16383 either way. -/
theorem unipolar_parameter_is_negative :
    bridge_low.rx.sitl_out_pwm.getD 2 0 = 0 ∧
    bridge_low.G.invsim_ch.getD 2 false = false ∧
    (2, 4294950913) ∈ sim_transmit bridge_low G_sim_evt_idx 100000000 ∧
    long_of_dword 4294950913 = -16383 ∧
    ¬ (0 ≤ long_of_dword 4294950913 ∧ long_of_dword 4294950913 ≤ 16383) ∧
    ¬ (4294950913 ≤ 16383) := by
  have h : sim_transmit bridge_low G_sim_evt_idx 100000000 =
      [(0, 4294950913), (1, 4294950913), (2, 4294950913), (3, 4294950913)] := by
    with_unfolding_all rfl
  refine ⟨by with_unfolding_all rfl, by with_unfolding_all rfl, ?_, by decide, by decide,
    by decide⟩
  rw [h]
  decide

/-- C25 amended: for every channel for which an event is transmitted (live frame, event not
none), the parameter, read as a signed 32-bit integer, lies in [-16383, 16383]: for a
bipolar channel (0, 1, 3) when its normalized value is in [-1, 1], and for every other
channel when its normalized value is in [0, 1], whether or not the channel is inverted. -/
theorem transmitted_parameter_range (b : Bridge) (sim_evt_idx : Nat → Int) (now i p : Nat)
    (hmem : (i, p) ∈ sim_transmit b sim_evt_idx now)
    (hnorm : if i = 0 ∨ i = 1 ∨ i = 3
      then -1 ≤ b.rx.sitl_out_pwm.getD i 0 ∧ b.rx.sitl_out_pwm.getD i 0 ≤ 1
      else 0 ≤ b.rx.sitl_out_pwm.getD i 0 ∧ b.rx.sitl_out_pwm.getD i 0 ≤ 1) :
    -16383 ≤ long_of_dword p ∧ long_of_dword p ≤ 16383 := by
  obtain ⟨_, hi, _, hp⟩ := (sim_transmit_mem b sim_evt_idx now i p).1 hmem
  have hx : if i = 0 ∨ i = 1 ∨ i = 3
      then -1 ≤ (apply_invert b.G.invsim_ch b.rx.sitl_out_pwm).getD i 0 ∧
        (apply_invert b.G.invsim_ch b.rx.sitl_out_pwm).getD i 0 ≤ 1
      else 0 ≤ (apply_invert b.G.invsim_ch b.rx.sitl_out_pwm).getD i 0 ∧
        (apply_invert b.G.invsim_ch b.rx.sitl_out_pwm).getD i 0 ≤ 1 := by
    rw [apply_invert_getD _ _ i hi]
    unfold invert_norm
    split_ifs at hnorm ⊢ <;> constructor <;> linarith [hnorm.1, hnorm.2]
  obtain ⟨b1, b2⟩ := sim_val_bounds i _ hx
  rw [hp, long_of_dword_of_long _ (by omega) (by omega)]
  exact ⟨b1, b2⟩

/-- Witness for the amended C25: the event of channel 2 sent from the state with every
channel at PWM 1000. -/
theorem transmitted_parameter_range_witness :
    -16383 ≤ long_of_dword 4294950913 ∧ long_of_dword 4294950913 ≤ 16383 :=
  transmitted_parameter_range bridge_low G_sim_evt_idx 100000000 2 4294950913
    (by
      have h : sim_transmit bridge_low G_sim_evt_idx 100000000 =
          [(0, 4294950913), (1, 4294950913), (2, 4294950913), (3, 4294950913)] := by
        with_unfolding_all rfl
      rw [h]
      decide)
    (by
      have h : bridge_low.rx.sitl_out_pwm.getD 2 0 = 0 := by with_unfolding_all rfl
      rw [h]
      norm_num)

/-- C26: in one iteration of the telemetry loop an actuator control event is transmitted
for channel i (i < 16) if and only if the simulator is connected, the actuator frame is
live with at least 16 stored values, and the event index of channel i is not 0; with a
stale frame no event is transmitted for any channel. -/
theorem event_transmitted_iff (b : Bridge) (sim_evt_idx : Nat → Int) (now i : Nat)
    (hi : i < 16) :
    ((∃ p : Nat, (i, p) ∈ sim_transmit b sim_evt_idx now) ↔
      (b.sim.g_sim_ok = true ∧ (have_pwm b.rx now = true ∧ 16 ≤ b.rx.pwm.pwm.length) ∧
        sim_evt_idx i ≠ 0)) ∧
    (have_pwm b.rx now = false → sim_transmit b sim_evt_idx now = []) := by
  constructor
  · constructor
    · rintro ⟨p, hp⟩
      obtain ⟨⟨h1, h2, h3⟩, _, h5, _⟩ := (sim_transmit_mem b sim_evt_idx now i p).1 hp
      exact ⟨h1, ⟨h2, h3⟩, h5⟩
    · rintro ⟨h1, ⟨h2, h3⟩, h5⟩
      exact ⟨_, (sim_transmit_mem b sim_evt_idx now i _).2 ⟨⟨h1, h2, h3⟩, hi, h5, rfl⟩⟩
  · intro h
    unfold sim_transmit
    simp [h]

/-- Witness for C26: in the first iteration of the failover scenario (connected, frame
live with 16 values, default event indices) an event is transmitted for channel 2 and none
for channel 4, whose event index is 0. -/
theorem event_transmitted_iff_witness :
    (∃ p : Nat, (2, p) ∈ sim_transmit failover_1.1 G_sim_evt_idx 100000000) ∧
    ¬ (∃ p : Nat, (4, p) ∈ sim_transmit failover_1.1 G_sim_evt_idx 100000000) :=
  ⟨(event_transmitted_iff failover_1.1 G_sim_evt_idx 100000000 2 (by decide)).1.2
      ⟨by with_unfolding_all rfl, ⟨by with_unfolding_all rfl, by with_unfolding_all decide⟩,
        by decide⟩,
   fun h => ((event_transmitted_iff failover_1.1 G_sim_evt_idx 100000000 4 (by decide)).1.1
      h).2.2 (by decide)⟩

/-! ## Claims about duplicate destinations, the heading step, the target period and the
quaternion -/

theorem joy_fold_last (ps : List (ℚ × JoyMapCfg)) (k : Nat) (hk12 : k < 12) :
    ∀ (j : Nat) (p : ℚ × JoyMapCfg) (acc : List ℚ), k < acc.length → ps[j]? = some p →
      p.2.rcDest = (k : Int) + 1 →
      (∀ (j2 : Nat) (q : ℚ × JoyMapCfg), j < j2 → ps[j2]? = some q →
        q.2.rcDest ≠ (k : Int) + 1) →
      (ps.foldl (fun acc p => joy_slot_step acc p.1 p.2) acc)[k]? =
        some (joy_axis_value p.1 p.2) := by
  induction ps with
  | nil => intro j p acc _ hp; simp at hp
  | cons p0 ps ih =>
    intro j p acc hk hp hd hlast
    simp only [List.foldl_cons]
    cases j with
    | zero =>
      simp only [List.getElem?_cons_zero, Option.some.injEq] at hp
      subst hp
      rw [joy_fold_untouched ps k _ ?_, joy_slot_step_hit acc p0.1 p0.2 k hk hk12 hd]
      intro q hq
      obtain ⟨n, hn⟩ := List.getElem?_of_mem hq
      exact hlast (n + 1) q (Nat.succ_pos n) (by simpa using hn)
    | succ j =>
      simp only [List.getElem?_cons_succ] at hp
      apply ih j p _ (by rw [joy_slot_step_length]; exact hk) hp hd
      intro j2 q hj hq
      exact hlast (j2 + 1) q (Nat.succ_lt_succ hj) (by simpa using hq)

/-- C27: for every axis map and every device state, if axis j has rcDest = k + 1 with
k < 12 and no axis with a higher index has the same rcDest, then after the poll the RC slot
k holds the value computed from axis j, whatever the axes before j write: among several
axes with the same rcDest in 1..12 the one with the highest index wins. The poll is a total
function: no error is raised. -/
theorem joy_last_writer_wins (b : Bridge) (js : JoyState) (j k : Nat) (r : ℚ) (m : JoyMapCfg)
    (hk : k < 12) (hr : (joy_raw_axes js)[j]? = some r) (hm : b.G.joy_map[j]? = some m)
    (hd : m.rcDest = (k : Int) + 1)
    (hlast : ∀ (j2 : Nat) (m2 : JoyMapCfg), j < j2 → b.G.joy_map[j2]? = some m2 →
      m2.rcDest ≠ (k : Int) + 1) :
    (joy_poll b js).G.rc_out[k]? = some (joy_axis_value r m) := by
  show (joy_out_slots (joy_raw_axes js) b.G.joy_map)[k]? = _
  unfold joy_out_slots
  apply joy_fold_last _ k hk j (r, m) _ (by simpa using hk)
  · rw [List.getElem?_zip_eq_some]
    exact ⟨hr, hm⟩
  · exact hd
  · intro j2 q hj hq
    rw [List.getElem?_zip_eq_some] at hq
    exact hlast j2 q.2 hj hq.2

/-- Witness for C27: with axis 1 and axis 7 both mapped to RC 1, the slot 0 holds the value
of axis 7 (the first slider, fully back: 0) and not that of axis 1 (stick half right:
0.75). -/
theorem joy_last_writer_wins_witness :
    (joy_poll bridge_dup js_sample).G.rc_out[0]? = some (joy_axis_value (-1) { rcDest := 1 }) ∧
    joy_axis_value (-1) { rcDest := 1 } = 0 ∧
    joy_axis_value (1 / 2) { rcDest := 1 } = 3 / 4 :=
  ⟨joy_last_writer_wins bridge_dup js_sample 6 0 (-1) { rcDest := 1 } (by decide)
      (by with_unfolding_all rfl) (by with_unfolding_all rfl) (by decide)
      (by
        intro j2 m2 hj hm2
        obtain ⟨n, rfl⟩ : ∃ n, j2 = n + 7 := ⟨j2 - 7, by omega⟩
        change joy_map_dup[n + 7]? = some m2 at hm2
        simp only [joy_map_dup, List.getElem?_cons_succ] at hm2
        have hmem : m2 ∈ List.replicate 5 ({} : JoyMapCfg) := List.getElem?_mem hm2
        rw [(List.mem_replicate.1 hmem).2]
        decide),
   by norm_num [joy_axis_value, clampd], by norm_num [joy_axis_value, clampd]⟩

theorem lerp_ang_eq_da (a b t : Dbl) : lerp_ang a b t = a + lerp_ang_da a b * t := rfl

theorem lerp_ang_da_fin (a c : ℚ) :
    lerp_ang_da (Dbl.fin a) (Dbl.fin c) =
      Dbl.fin ((c - a + 540) - 360 * (Dbl.truncQ ((c - a + 540) / 360) : ℚ) - 180) := by
  simp [lerp_ang_da, Dbl.fmod]

/-- C28: for every previous heading a and current heading c in [0, 360), the heading step
`da = fmod(c - a + 540, 360) - 180` of `lerp_ang` is a finite d with -180 <= d < 180 and
a + d is c, c + 360 or c - 360; no other representative of c - a modulo 360 is shorter
than d; and for t in [0, 1] the interpolated heading is a + t d, at most 180 degrees away
from a. -/
theorem heading_step_is_shortest (a c : ℚ) (ha0 : 0 ≤ a) (ha1 : a < 360) (hc0 : 0 ≤ c)
    (hc1 : c < 360) :
    ∃ d : ℚ, lerp_ang_da (Dbl.fin a) (Dbl.fin c) = Dbl.fin d ∧ -180 ≤ d ∧ d < 180 ∧
      (a + d = c ∨ a + d = c + 360 ∨ a + d = c - 360) ∧
      (∀ k : Int, |d| ≤ |c - a + 360 * (k : ℚ)|) ∧
      ∀ t : ℚ, 0 ≤ t → t ≤ 1 →
        lerp_ang (Dbl.fin a) (Dbl.fin c) (Dbl.fin t) = Dbl.fin (a + t * d) ∧ |t * d| ≤ 180 := by
  have hx0 : 0 ≤ (c - a + 540) / 360 := by apply div_nonneg <;> linarith
  have htr : Dbl.truncQ ((c - a + 540) / 360) = ⌊(c - a + 540) / 360⌋ := by
    unfold Dbl.truncQ
    rw [if_pos hx0]
  have hf1 : ((⌊(c - a + 540) / 360⌋ : Int) : ℚ) * 360 ≤ c - a + 540 := by
    have := Int.floor_le ((c - a + 540) / 360)
    rwa [le_div_iff₀ (by norm_num : (0 : ℚ) < 360)] at this
  have hf2 : c - a + 540 < (((⌊(c - a + 540) / 360⌋ : Int) : ℚ) + 1) * 360 := by
    have := Int.lt_floor_add_one ((c - a + 540) / 360)
    rwa [div_lt_iff₀ (by norm_num : (0 : ℚ) < 360)] at this
  have hd1 : -180 ≤ (c - a + 540) - 360 * ((⌊(c - a + 540) / 360⌋ : Int) : ℚ) - 180 := by
    linarith
  have hd2 : (c - a + 540) - 360 * ((⌊(c - a + 540) / 360⌋ : Int) : ℚ) - 180 < 180 := by
    linarith
  have habs : |(c - a + 540) - 360 * ((⌊(c - a + 540) / 360⌋ : Int) : ℚ) - 180| ≤ 180 :=
    abs_le.2 ⟨hd1, le_of_lt hd2⟩
  have hz0 : (0 : Int) ≤ ⌊(c - a + 540) / 360⌋ := Int.floor_nonneg.2 hx0
  have hz2 : ⌊(c - a + 540) / 360⌋ < 3 := by
    have : ((⌊(c - a + 540) / 360⌋ : Int) : ℚ) < ((3 : Int) : ℚ) := by
      push_cast
      linarith
    exact Int.cast_lt.1 this
  refine ⟨(c - a + 540) - 360 * ((⌊(c - a + 540) / 360⌋ : Int) : ℚ) - 180, ?_, hd1, hd2,
    ?_, ?_, ?_⟩
  · rw [lerp_ang_da_fin, htr]
  · have hcases : ⌊(c - a + 540) / 360⌋ = 1 ∨ ⌊(c - a + 540) / 360⌋ = 0 ∨
        ⌊(c - a + 540) / 360⌋ = 2 := by omega
    rcases hcases with h | h | h
    · left; rw [h]; push_cast; ring
    · right; left; rw [h]; push_cast; ring
    · right; right; rw [h]; push_cast; ring
  · intro k
    rcases lt_trichotomy (k + ⌊(c - a + 540) / 360⌋ - 1) 0 with hm | hm | hm
    · have hm1 : ((k + ⌊(c - a + 540) / 360⌋ - 1 : Int) : ℚ) ≤ -1 := by
        exact_mod_cast (by omega : k + ⌊(c - a + 540) / 360⌋ - 1 ≤ -1)
      push_cast at hm1
      have hneg : c - a + 360 * (k : ℚ) ≤ -180 := by linarith
      rw [abs_of_nonpos (by linarith : c - a + 360 * (k : ℚ) ≤ 0)]
      linarith
    · have hm1 : ((k + ⌊(c - a + 540) / 360⌋ - 1 : Int) : ℚ) = 0 := by exact_mod_cast hm
      push_cast at hm1
      have he : c - a + 360 * (k : ℚ) =
          (c - a + 540) - 360 * ((⌊(c - a + 540) / 360⌋ : Int) : ℚ) - 180 := by linarith
      rw [he]
    · have hm1 : (1 : ℚ) ≤ ((k + ⌊(c - a + 540) / 360⌋ - 1 : Int) : ℚ) := by
        exact_mod_cast (by omega : 1 ≤ k + ⌊(c - a + 540) / 360⌋ - 1)
      push_cast at hm1
      have hpos : 180 ≤ c - a + 360 * (k : ℚ) := by linarith
      rw [abs_of_nonneg (by linarith : 0 ≤ c - a + 360 * (k : ℚ))]
      linarith
  · intro t ht0 ht1
    constructor
    · rw [lerp_ang_eq_da, lerp_ang_da_fin, htr]
      simp only [Dbl.fin_mul, Dbl.fin_add]
      congr 1
      ring
    · rw [abs_mul, abs_of_nonneg ht0]
      calc t * |(c - a + 540) - 360 * ((⌊(c - a + 540) / 360⌋ : Int) : ℚ) - 180|
          ≤ 1 * 180 := mul_le_mul ht1 habs (abs_nonneg _) (by norm_num)
        _ = 180 := by norm_num

/-- Witness for C28: from heading 350 to heading 10 the step is one of those described,
through north and not the long way round. -/
theorem heading_step_is_shortest_witness :
    ∃ d : ℚ, lerp_ang_da (Dbl.fin 350) (Dbl.fin 10) = Dbl.fin d ∧ -180 ≤ d ∧ d < 180 ∧
      (350 + d = 10 ∨ 350 + d = 10 + 360 ∨ 350 + d = 10 - 360) ∧
      (∀ k : Int, |d| ≤ |10 - 350 + 360 * (k : ℚ)|) ∧
      ∀ t : ℚ, 0 ≤ t → t ≤ 1 →
        lerp_ang (Dbl.fin 350) (Dbl.fin 10) (Dbl.fin t) = Dbl.fin (350 + t * d) ∧
          |t * d| ≤ 180 :=
  heading_step_is_shortest 350 10 (by norm_num) (by norm_num) (by norm_num) (by norm_num)

theorem target_dt_bounds (G : Shared) : 1 / 1000 ≤ target_dt G ∧ target_dt G ≤ 1 / 10 := by
  unfold target_dt
  obtain ⟨h1, h2⟩ := iclamp_bounds (effective_rate G) 10 1000 (by norm_num)
  have h3 : (10 : ℚ) ≤ ((iclamp (effective_rate G) 10 1000 : Int) : ℚ) := by exact_mod_cast h1
  have h4 : ((iclamp (effective_rate G) 10 1000 : Int) : ℚ) ≤ 1000 := by exact_mod_cast h2
  have hpos : (0 : ℚ) < ((iclamp (effective_rate G) 10 1000 : Int) : ℚ) := by linarith
  constructor
  · rw [div_le_div_iff₀ (by norm_num) hpos]
    linarith
  · rw [div_le_div_iff₀ hpos (by norm_num)]
    linarith

theorem effective_rate_match (G : Shared) (h : G.match_sim_rate = true) :
    10 ≤ effective_rate G ∧ effective_rate G ≤ 200 := by
  unfold effective_rate
  rw [if_pos h]
  have hm : (5 : ℚ) ≤ (if (5 : ℚ) < G.sim_dt_ms then G.sim_dt_ms else 5) := by
    split_ifs with h5
    · exact le_of_lt h5
    · exact le_refl _
  have hpos : (0 : ℚ) < (if (5 : ℚ) < G.sim_dt_ms then G.sim_dt_ms else 5) := by linarith
  have hq1 : (0 : ℚ) ≤ 1000 / (if (5 : ℚ) < G.sim_dt_ms then G.sim_dt_ms else 5) :=
    div_nonneg (by norm_num) (le_of_lt hpos)
  have hq2 : 1000 / (if (5 : ℚ) < G.sim_dt_ms then G.sim_dt_ms else 5) ≤ 200 := by
    rw [div_le_iff₀ hpos]
    linarith
  obtain ⟨_, r2⟩ := round_to_int_bounds _ 200 (by norm_num) (by push_cast; linarith)
    (by push_cast; exact hq2)
  generalize round_to_int (1000 / (if (5 : ℚ) < G.sim_dt_ms then G.sim_dt_ms else 5)) = v
    at r2 ⊢
  unfold iclamp
  split_ifs <;> omega

theorem emit_once_sum (L : Libm) (b : Bridge) (T : ℚ) (ms : Bool) (pm : Int) (inp : EmitIn) :
    (emit_once L b T ms pm inp).1.sim.t_phys_acc + (emit_once L b T ms pm inp).1.sim.udp_send_acc
      = b.sim.t_phys_acc + b.sim.udp_send_acc := by
  unfold emit_once
  simp only []
  split_ifs <;> (dsimp only; ring)

theorem emit_loop_sum (L : Libm) (T : ℚ) (ms : Bool) (pm : Int) (env : Nat → EmitIn)
    (fuel : Nat) :
    ∀ (k : Nat) (b : Bridge),
      (emit_loop L T ms pm env fuel k b).1.sim.t_phys_acc +
        (emit_loop L T ms pm env fuel k b).1.sim.udp_send_acc =
      b.sim.t_phys_acc + b.sim.udp_send_acc := by
  induction fuel with
  | zero => intro k b; rfl
  | succ n ih =>
    intro k b
    unfold emit_loop
    split_ifs with hc
    · simp only []
      rw [ih, emit_once_sum]
    · rfl

theorem sched_tick_bounded (L : Libm) (env : Nat → EmitIn) (b : Bridge) (now : Nat)
    (h0 : 0 ≤ b.sim.udp_send_acc) (h1 : b.sim.udp_send_acc < 1 / 10) :
    (sched_tick L env b now).2 ≤ 200 ∧
    (sched_tick L env b now).1.sim.t_phys_acc =
      b.sim.t_phys_acc + ((sched_tick L env b now).2 : ℚ) * target_dt b.G ∧
    0 ≤ (sched_tick L env b now).1.sim.udp_send_acc ∧
    (sched_tick L env b now).1.sim.udp_send_acc < target_dt b.G := by
  obtain ⟨e1, e2, _, _⟩ := sched_tick_spec L env b now
  obtain ⟨c1, c2, _, _⟩ := clamp_dt_bounds (measured_dt b.sim.t_prev now)
  obtain ⟨t1, t2⟩ := target_dt_bounds b.G
  have hT := target_dt_pos b.G
  have hx0 : 0 ≤ (b.sim.udp_send_acc + clamp_dt (measured_dt b.sim.t_prev now)) / target_dt b.G :=
    div_nonneg (by linarith) (le_of_lt hT)
  have hfl := Nat.floor_le hx0
  have hfl2 := Nat.lt_floor_add_one
    ((b.sim.udp_send_acc + clamp_dt (measured_dt b.sim.t_prev now)) / target_dt b.G)
  rw [← e1] at hfl hfl2
  rw [le_div_iff₀ hT] at hfl
  rw [div_lt_iff₀ hT] at hfl2
  have hsum : (sched_tick L env b now).1.sim.t_phys_acc +
      (sched_tick L env b now).1.sim.udp_send_acc =
      b.sim.t_phys_acc + (b.sim.udp_send_acc + clamp_dt (measured_dt b.sim.t_prev now)) :=
    emit_loop_sum L (target_dt b.G) b.G.match_sim_rate b.G.json_pos_mode env _ 0 (sim_pace b now)
  refine ⟨?_, ?_, ?_, ?_⟩
  · have hlt : ((sched_tick L env b now).2 : ℚ) < ((201 : Nat) : ℚ) := by
      push_cast
      nlinarith
    exact Nat.lt_succ_iff.1 (Nat.cast_lt.1 hlt)
  · linarith
  · linarith
  · linarith

theorem sched_reconf_sim (b : Bridge) (c : TickIn) : (sched_reconf b c).sim = b.sim := rfl

/-- C29: for every configuration (any configured rate, either rate mode, any smoothed frame
period) the target period lies in [1/1000 s, 1/10 s], and in match-simulator-rate mode the
effective rate is at most 200 Hz; and in every sequence of ticks started with the
accumulator at 0, whatever the configuration found by each tick, the emission loop of each
tick leaves through its condition after at most 200 emissions, advances the
simulation-time counter by the number of emissions times the target period, and leaves the
accumulator in [0, target period). -/
theorem emission_loop_bounded :
    (∀ G : Shared, 1 / 1000 ≤ target_dt G ∧ target_dt G ≤ 1 / 10 ∧
      (G.match_sim_rate = true → effective_rate G ≤ 200)) ∧
    (∀ (L : Libm) (env : Nat → EmitIn) (b : Bridge) (cs : List TickIn),
      b.sim.udp_send_acc = 0 →
      ∀ e ∈ sched_trace L env b cs,
        e.2.2 ≤ 200 ∧
        e.2.1.sim.t_phys_acc = e.1.sim.t_phys_acc + (e.2.2 : ℚ) * target_dt e.1.G ∧
        0 ≤ e.2.1.sim.udp_send_acc ∧ e.2.1.sim.udp_send_acc < target_dt e.1.G) := by
  refine ⟨fun G => ⟨(target_dt_bounds G).1, (target_dt_bounds G).2,
    fun h => (effective_rate_match G h).2⟩, ?_⟩
  intro L env b cs hzero
  have key : ∀ (cs : List TickIn) (b : Bridge), 0 ≤ b.sim.udp_send_acc →
      b.sim.udp_send_acc < 1 / 10 →
      ∀ e ∈ sched_trace L env b cs,
        e.2.2 ≤ 200 ∧
        e.2.1.sim.t_phys_acc = e.1.sim.t_phys_acc + (e.2.2 : ℚ) * target_dt e.1.G ∧
        0 ≤ e.2.1.sim.udp_send_acc ∧ e.2.1.sim.udp_send_acc < target_dt e.1.G := by
    intro cs
    induction cs with
    | nil => intro b _ _ e he; simp [sched_trace] at he
    | cons c cs ih =>
      intro b h0 h1 e he
      have hb := sched_tick_bounded L env (sched_reconf b c) c.now
        (by rw [sched_reconf_sim]; exact h0) (by rw [sched_reconf_sim]; exact h1)
      unfold sched_trace at he
      rcases List.mem_cons.1 he with h | h
      · rw [h]
        exact hb
      · exact ih _ hb.2.2.1 (lt_of_lt_of_le hb.2.2.2 (target_dt_bounds _).2) e h
  exact key cs b (by rw [hzero]) (by rw [hzero]; norm_num)

/-- Witness for C29: the configured rate -5 gives the period 1/10 s; and in the two ticks of
`ticks_reconf`, started from the initial state, there are 0 and then 30 emissions, each tick
within the bounds. -/
theorem emission_loop_bounded_witness :
    (1 / 1000 ≤ target_dt { rate_hz := -5 } ∧ target_dt { rate_hz := -5 } ≤ 1 / 10) ∧
    (sched_trace libm0 (fun _ => {}) bridge_init ticks_reconf).map (fun e => e.2.2) = [0, 30] ∧
    ∀ e ∈ sched_trace libm0 (fun _ => {}) bridge_init ticks_reconf,
      e.2.2 ≤ 200 ∧
      e.2.1.sim.t_phys_acc = e.1.sim.t_phys_acc + (e.2.2 : ℚ) * target_dt e.1.G ∧
      0 ≤ e.2.1.sim.udp_send_acc ∧ e.2.1.sim.udp_send_acc < target_dt e.1.G :=
  ⟨⟨(emission_loop_bounded.1 { rate_hz := -5 }).1, (emission_loop_bounded.1 { rate_hz := -5 }).2.1⟩,
   by with_unfolding_all decide,
   emission_loop_bounded.2 libm0 (fun _ => {}) bridge_init ticks_reconf
    (by with_unfolding_all rfl)⟩

theorem quat_of_half_norm {K : Type} [CommRing K] (cr sr cp sp cy sy : K)
    (hr : cr ^ 2 + sr ^ 2 = 1) (hp : cp ^ 2 + sp ^ 2 = 1) (hy : cy ^ 2 + sy ^ 2 = 1) :
    (quat_of_half cr sr cp sp cy sy).1 ^ 2 + (quat_of_half cr sr cp sp cy sy).2.1 ^ 2 +
      (quat_of_half cr sr cp sp cy sy).2.2.1 ^ 2 + (quat_of_half cr sr cp sp cy sy).2.2.2 ^ 2
      = 1 := by
  have h : (quat_of_half cr sr cp sp cy sy).1 ^ 2 + (quat_of_half cr sr cp sp cy sy).2.1 ^ 2 +
      (quat_of_half cr sr cp sp cy sy).2.2.1 ^ 2 + (quat_of_half cr sr cp sp cy sy).2.2.2 ^ 2
      = (cr ^ 2 + sr ^ 2) * (cp ^ 2 + sp ^ 2) * (cy ^ 2 + sy ^ 2) := by
    simp only [quat_of_half]
    ring
  rw [h, hr, hp, hy]
  norm_num

theorem build_record_quaternion (L : Libm) (G : Shared) (R : RawSensors) (t_sec : ℚ)
    (pm : Int) (p b h : ℚ) (hp : R.pitch_deg = Dbl.fin p) (hb : R.bank_deg = Dbl.fin b)
    (hh : R.hdg_true_deg = Dbl.fin h) :
    (build_record L G R t_sec pm).quaternion =
      (Dbl.fin (quat_of_deg L.cos L.sin p b h).1, Dbl.fin (quat_of_deg L.cos L.sin p b h).2.1,
       Dbl.fin (quat_of_deg L.cos L.sin p b h).2.2.1,
       Dbl.fin (quat_of_deg L.cos L.sin p b h).2.2.2) := by
  simp [build_record, quat_of_deg, quat_of_half, deg2rad, Libm.dcos, Libm.dsin, hp, hb, hh]

/-- C30: for every pitch, bank and heading in degrees over the reals, the four quaternion
components computed as in the outbound record, with the real cosine and sine, have squared
sum exactly 1, and for pitch = bank = heading = 0 the quaternion is (1, 0, 0, 0); the
quaternion of the record is this same function of the sample's finite pitch, bank and
heading, evaluated with the cosine and sine of the C library. -/
theorem quaternion_has_unit_norm :
    (∀ pitch bank hdg : ℝ,
      (quat_of_deg Real.cos Real.sin pitch bank hdg).1 ^ 2 +
        (quat_of_deg Real.cos Real.sin pitch bank hdg).2.1 ^ 2 +
        (quat_of_deg Real.cos Real.sin pitch bank hdg).2.2.1 ^ 2 +
        (quat_of_deg Real.cos Real.sin pitch bank hdg).2.2.2 ^ 2 = 1) ∧
    quat_of_deg Real.cos Real.sin 0 0 0 = (1, 0, 0, 0) ∧
    (∀ (L : Libm) (G : Shared) (R : RawSensors) (t_sec : ℚ) (pos_mode_snap : Int)
      (p b h : ℚ),
      (build_record L G
        { R with pitch_deg := Dbl.fin p, bank_deg := Dbl.fin b, hdg_true_deg := Dbl.fin h }
        t_sec pos_mode_snap).quaternion =
      (Dbl.fin (quat_of_deg L.cos L.sin p b h).1, Dbl.fin (quat_of_deg L.cos L.sin p b h).2.1,
       Dbl.fin (quat_of_deg L.cos L.sin p b h).2.2.1,
       Dbl.fin (quat_of_deg L.cos L.sin p b h).2.2.2)) := by
  refine ⟨fun pitch bank hdg => ?_, ?_, fun L G R t_sec pm p b h => ?_⟩
  · unfold quat_of_deg
    simp only []
    exact quat_of_half_norm _ _ _ _ _ _ (Real.cos_sq_add_sin_sq _) (Real.cos_sq_add_sin_sq _)
      (Real.cos_sq_add_sin_sq _)
  · simp [quat_of_deg, quat_of_half]
  · exact build_record_quaternion L G _ t_sec pm p b h rfl rfl rfl

end MSFSAPBridge
